import Mathlib

/-!
# Washco: slot inventory and booking engine

A shallow embedding of the booking and slot modules of the backend
(`bookings.service.js`, `bookings.repository.js`, `bookings.controller.js`,
`slots.repository.js`, `slots.service.js`, `errorHandler.js`, `audit.js`, and
`generateUniqueSlug` of `tenants.repository.js`) and the properties proved
about them.

The PostgreSQL tables are lists of rows.  `UPDATE ... WHERE id = $1` is a map
over the rows that rewrites every row with that id, `SELECT ... WHERE id = $1`
followed by `rows[0] || null` is `List.find?`, `INSERT` appends a row.
Identifiers (UUIDs in the application) are natural numbers, integer columns are
`Int`, calendar dates are day numbers and times of day are minutes since
midnight.
-/

namespace Washco

/-! ## Data model -/

/-- The `status` column of `time_slots`. -/
inductive SlotStatus where
  | available
  | full
  | blocked
  deriving DecidableEq, Repr

/-- The `status` column of `bookings`; the six keys of `STATUS_TRANSITIONS`. -/
inductive BookingStatus where
  | reserved
  | confirmed
  | in_progress
  | completed
  | cancelled
  | no_show
  deriving DecidableEq, Repr

/-- The `payment_status` column of `bookings`. -/
inductive PaymentStatus where
  | pending
  | paid
  | refunded
  deriving DecidableEq, Repr

/-- A row of `services` (the columns the booking path reads). -/
structure Service where
  id : Nat
  tenantId : Nat
  price : Nat
  isActive : Bool
  deriving DecidableEq, Repr

/-- A row of `time_slots`. -/
structure TimeSlot where
  id : Nat
  tenantId : Nat
  slotDate : Int
  startTime : Int
  endTime : Int
  maxCapacity : Int
  bookedCount : Int
  status : SlotStatus
  deriving DecidableEq, Repr

/-- A row of `bookings`. -/
structure Booking where
  id : Nat
  tenantId : Nat
  customerId : Nat
  serviceId : Nat
  timeSlotId : Nat
  bookingDate : Int
  startTime : Int
  endTime : Int
  totalAmount : Nat
  notes : Option String
  status : BookingStatus
  paymentStatus : PaymentStatus
  cancellationReason : Option String
  deriving DecidableEq, Repr

/-- The three tables the booking engine reads and writes. -/
structure Db where
  services : List Service
  slots : List TimeSlot
  bookings : List Booking
  deriving DecidableEq, Repr

/-! ## Errors (`middleware/errorHandler.js`) -/

/-- A thrown value: `api` is an `ApiError` (it carries `statusCode` and has
`isOperational = true`), `raw` is a plain `Error` with only a message. -/
inductive Err where
  | api (statusCode : Nat) (message : String)
  | raw (message : String)
  deriving DecidableEq, Repr

/-- The class `NotFoundError extends ApiError`: `super(404, message)`. -/
def NotFoundError (message : String) : Err := Err.api 404 message

/-- The class `BadRequestError extends ApiError`: `super(400, message, details)`. -/
def BadRequestError (message : String) : Err := Err.api 400 message

/-- The class `ForbiddenError extends ApiError`: `super(403, message)`. -/
def ForbiddenError (message : String) : Err := Err.api 403 message

/-- The class `ConflictError extends ApiError`: `super(409, message)`. -/
def ConflictError (message : String) : Err := Err.api 409 message

/-- The `isOperational` flag: set by the `ApiError` constructor, absent on a
plain `Error`. -/
def Err.isOperational : Err → Bool
  | Err.api _ _ => true
  | Err.raw _ => false

/-- The `message` property of a thrown value. -/
def Err.message : Err → String
  | Err.api _ m => m
  | Err.raw m => m

/-- A storage statement of `createWithLock` that throws (connection loss,
constraint violation): none, the `INSERT INTO bookings`, or the
`UPDATE time_slots` of `incrementBookedCount`. -/
inductive Fault where
  | none
  | insert
  | increment
  deriving DecidableEq, Repr

/-! ## `services.repository.js` -/

namespace servicesRepository

/-- The query `SELECT * FROM services WHERE id = $1`, then `rows[0] || null`. -/
def findById (db : Db) (id : Nat) : Option Service :=
  db.services.find? (fun s => s.id = id)

end servicesRepository

/-! ## `slots.repository.js` -/

namespace slotsRepository

/-- The query `SELECT * FROM time_slots WHERE id = $1`, then `rows[0] || null`. -/
def findById (db : Db) (id : Nat) : Option TimeSlot :=
  db.slots.find? (fun s => s.id = id)

/-- The query `SELECT * FROM time_slots WHERE id = $1 FOR UPDATE`, then
`rows[0] || null`:
in a sequential execution the row lock is always free, so this reads the row. -/
def findByIdWithLock (db : Db) (id : Nat) : Option TimeSlot :=
  db.slots.find? (fun s => s.id = id)

/-- The row update of `incrementBookedCount`; both right-hand sides read the
old row:
`booked_count = booked_count + 1`,
`status = CASE WHEN booked_count + 1 >= max_capacity THEN full ELSE status END`. -/
def incrementRow (s : TimeSlot) : TimeSlot :=
  { s with
    bookedCount := s.bookedCount + 1
    status := if s.bookedCount + 1 ≥ s.maxCapacity then SlotStatus.full else s.status }

/-- The row update of `decrementBookedCount`; both right-hand sides read the
old row:
`booked_count = GREATEST(0, booked_count - 1)`,
`status = CASE WHEN booked_count - 1 < max_capacity THEN available ELSE status END`. -/
def decrementRow (s : TimeSlot) : TimeSlot :=
  { s with
    bookedCount := max 0 (s.bookedCount - 1)
    status := if s.bookedCount - 1 < s.maxCapacity then SlotStatus.available else s.status }

/-- The row update of `unblockSlot`:
`status = CASE WHEN booked_count >= max_capacity THEN full ELSE available END`. -/
def unblockRow (s : TimeSlot) : TimeSlot :=
  { s with
    status := if s.bookedCount ≥ s.maxCapacity then SlotStatus.full else SlotStatus.available }

/-- The statement `UPDATE time_slots SET ... WHERE id = $1` with the row update
`f`. -/
def updateWhereId (f : TimeSlot → TimeSlot) (db : Db) (id : Nat) : Db :=
  { db with slots := db.slots.map (fun s => if s.id = id then f s else s) }

/-- The function `incrementBookedCount(client, id)`. -/
def incrementBookedCount (db : Db) (id : Nat) : Db :=
  updateWhereId incrementRow db id

/-- The function `decrementBookedCount(id)`. -/
def decrementBookedCount (db : Db) (id : Nat) : Db :=
  updateWhereId decrementRow db id

/-- The function `blockSlot(id)`:
`UPDATE time_slots SET status = blocked WHERE id = $1`. -/
def blockSlot (db : Db) (id : Nat) : Db :=
  updateWhereId (fun s => { s with status := SlotStatus.blocked }) db id

/-- The function `unblockSlot(id)`. -/
def unblockSlot (db : Db) (id : Nat) : Db :=
  updateWhereId unblockRow db id

end slotsRepository

/-! ## `bookings.repository.js` -/

/-- The arguments of `createWithLock`. -/
structure CreateArgs where
  tenantId : Nat
  customerId : Nat
  serviceId : Nat
  timeSlotId : Nat
  bookingDate : Int
  startTime : Int
  endTime : Int
  totalAmount : Nat
  notes : Option String
  deriving DecidableEq, Repr

/-- Modelled from the spec: the default of the primary key `bookings.id`, which
the migration (not in the source tree) declares; the spec requires booking
identifiers to be stable, globally unique values.  The generated id is one that
no row of the table carries. -/
def freshId (bookings : List Booking) : Nat :=
  (bookings.map (fun b => b.id)).foldr max 0 + 1

/-- The value thrown by a storage statement that fails: a driver error, which
is not an `ApiError`. -/
def storageError : Err := Err.raw "storage failure"

namespace bookingsRepository

/-- The function `findById(id)`: `SELECT b.*, ... FROM bookings b JOIN services
... JOIN tenants ... JOIN users ... WHERE b.id = $1`, `rows[0] || null`.  The joins only
add display columns; their partner rows exist for every booking (a service
with bookings is never deleted, see `services.repository.js`), so the lookup is
the lookup in `bookings`. -/
def findById (db : Db) (id : Nat) : Option Booking :=
  db.bookings.find? (fun b => b.id = id)

/-- The row that `INSERT INTO bookings (...) VALUES ($1, ..., $9, reserved,
pending) RETURNING *` creates. -/
def insertedRow (db : Db) (a : CreateArgs) : Booking :=
  { id := freshId db.bookings
    tenantId := a.tenantId
    customerId := a.customerId
    serviceId := a.serviceId
    timeSlotId := a.timeSlotId
    bookingDate := a.bookingDate
    startTime := a.startTime
    endTime := a.endTime
    totalAmount := a.totalAmount
    notes := a.notes
    status := BookingStatus.reserved
    paymentStatus := PaymentStatus.pending
    cancellationReason := none }

/-- The statements of `createWithLock` between `BEGIN` and `COMMIT`, run on the
transaction's view of the tables: the result, and the tables as the
transaction has written them when it stops. -/
def createWithLockBody (fault : Fault) (db : Db) (a : CreateArgs) :
    Except Err Booking × Db :=
  match slotsRepository.findByIdWithLock db a.timeSlotId with
  | none => (Except.error (Err.raw "SLOT_NOT_FOUND"), db)
  | some slot =>
    if slot.tenantId ≠ a.tenantId then
      (Except.error (Err.raw "SLOT_TENANT_MISMATCH"), db)
    else if slot.status = SlotStatus.blocked then
      (Except.error (Err.raw "SLOT_BLOCKED"), db)
    else if slot.bookedCount ≥ slot.maxCapacity then
      (Except.error (Err.raw "SLOT_FULL"), db)
    else if fault = Fault.insert then
      (Except.error storageError, db)
    else
      let row := insertedRow db a
      let db1 : Db := { db with bookings := db.bookings ++ [row] }
      if fault = Fault.increment then
        (Except.error storageError, db1)
      else
        (Except.ok row, slotsRepository.incrementBookedCount db1 a.timeSlotId)

/-- The function `createWithLock(args)`: `BEGIN`, the body, then `COMMIT` (the
writes of the body become the tables) or, in the `catch`, `ROLLBACK` (the tables are those
before `BEGIN`) and the error is rethrown. -/
def createWithLock (fault : Fault) (db : Db) (a : CreateArgs) :
    Except Err Booking × Db :=
  match createWithLockBody fault db a with
  | (Except.ok row, db') => (Except.ok row, db')
  | (Except.error e, _) => (Except.error e, db)

/-- The function `updateStatus(id, status, paymentStatus = null)`:
`UPDATE bookings SET status = $1 [, payment_status = $2] WHERE id = $n
RETURNING *`, `rows[0]`; the payment column is written only when
`paymentStatus` is given. -/
def updateStatus (db : Db) (id : Nat) (status : BookingStatus)
    (paymentStatus : Option PaymentStatus) : Option Booking × Db :=
  let db1 : Db :=
    { db with
      bookings := db.bookings.map (fun b =>
        if b.id = id then
          match paymentStatus with
          | some p => { b with status := status, paymentStatus := p }
          | none => { b with status := status }
        else b) }
  (db1.bookings.find? (fun b => b.id = id), db1)

/-- The function `cancel(id, reason)`: read the booking (`null` when absent),
set its status to cancelled with the reason, then `decrementBookedCount(booking.time_slot_id)`
with the slot id read at the start; returns `rows[0]` of the update. -/
def cancel (db : Db) (id : Nat) (reason : String) : Option Booking × Db :=
  match findById db id with
  | none => (none, db)
  | some booking =>
    let db1 : Db :=
      { db with
        bookings := db.bookings.map (fun b =>
          if b.id = id then
            { b with status := BookingStatus.cancelled, cancellationReason := some reason }
          else b) }
    (db1.bookings.find? (fun b => b.id = id),
      slotsRepository.decrementBookedCount db1 booking.timeSlotId)

end bookingsRepository

/-! ## `bookings.service.js` -/

/-- The argument object of `bookingsService.create`. -/
structure CreateRequest where
  customerId : Nat
  tenantId : Nat
  serviceId : Nat
  slotId : Nat
  notes : Option String
  deriving DecidableEq, Repr

/-- The table `STATUS_TRANSITIONS`. -/
def STATUS_TRANSITIONS : BookingStatus → List BookingStatus
  | BookingStatus.reserved => [BookingStatus.confirmed, BookingStatus.cancelled]
  | BookingStatus.confirmed =>
      [BookingStatus.in_progress, BookingStatus.cancelled, BookingStatus.no_show]
  | BookingStatus.in_progress => [BookingStatus.completed, BookingStatus.cancelled]
  | BookingStatus.completed => []
  | BookingStatus.cancelled => []
  | BookingStatus.no_show => []

/-- The text of a status value, as it appears in an error message. -/
def BookingStatus.text : BookingStatus → String
  | BookingStatus.reserved => "reserved"
  | BookingStatus.confirmed => "confirmed"
  | BookingStatus.in_progress => "in_progress"
  | BookingStatus.completed => "completed"
  | BookingStatus.cancelled => "cancelled"
  | BookingStatus.no_show => "no_show"

/-- JavaScript `reason || fallback` on an optional string: the fallback is
taken when the reason is missing or empty. -/
def orDefault (reason : Option String) (fallback : String) : String :=
  match reason with
  | none => fallback
  | some r => if r = "" then fallback else r

/-- The value the database driver hands over for the column `booking_date` of
a row it has read: the text `YYYY-MM-DD`, or a JavaScript `Date`, which is the
driver's value for a column of type DATE when no type parser is set
(`config/database.js` sets none). -/
inductive DateColumn where
  | text
  | date
  deriving DecidableEq, Repr

/-- What `cancelByCustomer` takes from its environment: the instant of
`new Date()` in milliseconds since the epoch, the kind of value the driver
hands over for `booking_date`, and the minutes by which the local time of the
process is ahead of UTC at the date and time of the booking. -/
structure CancelEnv where
  now : Int
  bookingDate : DateColumn
  utcOffset : Int
  deriving DecidableEq, Repr

/-- The value `bookingTime` of `cancelByCustomer`, the date
`new Date(booking_date + T + start_time)` built by a template literal, in
milliseconds since the epoch; `none` is `Invalid Date`.  With the date as text
the literal reads `YYYY-MM-DDTHH:MM:SS`, a date and time without zone, which is
taken as local time.  With a `Date` the template writes the long text of the
Date (weekday, month name, day, year, time, zone) before the `T`, which no
date format accepts. -/
def bookingTime (env : CancelEnv) (b : Booking) : Option Int :=
  match env.bookingDate with
  | DateColumn.text => some ((b.bookingDate * 1440 + b.startTime - env.utcOffset) * 60000)
  | DateColumn.date => none

/-- The test `hoursUntilBooking < 2`, where `hoursUntilBooking` is
`(bookingTime - now) / (1000 * 60 * 60)`, written without the division.  The
difference with an invalid date is `NaN`, and a comparison with `NaN` is
false. -/
def underTwoHours (bookingTime : Option Int) (now : Int) : Bool :=
  match bookingTime with
  | none => false
  | some t => decide (t - now < 2 * (1000 * 60 * 60))

namespace bookingsService

/-- The `catch` of `create`: the three messages of `createWithLock` it
translates; every other error is rethrown as it is. -/
def translate (e : Err) : Err :=
  if e.message = "SLOT_NOT_FOUND" then NotFoundError "Time slot not found."
  else if e.message = "SLOT_BLOCKED" then BadRequestError "This time slot is not available."
  else if e.message = "SLOT_FULL" then ConflictError "This time slot is no longer available."
  else e

/-- The function `create(request)`: validate the service and the slot, then
`createWithLock`; returns the inserted row (which the source passes through
`formatBooking`) or the thrown error, and the tables afterwards. -/
def create (fault : Fault) (db : Db) (r : CreateRequest) : Except Err Booking × Db :=
  match servicesRepository.findById db r.serviceId with
  | none => (Except.error (NotFoundError "Service not found."), db)
  | some service =>
    if service.tenantId ≠ r.tenantId then
      (Except.error (BadRequestError "Service does not belong to this car wash."), db)
    else if !service.isActive then
      (Except.error (BadRequestError "Service is not available."), db)
    else
      match slotsRepository.findById db r.slotId with
      | none => (Except.error (NotFoundError "Time slot not found."), db)
      | some slot =>
        if slot.tenantId ≠ r.tenantId then
          (Except.error (BadRequestError "Time slot does not belong to this car wash."), db)
        else
          match bookingsRepository.createWithLock fault db
              { tenantId := r.tenantId
                customerId := r.customerId
                serviceId := r.serviceId
                timeSlotId := r.slotId
                bookingDate := slot.slotDate
                startTime := slot.startTime
                endTime := slot.endTime
                totalAmount := service.price
                notes := r.notes } with
          | (Except.ok booking, db') => (Except.ok booking, db')
          | (Except.error e, db') => (Except.error (translate e), db')

/-- The function `updateStatus(id, tenantId, newStatus)`; on success the value is what the
repository returns (`rows[0]` of its update).  `newStatus` ranges over the six
status values; any other string is in no list of the table and is refused in
the same way. -/
def updateStatus (db : Db) (id tenantId : Nat) (newStatus : BookingStatus) :
    Except Err (Option Booking) × Db :=
  match bookingsRepository.findById db id with
  | none => (Except.error (NotFoundError "Booking not found."), db)
  | some booking =>
    if booking.tenantId ≠ tenantId then
      (Except.error (ForbiddenError "Access denied."), db)
    else if !(STATUS_TRANSITIONS booking.status).contains newStatus then
      (Except.error (BadRequestError
        ("Cannot transition from '" ++ booking.status.text ++ "' to '"
          ++ newStatus.text ++ "'.")), db)
    else
      let paymentStatus : Option PaymentStatus :=
        if newStatus = BookingStatus.completed ∧ booking.paymentStatus = PaymentStatus.pending
        then some PaymentStatus.paid else none
      let r := bookingsRepository.updateStatus db id newStatus paymentStatus
      (Except.ok r.1, r.2)

/-- The function `cancelByCustomer(id, customerId, reason)` in the environment
`env`. -/
def cancelByCustomer (env : CancelEnv) (db : Db) (id customerId : Nat)
    (reason : Option String) : Except Err (Option Booking) × Db :=
  match bookingsRepository.findById db id with
  | none => (Except.error (NotFoundError "Booking not found."), db)
  | some booking =>
    if booking.customerId ≠ customerId then
      (Except.error (ForbiddenError "Access denied."), db)
    else if !([BookingStatus.reserved, BookingStatus.confirmed].contains booking.status) then
      (Except.error (BadRequestError "This booking cannot be cancelled."), db)
    else if underTwoHours (bookingTime env booking) env.now then
      (Except.error (BadRequestError
        "Bookings cannot be cancelled less than 2 hours before the scheduled time."), db)
    else
      let r := bookingsRepository.cancel db id (orDefault reason "Cancelled by customer")
      (Except.ok r.1, r.2)

/-- The function `cancelByManager(id, tenantId, reason)`. -/
def cancelByManager (db : Db) (id tenantId : Nat) (reason : Option String) :
    Except Err (Option Booking) × Db :=
  match bookingsRepository.findById db id with
  | none => (Except.error (NotFoundError "Booking not found."), db)
  | some booking =>
    if booking.tenantId ≠ tenantId then
      (Except.error (ForbiddenError "Access denied."), db)
    else if [BookingStatus.completed, BookingStatus.cancelled].contains booking.status then
      (Except.error (BadRequestError "This booking cannot be cancelled."), db)
    else
      let r := bookingsRepository.cancel db id (orDefault reason "Cancelled by car wash")
      (Except.ok r.1, r.2)

end bookingsService

/-! ## Sequences of operations -/

/-- The operations that touch a slot's occupancy or status. -/
inductive InventoryOp where
  | create (fault : Fault) (r : CreateRequest)
  | cancel (id : Nat) (reason : String)
  | blockSlot (id : Nat)
  | unblockSlot (id : Nat)
  deriving DecidableEq, Repr

/-- The tables after one operation (its result is dropped). -/
def InventoryOp.apply (db : Db) : InventoryOp → Db
  | InventoryOp.create fault r => (bookingsService.create fault db r).2
  | InventoryOp.cancel id reason => (bookingsRepository.cancel db id reason).2
  | InventoryOp.blockSlot id => slotsRepository.blockSlot db id
  | InventoryOp.unblockSlot id => slotsRepository.unblockSlot db id

/-- The tables after a sequence of operations, run one after another. -/
def runOps (db : Db) (ops : List InventoryOp) : Db :=
  ops.foldl InventoryOp.apply db

/-- The primary key of `time_slots`: no two rows share an id. -/
def slotIdsUnique (db : Db) : Prop :=
  (db.slots.map (fun s => s.id)).Nodup

/-- The capacity bound of one slot. -/
def withinCapacity (s : TimeSlot) : Prop :=
  0 ≤ s.bookedCount ∧ s.bookedCount ≤ s.maxCapacity

/-- Modelled from the spec: the column defaults of `time_slots`, declared by the
migration (not in the source tree).  Slot generation inserts `max_capacity`
only; a fresh slot has `bookedCount = 0`, status available and a capacity of at
least 1. -/
def freshSlot (s : TimeSlot) : Prop :=
  1 ≤ s.maxCapacity ∧ s.bookedCount = 0 ∧ s.status = SlotStatus.available

/-- The service operations of the booking lifecycle. -/
inductive ServiceOp where
  | create (fault : Fault) (r : CreateRequest)
  | updateStatus (id tenantId : Nat) (newStatus : BookingStatus)
  | cancelByCustomer (env : CancelEnv) (id customerId : Nat) (reason : Option String)
  | cancelByManager (id tenantId : Nat) (reason : Option String)
  deriving DecidableEq, Repr

/-- The tables after one service operation (its result is dropped). -/
def ServiceOp.apply (db : Db) : ServiceOp → Db
  | ServiceOp.create fault r => (bookingsService.create fault db r).2
  | ServiceOp.updateStatus id tenantId newStatus =>
      (bookingsService.updateStatus db id tenantId newStatus).2
  | ServiceOp.cancelByCustomer env id customerId reason =>
      (bookingsService.cancelByCustomer env db id customerId reason).2
  | ServiceOp.cancelByManager id tenantId reason =>
      (bookingsService.cancelByManager db id tenantId reason).2

/-- The tables after a sequence of service operations, run one after another. -/
def runService (db : Db) (ops : List ServiceOp) : Db :=
  ops.foldl ServiceOp.apply db

/-- The operation is not an `updateStatus` whose new status is cancelled. -/
def ServiceOp.noStatusCancel : ServiceOp → Bool
  | ServiceOp.updateStatus _ _ newStatus => newStatus != BookingStatus.cancelled
  | _ => true

/-- The booking holds a seat of slot `slotId`: it references the slot and its
status is not cancelled. -/
def holdsSeat (slotId : Nat) (b : Booking) : Bool :=
  b.timeSlotId = slotId && b.status != BookingStatus.cancelled

/-- The number of non-cancelled bookings that reference slot `slotId`. -/
def activeCount (db : Db) (slotId : Nat) : Nat :=
  db.bookings.countP (holdsSeat slotId)

/-- Every slot's `bookedCount` is the number of non-cancelled bookings that
reference it. -/
def occupancyConsistent (db : Db) : Prop :=
  ∀ s ∈ db.slots, s.bookedCount = (activeCount db s.id : Int)

/-- The primary key of `bookings`: no two rows share an id. -/
def bookingIdsUnique (db : Db) : Prop :=
  (db.bookings.map (fun b => b.id)).Nodup

instance (db : Db) : Decidable (slotIdsUnique db) := by
  unfold slotIdsUnique; infer_instance

instance (db : Db) : Decidable (bookingIdsUnique db) := by
  unfold bookingIdsUnique; infer_instance

instance (db : Db) : Decidable (occupancyConsistent db) := by
  unfold occupancyConsistent; infer_instance

instance (s : TimeSlot) : Decidable (withinCapacity s) := by
  unfold withinCapacity; infer_instance

instance (s : TimeSlot) : Decidable (freshSlot s) := by
  unfold freshSlot; infer_instance

/-- The `create` calls `rs` run one after another with no storage fault: the
results in order, and the tables at the end. -/
def createAll : Db → List CreateRequest → List (Except Err Booking) × Db
  | db, [] => ([], db)
  | db, r :: rs =>
    let step := bookingsService.create Fault.none db r
    let rest := createAll step.2 rs
    (step.1 :: rest.1, rest.2)

/-- A request that names tenant `t`, slot `sid` and a service of the tenant that
is active in the service table `svcs`. -/
def validRequest (svcs : List Service) (t sid : Nat) (r : CreateRequest) : Prop :=
  r.tenantId = t ∧ r.slotId = sid ∧
    ∃ service, svcs.find? (fun s => s.id = r.serviceId) = some service ∧
      service.tenantId = t ∧ service.isActive = true

/-- The allowed transitions as the specification lists them:
reserved to confirmed or cancelled; confirmed to in_progress, cancelled or
no_show; in_progress to completed or cancelled; nothing out of completed,
cancelled or no_show. -/
def transitionAllowedSpec : BookingStatus → BookingStatus → Bool
  | BookingStatus.reserved, BookingStatus.confirmed => true
  | BookingStatus.reserved, BookingStatus.cancelled => true
  | BookingStatus.confirmed, BookingStatus.in_progress => true
  | BookingStatus.confirmed, BookingStatus.cancelled => true
  | BookingStatus.confirmed, BookingStatus.no_show => true
  | BookingStatus.in_progress, BookingStatus.completed => true
  | BookingStatus.in_progress, BookingStatus.cancelled => true
  | _, _ => false

/-! ## Slot generation and slot management (`slots.repository.js`, `slots.service.js`) -/

/-- A row of `operating_hours`; `openTime` and `closeTime` are the values
`openHour * 60 + openMin` and `closeHour * 60 + closeMin` that `generateSlots`
computes from the two time columns. -/
structure OperatingHours where
  tenantId : Nat
  dayOfWeek : Nat
  openTime : Int
  closeTime : Int
  isClosed : Bool
  deriving DecidableEq, Repr

/-- An element of the array `slots` that `generateSlots` builds and
`bulkCreate` inserts.  `startTime` and `endTime` are the minute counts whose
text `HH:MM:00` the source writes. -/
structure SlotCandidate where
  tenantId : Nat
  slotDate : Int
  startTime : Int
  endTime : Int
  maxCapacity : Int
  deriving DecidableEq, Repr

/-- The value `generateSlots` returns. -/
structure GenerateResult where
  created : Nat
  total : Nat
  deriving DecidableEq, Repr

/-- The weekday `d.getDay()` of a calendar day, with 0 for Sunday; day 0 is
Thursday 1 January 1970. -/
def dayOfWeek (day : Int) : Nat :=
  ((day + 4) % 7).toNat

/-- Modelled from the spec: the default of the primary key `time_slots.id`,
which the migration (not in the source tree) declares; the generated id is one
that no row of the table carries. -/
def freshSlotId (slots : List TimeSlot) : Nat :=
  (slots.map (fun s => s.id)).foldr max 0 + 1

namespace slotsRepository

/-- The function `getOperatingHours(tenantId)`:
`SELECT * FROM operating_hours WHERE tenant_id = $1 ORDER BY day_of_week`.  The
rows are kept in table order: the ordering only arranges rows of different
weekdays, which the caller files under different keys. -/
def getOperatingHours (hours : List OperatingHours) (tenantId : Nat) : List OperatingHours :=
  hours.filter (fun oh => oh.tenantId = tenantId)

/-- The conflict target of `ON CONFLICT (tenant_id, slot_date, start_time)`: a
row of the table with the tenant, date and start time of the candidate. -/
def conflicts (slots : List TimeSlot) (c : SlotCandidate) : Bool :=
  slots.any (fun s => s.tenantId = c.tenantId && s.slotDate = c.slotDate &&
    s.startTime = c.startTime)

/-- Modelled from the spec: the row an insert of a candidate creates; the
insert names five columns, `id`, `booked_count` and `status` take the defaults
of the migration (not in the source tree): a new id, 0 and available. -/
def insertedSlot (slots : List TimeSlot) (c : SlotCandidate) : TimeSlot :=
  { id := freshSlotId slots
    tenantId := c.tenantId
    slotDate := c.slotDate
    startTime := c.startTime
    endTime := c.endTime
    maxCapacity := c.maxCapacity
    bookedCount := 0
    status := SlotStatus.available }

/-- The statement `INSERT INTO time_slots (...) VALUES ... ON CONFLICT
(tenant_id, slot_date, start_time) DO NOTHING RETURNING *` over the value
tuples in order: a tuple that conflicts with a row of the table, or with a row
the statement has already inserted, is skipped.  The result is the rows
returned and the table afterwards. -/
def insertAll : List TimeSlot → List SlotCandidate → List TimeSlot × List TimeSlot
  | table, [] => ([], table)
  | table, c :: cs =>
    if conflicts table c then insertAll table cs
    else
      let row := insertedSlot table c
      let rest := insertAll (table ++ [row]) cs
      (row :: rest.1, rest.2)

/-- The function `bulkCreate(slots)`: nothing for an empty array, otherwise the
one insert statement. -/
def bulkCreate (db : Db) (slots : List SlotCandidate) : List TimeSlot × Db :=
  if slots.length = 0 then ([], db)
  else ((insertAll db.slots slots).1, { db with slots := (insertAll db.slots slots).2 })

end slotsRepository

namespace slotsService

/-- The map `hoursMap` after the loop `hoursMap.set(oh.day_of_week, oh)` over
the rows: a later row replaces an earlier one of the same weekday. -/
def hoursMap (rows : List OperatingHours) : Nat → Option OperatingHours :=
  rows.foldl (fun m oh => fun k => if k = oh.dayOfWeek then some oh else m k) (fun _ => none)

/-- The inner loop `for (let m = openMinutes; m + slotDuration <= closeMinutes;
m += slotDuration)` from the minute `m`, with `fuel` iterations allowed: the
candidates pushed, or `none` when the loop has not ended after `fuel`
iterations. -/
def windowLoop (tenantId : Nat) (slotDate slotDuration closeMinutes capacity : Int) :
    Nat → Int → Option (List SlotCandidate)
  | 0, m => if m + slotDuration ≤ closeMinutes then none else some []
  | fuel + 1, m =>
    if m + slotDuration ≤ closeMinutes then
      (windowLoop tenantId slotDate slotDuration closeMinutes capacity fuel
          (m + slotDuration)).map
        (fun rest =>
          { tenantId := tenantId, slotDate := slotDate, startTime := m,
            endTime := m + slotDuration, maxCapacity := capacity } :: rest)
    else some []

/-- The body of the date loop for the calendar day `day`: nothing when the
weekday has no row or a closed one, otherwise the inner loop from the opening
minute. -/
def dayCandidates (fuel : Nat) (map : Nat → Option OperatingHours) (tenantId : Nat)
    (slotDuration capacity : Int) (day : Int) : Option (List SlotCandidate) :=
  match map (dayOfWeek day) with
  | none => some []
  | some oh =>
    if oh.isClosed then some []
    else windowLoop tenantId day slotDuration oh.closeTime capacity fuel oh.openTime

/-- The date loop `for (let d = new Date(start); d <= end;
d.setDate(d.getDate() + 1))` as `n` iterations from the day `day`; `n` is the
number of days from `day` to the end of the range.  This is the loop in a
process time zone that has a local midnight on every day of the range;
`dateLoopIn` below is the loop on dates, with the time zone explicit. -/
def dateLoop (body : Int → Option (List SlotCandidate)) : Nat → Int → Option (List SlotCandidate)
  | 0, _ => some []
  | n + 1, day =>
    match body day with
    | none => none
    | some cs => (dateLoop body n (day + 1)).map (fun rest => cs ++ rest)

/-- The array `slots` of `generateSlots` for the calendar days `startDate` to
`endDate`, or `none` when an inner loop does not end within `fuel` iterations. -/
def candidates (fuel : Nat) (rows : List OperatingHours) (tenantId : Nat)
    (startDate endDate slotDuration capacity : Int) : Option (List SlotCandidate) :=
  dateLoop (dayCandidates fuel (hoursMap rows) tenantId slotDuration capacity)
    (endDate - startDate + 1).toNat startDate

/-- The function `generateSlots(tenantId, startDate, endDate, slotDuration,
capacity)` over the table `hours` of operating hours; the dates are calendar
days.  The value is `none` when an inner loop does not end within `fuel`
iterations, otherwise the result or error and the tables afterwards. -/
def generateSlots (fuel : Nat) (hours : List OperatingHours) (db : Db) (tenantId : Nat)
    (startDate endDate slotDuration capacity : Int) :
    Option (Except Err GenerateResult × Db) :=
  let operatingHours := slotsRepository.getOperatingHours hours tenantId
  if operatingHours.length = 0 then
    some (Except.error (BadRequestError "Please set operating hours first."), db)
  else
    match candidates fuel operatingHours tenantId startDate endDate slotDuration capacity with
    | none => none
    | some slots =>
      let r := slotsRepository.bulkCreate db slots
      some (Except.ok { created := r.1.length, total := slots.length }, r.2)

/-- The function `toggleSlotBlock(id, tenantId, block)`; on success the value is
the row the repository update returns. -/
def toggleSlotBlock (db : Db) (id tenantId : Nat) (block : Bool) :
    Except Err (Option TimeSlot) × Db :=
  match slotsRepository.findById db id with
  | none => (Except.error (NotFoundError "Slot not found."), db)
  | some slot =>
    if slot.tenantId ≠ tenantId then
      (Except.error (ForbiddenError "Access denied."), db)
    else if block then
      (Except.ok (slotsRepository.findById (slotsRepository.blockSlot db id) id),
        slotsRepository.blockSlot db id)
    else
      (Except.ok (slotsRepository.findById (slotsRepository.unblockSlot db id) id),
        slotsRepository.unblockSlot db id)

end slotsService

/-! ## Cancellation with failing statements -/

/-- A statement of `bookingsRepository.cancel` that throws: none, the
`UPDATE bookings`, or the `UPDATE time_slots` of `decrementBookedCount`. -/
inductive CancelFault where
  | none
  | update
  | decrement
  deriving DecidableEq, Repr

namespace bookingsRepository

/-- The function `cancel(id, reason)` with a statement that may throw.  Each
statement goes through the pool's `query` on its own, there is no `BEGIN` and
no `catch`: what a statement has written stays written when a later one
throws. -/
def cancelWithFault (fault : CancelFault) (db : Db) (id : Nat) (reason : String) :
    Except Err (Option Booking) × Db :=
  match findById db id with
  | none => (Except.ok none, db)
  | some booking =>
    if fault = CancelFault.update then (Except.error storageError, db)
    else
      let db1 : Db :=
        { db with
          bookings := db.bookings.map (fun b =>
            if b.id = id then
              { b with status := BookingStatus.cancelled, cancellationReason := some reason }
            else b) }
      if fault = CancelFault.decrement then (Except.error storageError, db1)
      else
        (Except.ok (db1.bookings.find? (fun b => b.id = id)),
          slotsRepository.decrementBookedCount db1 booking.timeSlotId)

end bookingsRepository

/-- The status of a slot agrees with its occupancy: unless it is blocked, it is
full exactly when `bookedCount >= maxCapacity` and available exactly when
`bookedCount < maxCapacity`. -/
def statusConsistent (s : TimeSlot) : Prop :=
  s.status ≠ SlotStatus.blocked →
    ((s.status = SlotStatus.full ↔ s.bookedCount ≥ s.maxCapacity) ∧
      (s.status = SlotStatus.available ↔ s.bookedCount < s.maxCapacity))

/-- The unique constraint behind `ON CONFLICT (tenant_id, slot_date,
start_time)`: no two rows share tenant, date and start time. -/
def slotKeysUnique (slots : List TimeSlot) : Prop :=
  slots.Pairwise (fun a b =>
    ¬ (a.tenantId = b.tenantId ∧ a.slotDate = b.slotDate ∧ a.startTime = b.startTime))

instance (s : TimeSlot) : Decidable (statusConsistent s) := by
  unfold statusConsistent; infer_instance

instance (slots : List TimeSlot) : Decidable (slotKeysUnique slots) := by
  unfold slotKeysUnique; infer_instance

/-- The candidates of one open day as the specification describes them, from
the opening minute `m`: `floor((closeMinutes - m) / slotDuration)` of them (none
when that is negative), number `k` starting at `m + k * slotDuration` and
ending at `m + (k + 1) * slotDuration`. -/
def windowSlotsSpec (tenantId : Nat) (slotDate slotDuration closeMinutes capacity m : Int) :
    List SlotCandidate :=
  (List.range ((closeMinutes - m) / slotDuration).toNat).map (fun (k : Nat) =>
    { tenantId := tenantId, slotDate := slotDate, startTime := m + (k : Int) * slotDuration,
      endTime := m + ((k : Int) + 1) * slotDuration, maxCapacity := capacity })

/-! ## Example tables -/

/-- One tenant with one active service, one slot of capacity 1 that is booked
by one reserved booking. -/
def dbBooked : Db :=
  { services := [{ id := 1, tenantId := 1, price := 500, isActive := true }]
    slots := [{ id := 1, tenantId := 1, slotDate := 20000, startTime := 480, endTime := 540,
                maxCapacity := 1, bookedCount := 1, status := SlotStatus.full }]
    bookings := [{ id := 1, tenantId := 1, customerId := 7, serviceId := 1, timeSlotId := 1,
                   bookingDate := 20000, startTime := 480, endTime := 540, totalAmount := 500,
                   notes := none, status := BookingStatus.reserved,
                   paymentStatus := PaymentStatus.pending, cancellationReason := none }] }

/-- One tenant with one active service and two freshly generated slots of
capacity 2. -/
def dbFresh : Db :=
  { services := [{ id := 1, tenantId := 1, price := 500, isActive := true }]
    slots := [{ id := 1, tenantId := 1, slotDate := 20000, startTime := 480, endTime := 540,
                maxCapacity := 2, bookedCount := 0, status := SlotStatus.available },
              { id := 2, tenantId := 1, slotDate := 20000, startTime := 540, endTime := 600,
                maxCapacity := 2, bookedCount := 0, status := SlotStatus.available }]
    bookings := [] }

/-- The service of the example tables. -/
def serviceOne : Service :=
  { id := 1, tenantId := 1, price := 500, isActive := true }

/-- The booking of `dbBooked`. -/
def bookingReserved : Booking :=
  { id := 1, tenantId := 1, customerId := 7, serviceId := 1, timeSlotId := 1,
    bookingDate := 20000, startTime := 480, endTime := 540, totalAmount := 500,
    notes := none, status := BookingStatus.reserved,
    paymentStatus := PaymentStatus.pending, cancellationReason := none }

/-- The first slot of `dbFresh`. -/
def slotOne : TimeSlot :=
  { id := 1, tenantId := 1, slotDate := 20000, startTime := 480, endTime := 540,
    maxCapacity := 2, bookedCount := 0, status := SlotStatus.available }

/-- A booking request of customer 7 for service 1 on slot 1 of tenant 1. -/
def requestSlot1 : CreateRequest :=
  { customerId := 7, tenantId := 1, serviceId := 1, slotId := 1, notes := none }

/-- The row that `requestSlot1` inserts into the empty booking table of
`dbFresh`. -/
def bookingSlot1 : Booking :=
  { id := 1, tenantId := 1, customerId := 7, serviceId := 1, timeSlotId := 1,
    bookingDate := 20000, startTime := 480, endTime := 540, totalAmount := 500,
    notes := none, status := BookingStatus.reserved,
    paymentStatus := PaymentStatus.pending, cancellationReason := none }

/-- One slot of capacity 2 holding one booking whose status is no_show. -/
def dbNoShow : Db :=
  { services := [{ id := 1, tenantId := 1, price := 500, isActive := true }]
    slots := [{ id := 1, tenantId := 1, slotDate := 20000, startTime := 480, endTime := 540,
                maxCapacity := 2, bookedCount := 1, status := SlotStatus.available }]
    bookings := [{ id := 1, tenantId := 1, customerId := 7, serviceId := 1, timeSlotId := 1,
                   bookingDate := 20000, startTime := 480, endTime := 540, totalAmount := 500,
                   notes := none, status := BookingStatus.no_show,
                   paymentStatus := PaymentStatus.pending, cancellationReason := none }] }

/-- One slot of capacity 2 holding one confirmed booking of customer 7 that
starts on day 20000 at 10:00. -/
def dbConfirmed : Db :=
  { services := [{ id := 1, tenantId := 1, price := 500, isActive := true }]
    slots := [{ id := 1, tenantId := 1, slotDate := 20000, startTime := 600, endTime := 660,
                maxCapacity := 2, bookedCount := 1, status := SlotStatus.available }]
    bookings := [{ id := 1, tenantId := 1, customerId := 7, serviceId := 1, timeSlotId := 1,
                   bookingDate := 20000, startTime := 600, endTime := 660, totalAmount := 500,
                   notes := none, status := BookingStatus.confirmed,
                   paymentStatus := PaymentStatus.pending, cancellationReason := none }] }

/-- The booking of `dbConfirmed`. -/
def bookingConfirmed : Booking :=
  { id := 1, tenantId := 1, customerId := 7, serviceId := 1, timeSlotId := 1,
    bookingDate := 20000, startTime := 600, endTime := 660, totalAmount := 500,
    notes := none, status := BookingStatus.confirmed,
    paymentStatus := PaymentStatus.pending, cancellationReason := none }

/-- One blocked slot of capacity 2 holding one reserved booking. -/
def dbBlocked : Db :=
  { services := [{ id := 1, tenantId := 1, price := 500, isActive := true }]
    slots := [{ id := 1, tenantId := 1, slotDate := 20000, startTime := 480, endTime := 540,
                maxCapacity := 2, bookedCount := 1, status := SlotStatus.blocked }]
    bookings := [{ id := 1, tenantId := 1, customerId := 7, serviceId := 1, timeSlotId := 1,
                   bookingDate := 20000, startTime := 480, endTime := 540, totalAmount := 500,
                   notes := none, status := BookingStatus.reserved,
                   paymentStatus := PaymentStatus.pending, cancellationReason := none }] }

/-- Operating hours of tenant 1: closed on Sunday (with hours filled in), open
on Monday from 08:00 to 10:00; and a row of tenant 2. -/
def hoursWeek : List OperatingHours :=
  [{ tenantId := 1, dayOfWeek := 0, openTime := 480, closeTime := 1080, isClosed := true },
   { tenantId := 1, dayOfWeek := 1, openTime := 480, closeTime := 600, isClosed := false },
   { tenantId := 2, dayOfWeek := 0, openTime := 540, closeTime := 1020, isClosed := false }]

/-- The Monday row of `hoursWeek`. -/
def hoursMonday : OperatingHours :=
  { tenantId := 1, dayOfWeek := 1, openTime := 480, closeTime := 600, isClosed := false }

/-- The argument `data` of `update` and `updateSlot`: the two keys of
`fieldMappings`; a key that is `undefined` is `none`. -/
structure SlotUpdate where
  maxCapacity : Option Int
  status : Option SlotStatus
  deriving DecidableEq, Repr

namespace slotsRepository

/-- The row update of `update(id, data)`: `max_capacity = $n` and `status = $n`,
each only when its key is given. -/
def updateRow (data : SlotUpdate) (s : TimeSlot) : TimeSlot :=
  { s with
    maxCapacity := data.maxCapacity.getD s.maxCapacity
    status := data.status.getD s.status }

/-- The function `update(id, data)`: `null` when no key is given, otherwise
`UPDATE time_slots SET ... WHERE id = $n RETURNING *`, `rows[0]`. -/
def update (db : Db) (id : Nat) (data : SlotUpdate) : Option TimeSlot × Db :=
  if data.maxCapacity.isNone && data.status.isNone then (none, db)
  else
    (findById (updateWhereId (updateRow data) db id) id, updateWhereId (updateRow data) db id)

end slotsRepository

namespace slotsService

/-- The function `updateSlot(id, tenantId, data)`. -/
def updateSlot (db : Db) (id tenantId : Nat) (data : SlotUpdate) :
    Except Err (Option TimeSlot) × Db :=
  match slotsRepository.findById db id with
  | none => (Except.error (NotFoundError "Slot not found."), db)
  | some slot =>
    if slot.tenantId ≠ tenantId then
      (Except.error (ForbiddenError "Access denied."), db)
    else
      let r := slotsRepository.update db id data
      (Except.ok r.1, r.2)

end slotsService

/-- One slot of capacity 3 holding three reserved bookings. -/
def dbThree : Db :=
  { services := [{ id := 1, tenantId := 1, price := 500, isActive := true }]
    slots := [{ id := 1, tenantId := 1, slotDate := 20000, startTime := 480, endTime := 540,
                maxCapacity := 3, bookedCount := 3, status := SlotStatus.full }]
    bookings := [{ id := 1, tenantId := 1, customerId := 7, serviceId := 1, timeSlotId := 1,
                   bookingDate := 20000, startTime := 480, endTime := 540, totalAmount := 500,
                   notes := none, status := BookingStatus.reserved,
                   paymentStatus := PaymentStatus.pending, cancellationReason := none },
                 { id := 2, tenantId := 1, customerId := 8, serviceId := 1, timeSlotId := 1,
                   bookingDate := 20000, startTime := 480, endTime := 540, totalAmount := 500,
                   notes := none, status := BookingStatus.reserved,
                   paymentStatus := PaymentStatus.pending, cancellationReason := none },
                 { id := 3, tenantId := 1, customerId := 9, serviceId := 1, timeSlotId := 1,
                   bookingDate := 20000, startTime := 480, endTime := 540, totalAmount := 500,
                   notes := none, status := BookingStatus.reserved,
                   paymentStatus := PaymentStatus.pending, cancellationReason := none }] }

/-- The slot of `dbThree`. -/
def slotThree : TimeSlot :=
  { id := 1, tenantId := 1, slotDate := 20000, startTime := 480, endTime := 540,
    maxCapacity := 3, bookedCount := 3, status := SlotStatus.full }

/-- One slot holding one booking that is in progress and not yet paid. -/
def dbInProgress : Db :=
  { services := [{ id := 1, tenantId := 1, price := 500, isActive := true }]
    slots := [{ id := 1, tenantId := 1, slotDate := 20000, startTime := 480, endTime := 540,
                maxCapacity := 2, bookedCount := 1, status := SlotStatus.available }]
    bookings := [{ id := 1, tenantId := 1, customerId := 7, serviceId := 1, timeSlotId := 1,
                   bookingDate := 20000, startTime := 480, endTime := 540, totalAmount := 500,
                   notes := none, status := BookingStatus.in_progress,
                   paymentStatus := PaymentStatus.pending, cancellationReason := none }] }

/-- The booking of `dbInProgress`. -/
def bookingInProgress : Booking :=
  { id := 1, tenantId := 1, customerId := 7, serviceId := 1, timeSlotId := 1,
    bookingDate := 20000, startTime := 480, endTime := 540, totalAmount := 500,
    notes := none, status := BookingStatus.in_progress,
    paymentStatus := PaymentStatus.pending, cancellationReason := none }

/-! ## Listing and cleanup of slots -/

/-- A date argument of a repository function, as the caller passes it: the
text `YYYY-MM-DD` of a calendar day, or a JavaScript `Date`, given by its
instant in milliseconds since the epoch.  The routes validate `startDate` and
`endDate` with `Joi.date()`, which turns the text of the query into a `Date`,
and the controllers and `getAvailableSlots` pass it on unchanged. -/
inductive DateParam where
  | text (day : Int)
  | date (instant : Int)
  deriving DecidableEq, Repr

/-- The value `Joi.date().iso()` makes of the text `YYYY-MM-DD`: the `Date` of
00:00 UTC of that day. -/
def joiDate (day : Int) : DateParam := DateParam.date (day * 86400000)

/-- The calendar day PostgreSQL reads from a parameter under `$n::date`.  A
text is the day it names.  A `Date` is written by the driver in the local time
of the process (`YYYY-MM-DDTHH:MM:SS.mmm+hh:mm`) and the cast keeps the date
part, which is the local calendar day of the instant; `utcOffset` gives the
minutes by which the local time of the process is ahead of UTC at an
instant. -/
def DateParam.sqlDate (utcOffset : Int → Int) : DateParam → Int
  | DateParam.text day => day
  | DateParam.date instant => (instant + utcOffset instant * 60000) / 86400000

/-- An element of the array `getAvailableSlots` returns: the object `formatSlot`
builds, with exactly these six keys. -/
structure AvailableSlot where
  id : Nat
  date : Int
  startTime : Int
  endTime : Int
  available : Int
  status : SlotStatus
  deriving DecidableEq, Repr

namespace slotsRepository

/-- The order of `ORDER BY slot_date, start_time`. -/
def slotOrder (a b : TimeSlot) : Prop :=
  a.slotDate < b.slotDate ∨ (a.slotDate = b.slotDate ∧ a.startTime ≤ b.startTime)

instance : DecidableRel slotOrder := fun a b => by
  unfold slotOrder; infer_instance

/-- The function `findByTenantAndDateRange(tenantId, startDate, endDate,
status = null)`: the rows of the tenant with `slot_date::date` from
`$2::date` to `$3::date`, of the given status when one is given, ordered by
date and start time; the two date arguments go to the statement as they are
passed.  Rows equal in date and start time keep their table order (the
statement leaves their order open). -/
def findByTenantAndDateRange (utcOffset : Int → Int) (db : Db) (tenantId : Nat)
    (startDate endDate : DateParam) (status : Option SlotStatus) : List TimeSlot :=
  (db.slots.filter (fun s =>
    s.tenantId = tenantId && startDate.sqlDate utcOffset ≤ s.slotDate &&
      s.slotDate ≤ endDate.sqlDate utcOffset &&
      (match status with
       | none => true
       | some st => s.status = st))).insertionSort slotOrder

/-- The function `deleteByDateRange(tenantId, startDate, endDate)`:
`DELETE FROM time_slots WHERE tenant_id = $1 AND slot_date >= $2 AND
slot_date <= $3 AND booked_count = 0`. -/
def deleteByDateRange (db : Db) (tenantId : Nat) (startDate endDate : Int) : Db :=
  { db with
    slots := db.slots.filter (fun s =>
      !(s.tenantId = tenantId && startDate ≤ s.slotDate && s.slotDate ≤ endDate &&
        s.bookedCount = 0)) }

end slotsRepository

namespace slotsService

/-- The helper `formatSlot(slot)`; `substring(0, 5)` keeps hour and minute of a
time of day. -/
def formatSlot (slot : TimeSlot) : AvailableSlot :=
  { id := slot.id
    date := slot.slotDate
    startTime := slot.startTime
    endTime := slot.endTime
    available := slot.maxCapacity - slot.bookedCount
    status := slot.status }

/-- The function `getAvailableSlots(tenantId, startDate, endDate)`. -/
def getAvailableSlots (utcOffset : Int → Int) (db : Db) (tenantId : Nat)
    (startDate endDate : DateParam) : List AvailableSlot :=
  (slotsRepository.findByTenantAndDateRange utcOffset db tenantId startDate endDate
    (some SlotStatus.available)).map formatSlot

end slotsService

/-- Slots of two tenants on three days, in no particular order: available,
full and blocked ones. -/
def dbListing : Db :=
  { services := [{ id := 1, tenantId := 1, price := 500, isActive := true }]
    slots := [{ id := 1, tenantId := 1, slotDate := 20001, startTime := 480, endTime := 540,
                maxCapacity := 3, bookedCount := 1, status := SlotStatus.available },
              { id := 2, tenantId := 1, slotDate := 20000, startTime := 540, endTime := 600,
                maxCapacity := 2, bookedCount := 0, status := SlotStatus.available },
              { id := 3, tenantId := 1, slotDate := 20000, startTime := 480, endTime := 540,
                maxCapacity := 2, bookedCount := 2, status := SlotStatus.full },
              { id := 4, tenantId := 2, slotDate := 20000, startTime := 480, endTime := 540,
                maxCapacity := 2, bookedCount := 0, status := SlotStatus.available },
              { id := 5, tenantId := 1, slotDate := 20000, startTime := 420, endTime := 480,
                maxCapacity := 4, bookedCount := 1, status := SlotStatus.available },
              { id := 6, tenantId := 1, slotDate := 20005, startTime := 480, endTime := 540,
                maxCapacity := 2, bookedCount := 0, status := SlotStatus.available },
              { id := 7, tenantId := 1, slotDate := 20001, startTime := 420, endTime := 480,
                maxCapacity := 2, bookedCount := 0, status := SlotStatus.blocked }]
    bookings := [] }

/-! ## Audit log and controllers (`utils/audit.js`, `bookings.controller.js`) -/

/-- A row of `audit_logs`, as `createAuditLog` inserts it; the two value
objects are kept as their JSON text. -/
structure AuditEntry where
  userId : Nat
  tenantId : Option Nat
  action : String
  entityType : String
  entityId : Option Nat
  newValues : Option String
  ipAddress : Option String
  deriving DecidableEq, Repr

/-- The body of the `try` of `createAuditLog`: the `INSERT INTO audit_logs`,
which throws when `throws` is set (storage failure, or `JSON.stringify`
failing on a value). -/
def insertAuditLog (throws : Bool) (log : List AuditEntry) (entry : AuditEntry) :
    Except Err (List AuditEntry) :=
  if throws then Except.error storageError else Except.ok (log ++ [entry])

/-- The function `createAuditLog(params)`: the insert inside `try`; the `catch`
logs the error and does not rethrow. -/
def createAuditLog (throws : Bool) (log : List AuditEntry) (entry : AuditEntry) :
    Except Err Unit × List AuditEntry :=
  match insertAuditLog throws log entry with
  | Except.ok log' => (Except.ok (), log')
  | Except.error _ => (Except.ok (), log)

/-- What a controller does with a request: `res.status(status).json(...)` with
the payload `data`, or `next(error)`. -/
inductive Reply where
  | json (status : Nat) (data : Booking)
  | next (error : Err)
  deriving DecidableEq, Repr

/-- The error of reading a property of `undefined`. -/
def typeError : Err := Err.raw "Cannot read properties of undefined"

namespace bookingsController

/-- The steps every booking controller takes after its service call: on an
error `next(error)`; on a result, read `booking.id` (a `TypeError` on
`undefined`), `await createAuditLog(...)`, then answer with the booking. -/
def finish (auditThrows : Bool) (log : List AuditEntry) (status : Nat)
    (entry : Booking → AuditEntry) (result : Except Err (Option Booking) × Db) :
    Reply × Db × List AuditEntry :=
  match result with
  | (Except.error e, db') => (Reply.next e, db', log)
  | (Except.ok none, db') => (Reply.next typeError, db', log)
  | (Except.ok (some booking), db') =>
    match createAuditLog auditThrows log (entry booking) with
    | (Except.error e, log') => (Reply.next e, db', log')
    | (Except.ok _, log') => (Reply.json status booking, db', log')

/-- The controller `create`: `r.customerId` is `req.user.id`, the other fields
are those of `req.body`; the answer has status 201. -/
def create (fault : Fault) (auditThrows : Bool) (db : Db) (log : List AuditEntry)
    (r : CreateRequest) (ip : Option String) : Reply × Db × List AuditEntry :=
  finish auditThrows log 201
    (fun booking =>
      { userId := r.customerId, tenantId := some r.tenantId, action := "CREATE_BOOKING",
        entityType := "booking", entityId := some booking.id,
        newValues := some "serviceId, slotId", ipAddress := ip })
    (match bookingsService.create fault db r with
     | (Except.ok booking, db') => (Except.ok (some booking), db')
     | (Except.error e, db') => (Except.error e, db'))

/-- The controller `cancelMyBooking`. -/
def cancelMyBooking (auditThrows : Bool) (env : CancelEnv) (db : Db) (log : List AuditEntry)
    (id userId : Nat) (reason : Option String) (ip : Option String) :
    Reply × Db × List AuditEntry :=
  finish auditThrows log 200
    (fun booking =>
      { userId := userId, tenantId := some booking.tenantId, action := "CANCEL_BOOKING",
        entityType := "booking", entityId := some booking.id,
        newValues := some "reason, cancelledBy: customer", ipAddress := ip })
    (bookingsService.cancelByCustomer env db id userId reason)

/-- The controller `updateStatus`. -/
def updateStatus (auditThrows : Bool) (db : Db) (log : List AuditEntry)
    (id tenantId userId : Nat) (status : BookingStatus) (ip : Option String) :
    Reply × Db × List AuditEntry :=
  finish auditThrows log 200
    (fun booking =>
      { userId := userId, tenantId := some tenantId, action := "UPDATE_BOOKING_STATUS",
        entityType := "booking", entityId := some booking.id,
        newValues := some "status", ipAddress := ip })
    (bookingsService.updateStatus db id tenantId status)

/-- The controller `cancelBooking`. -/
def cancelBooking (auditThrows : Bool) (db : Db) (log : List AuditEntry)
    (id tenantId userId : Nat) (reason : Option String) (ip : Option String) :
    Reply × Db × List AuditEntry :=
  finish auditThrows log 200
    (fun booking =>
      { userId := userId, tenantId := some tenantId, action := "CANCEL_BOOKING",
        entityType := "booking", entityId := some booking.id,
        newValues := some "reason, cancelledBy: manager", ipAddress := ip })
    (bookingsService.cancelByManager db id tenantId reason)

end bookingsController

/-! ## The error handler (`middleware/errorHandler.js`) -/

/-- A value that reaches `errorHandler`, with the properties the handler
reads; a missing property is `false` or `none`. -/
structure ThrownError where
  isOperational : Bool
  isJoi : Bool
  code : Option String
  statusCode : Option Nat
  message : String
  stack : String
  details : Option (List (String × String))
  deriving DecidableEq, Repr

/-- The response `errorHandler` writes: the status and the keys of the JSON
body next to `success: false`. -/
structure ErrorResponse where
  status : Nat
  error : String
  details : Option (List (String × String))
  stack : Option String
  deriving DecidableEq, Repr

/-- JavaScript `statusCode || fallback`: the fallback is taken when the number
is missing or 0. -/
def statusOr (statusCode : Option Nat) (fallback : Nat) : Nat :=
  match statusCode with
  | none => fallback
  | some n => if n = 0 then fallback else n

/-- The function `errorHandler(err, req, res, next)` under `config.env = env`:
the response it writes (the log lines are left out).  An operational error is
an `ApiError`, which always carries its status code; for a Joi error the
details are the pairs of joined path and message. -/
def errorHandler (env : String) (err : ThrownError) : ErrorResponse :=
  if err.isOperational then
    { status := err.statusCode.getD 0, error := err.message, details := err.details,
      stack := none }
  else if err.isJoi then
    { status := 400, error := "Validation failed", details := some (err.details.getD []),
      stack := none }
  else if err.code = some "23505" then
    { status := 409, error := "A record with this value already exists.", details := none,
      stack := none }
  else if err.code = some "23503" then
    { status := 400, error := "Referenced record does not exist.", details := none,
      stack := none }
  else if err.code = some "23502" then
    { status := 400, error := "Required field is missing.", details := none, stack := none }
  else
    { status := statusOr err.statusCode 500
      error := if env = "production" then "An unexpected error occurred" else err.message
      details := none
      stack := if env = "development" then some err.stack else none }

/-- A driver error of a lost connection, with the text and the stack a
PostgreSQL client attaches. -/
def connectionError : ThrownError :=
  { isOperational := false, isJoi := false, code := some "ECONNREFUSED", statusCode := none,
    message := "connect ECONNREFUSED 10.0.0.5:5432",
    stack := "Error: connect ECONNREFUSED 10.0.0.5:5432 at TCPConnectWrap.afterConnect",
    details := none }

/-! ## The date loop on JavaScript dates -/

/-- A JavaScript `Date` as its local-time getters read it: the calendar day
(`getFullYear`, `getMonth`, `getDate`, `getDay`) and the minute of that day. -/
structure LocalDate where
  day : Int
  minute : Int
  deriving DecidableEq, Repr

/-- The `Date` of a local reading, for a process time zone `zone`, which the
source does not set: `zone day` is the number of minutes the local clock skips
at 00:00 of the calendar day (0 when that day has a local midnight, 60 when
daylight-saving time starts at 00:00 and the clock goes from 00:00 to 01:00).
A reading inside the skipped span does not exist; ECMAScript takes it with the
offset before the jump, which is the reading that many minutes later. -/
def resolveLocal (zone : Int → Int) (day minute : Int) : LocalDate :=
  if minute < zone day then { day := day, minute := minute + zone day }
  else { day := day, minute := minute }

/-- The value `new Date(year, month - 1, day)`: 00:00 local time of the
calendar day. -/
def localMidnight (zone : Int → Int) (day : Int) : LocalDate :=
  resolveLocal zone day 0

/-- The update `d.setDate(d.getDate() + 1)`: the next calendar day at the same
local time of day. -/
def nextDate (zone : Int → Int) (d : LocalDate) : LocalDate :=
  resolveLocal zone (d.day + 1) d.minute

/-- The test `d <= end` on two dates: the instants are compared, and instants
are ordered as their local readings. -/
def LocalDate.le (a b : LocalDate) : Bool :=
  decide (a.day < b.day) || (decide (a.day = b.day) && decide (a.minute ≤ b.minute))

namespace slotsService

/-- The date loop `for (let d = new Date(start); d <= end;
d.setDate(d.getDate() + 1))` on dates, from the date `d` with `fuel`
iterations allowed; the body reads the weekday and the calendar day of `d`. -/
def dateLoopIn (zone : Int → Int) (body : Int → Option (List SlotCandidate))
    (endDate : LocalDate) : Nat → LocalDate → Option (List SlotCandidate)
  | 0, d => if d.le endDate then none else some []
  | fuel + 1, d =>
    if d.le endDate then
      match body d.day with
      | none => none
      | some cs =>
        (dateLoopIn zone body endDate fuel (nextDate zone d)).map (fun rest => cs ++ rest)
    else some []

/-- The array `slots` of `generateSlots` in the time zone `zone`, with
`dateFuel` iterations of the date loop and `fuel` of each inner loop allowed. -/
def candidatesIn (zone : Int → Int) (dateFuel fuel : Nat) (rows : List OperatingHours)
    (tenantId : Nat) (startDate endDate slotDuration capacity : Int) :
    Option (List SlotCandidate) :=
  dateLoopIn zone (dayCandidates fuel (hoursMap rows) tenantId slotDuration capacity)
    (localMidnight zone endDate) dateFuel (localMidnight zone startDate)

end slotsService

/-- A time zone with a local midnight on every day. -/
def zoneUtc : Int → Int := fun _ => 0

/-- A time zone in which daylight-saving time starts at 00:00 of day 19974
(Sunday 8 September 2024, as in America/Santiago): the clock goes from 00:00
to 01:00. -/
def zoneMidnightJump : Int → Int := fun day => if day = 19974 then 60 else 0

/-- One slot of tenant 1 on Monday, day 20003, at 08:00, of capacity 2, holding
one reserved booking. -/
def dbMonday : Db :=
  { services := [{ id := 1, tenantId := 1, price := 500, isActive := true }]
    slots := [{ id := 1, tenantId := 1, slotDate := 20003, startTime := 480, endTime := 540,
                maxCapacity := 2, bookedCount := 1, status := SlotStatus.available }]
    bookings := [{ id := 1, tenantId := 1, customerId := 7, serviceId := 1, timeSlotId := 1,
                   bookingDate := 20003, startTime := 480, endTime := 540, totalAmount := 500,
                   notes := none, status := BookingStatus.reserved,
                   paymentStatus := PaymentStatus.pending, cancellationReason := none }] }

/-- The slot of `dbMonday`. -/
def slotMonday : TimeSlot :=
  { id := 1, tenantId := 1, slotDate := 20003, startTime := 480, endTime := 540,
    maxCapacity := 2, bookedCount := 1, status := SlotStatus.available }

/-- The fuel that lets every inner loop over the rows end when the duration is
at least 1: the widest window, in minutes. -/
def windowFuel (rows : List OperatingHours) : Nat :=
  (rows.map (fun oh => (oh.closeTime - oh.openTime).toNat)).foldr max 0

/-! ## Tenant slugs (`tenants.repository.js`) -/

namespace tenantsRepository

/-- A character of the class `[a-z0-9]`. -/
def isSlugChar (c : Char) : Bool :=
  (decide ('a' ≤ c) && decide (c ≤ 'z')) || (decide ('0' ≤ c) && decide (c ≤ '9'))

/-- The call `.replace(/[^a-z0-9]+/g, '-')`: every maximal run of characters
outside the class becomes one hyphen; `inRun` tells that the character before
belongs to such a run. -/
def replaceRuns : Bool → List Char → List Char
  | _, [] => []
  | inRun, c :: cs =>
    if isSlugChar c then c :: replaceRuns false cs
    else if inRun then replaceRuns true cs
    else '-' :: replaceRuns true cs

/-- A hyphen at the start of the text is removed. -/
def dropLeadingHyphen : List Char → List Char
  | [] => []
  | c :: cs => if c = '-' then cs else c :: cs

/-- The call `.replace(/^-|-$/g, '')`: a hyphen at the start and a hyphen at
the end of the text are removed. -/
def trimHyphens (s : List Char) : List Char :=
  (dropLeadingHyphen (dropLeadingHyphen s).reverse).reverse

/-- The value `baseSlug`.  The method `toLowerCase` of the language is a
parameter. -/
def baseSlug (toLowerCase : List Char → List Char) (name : List Char) : List Char :=
  trimHyphens (replaceRuns false (toLowerCase name))

/-- The template literal with `baseSlug`, a hyphen and the counter in decimal
digits. -/
def withCounter (baseSlug : List Char) (counter : Nat) : List Char :=
  baseSlug ++ '-' :: Nat.toDigits 10 counter

/-- The loop `while (true)` of `generateUniqueSlug` over the `slug` column of
`tenants`, with `fuel` queries allowed: `none` when the loop has not returned
after `fuel` queries. -/
def slugLoop (slugs : List (List Char)) (baseSlug : List Char) :
    Nat → List Char → Nat → Option (List Char)
  | 0, _, _ => none
  | fuel + 1, slug, counter =>
    if slugs.contains slug then
      slugLoop slugs baseSlug fuel (withCounter baseSlug counter) (counter + 1)
    else some slug

/-- The function `generateUniqueSlug(name)`. -/
def generateUniqueSlug (toLowerCase : List Char → List Char) (slugs : List (List Char))
    (fuel : Nat) (name : List Char) : Option (List Char) :=
  slugLoop slugs (baseSlug toLowerCase name) fuel (baseSlug toLowerCase name) 1

end tenantsRepository

/-- The number a text of decimal digits denotes. -/
def decimalValue (cs : List Char) : Nat :=
  cs.foldl (fun acc c => acc * 10 + (c.toNat - 48)) 0

/-- Lower-casing of the letters A to Z, which is what `toLowerCase` does on a
name of ASCII characters. -/
def asciiLower (s : List Char) : List Char := s.map Char.toLower

/-! ## Lemmas on the tables -/

theorem find?_slot_of_unique {l : List TimeSlot} (hn : (l.map (fun s => s.id)).Nodup)
    {s : TimeSlot} (hs : s ∈ l) : l.find? (fun t => t.id = s.id) = some s := by
  induction l with
  | nil => cases hs
  | cons a l ih =>
    rw [List.map_cons, List.nodup_cons] at hn
    rcases List.mem_cons.1 hs with rfl | h
    · simp
    · have hne : a.id ≠ s.id := by
        intro he
        exact hn.1 (he ▸ List.mem_map_of_mem (fun s => s.id) h)
      rw [List.find?_cons_of_neg _ (by simpa using hne)]
      exact ih hn.2 h

theorem updateWhereId_slots_get (f : TimeSlot → TimeSlot) (db : Db) (id i : Nat) :
    (slotsRepository.updateWhereId f db id).slots[i]? =
      (db.slots[i]?).map (fun s => if s.id = id then f s else s) := by
  simp [slotsRepository.updateWhereId]

theorem updateWhereId_ids (f : TimeSlot → TimeSlot) (hf : ∀ s, (f s).id = s.id) (db : Db)
    (id : Nat) :
    (slotsRepository.updateWhereId f db id).slots.map (fun s => s.id) =
      db.slots.map (fun s => s.id) := by
  simp only [slotsRepository.updateWhereId, List.map_map]
  apply List.map_congr_left
  intro s _
  simp only [Function.comp]
  split <;> simp [hf]

/-- A `createWithLock` that returns a row: what was checked under the lock, the
row inserted and the tables after the commit. -/
theorem createWithLock_ok {fault : Fault} {db db' : Db} {a : CreateArgs} {b : Booking}
    (h : bookingsRepository.createWithLock fault db a = (Except.ok b, db')) :
    ∃ slot,
      slotsRepository.findById db a.timeSlotId = some slot ∧
      slot.tenantId = a.tenantId ∧ slot.status ≠ SlotStatus.blocked ∧
      slot.bookedCount < slot.maxCapacity ∧ fault = Fault.none ∧
      b = bookingsRepository.insertedRow db a ∧
      db' = slotsRepository.incrementBookedCount
              { db with bookings := db.bookings ++ [b] } a.timeSlotId := by
  unfold bookingsRepository.createWithLock bookingsRepository.createWithLockBody at h
  unfold slotsRepository.findByIdWithLock at h
  unfold slotsRepository.findById
  cases hf : db.slots.find? (fun s => s.id = a.timeSlotId) with
  | none => simp [hf] at h
  | some slot =>
    simp only [hf] at h
    by_cases h1 : slot.tenantId = a.tenantId
    · by_cases h2 : slot.status = SlotStatus.blocked
      · simp [h1, h2] at h
      · by_cases h3 : slot.bookedCount ≥ slot.maxCapacity
        · simp [h1, h2, h3] at h
        · cases fault with
          | none =>
            simp [h1, h2, h3] at h
            refine ⟨slot, rfl, h1, h2, by omega, rfl, h.1.symm, ?_⟩
            rw [← h.2, ← h.1]
          | insert => simp [h1, h2, h3] at h
          | increment => simp [h1, h2, h3] at h
    · simp [h1] at h

/-- A `createWithLock` that throws leaves the tables as they were. -/
theorem createWithLock_error {fault : Fault} {db db' : Db} {a : CreateArgs} {e : Err}
    (h : bookingsRepository.createWithLock fault db a = (Except.error e, db')) : db' = db := by
  unfold bookingsRepository.createWithLock at h
  split at h
  · simp at h
  · simp at h
    exact h.2.symm

/-- When the increment fails the body has already written the booking: the
tables it leaves differ from those before `BEGIN`, and only the rollback of
`createWithLock` restores them. -/
theorem createWithLockBody_partial_write :
    (bookingsRepository.createWithLockBody Fault.increment dbFresh
        { tenantId := 1, customerId := 7, serviceId := 1, timeSlotId := 1, bookingDate := 20000,
          startTime := 480, endTime := 540, totalAmount := 500, notes := none }).2.bookings
      = [bookingSlot1] ∧
    (bookingsRepository.createWithLock Fault.increment dbFresh
        { tenantId := 1, customerId := 7, serviceId := 1, timeSlotId := 1, bookingDate := 20000,
          startTime := 480, endTime := 540, totalAmount := 500, notes := none }).2 = dbFresh :=
  ⟨rfl, rfl⟩

/-- A successful `create`: what was checked, the row inserted and the tables
afterwards. -/
theorem create_ok {fault : Fault} {db db' : Db} {r : CreateRequest} {b : Booking}
    (h : bookingsService.create fault db r = (Except.ok b, db')) :
    ∃ service slot,
      servicesRepository.findById db r.serviceId = some service ∧
      service.tenantId = r.tenantId ∧ service.isActive = true ∧
      slotsRepository.findById db r.slotId = some slot ∧
      slot.tenantId = r.tenantId ∧ slot.status ≠ SlotStatus.blocked ∧
      slot.bookedCount < slot.maxCapacity ∧ fault = Fault.none ∧
      b = bookingsRepository.insertedRow db
            { tenantId := r.tenantId, customerId := r.customerId, serviceId := r.serviceId,
              timeSlotId := r.slotId, bookingDate := slot.slotDate,
              startTime := slot.startTime, endTime := slot.endTime,
              totalAmount := service.price, notes := r.notes } ∧
      db' = slotsRepository.incrementBookedCount
              { db with bookings := db.bookings ++ [b] } r.slotId := by
  unfold bookingsService.create at h
  split at h
  · simp at h
  · rename_i service hsvc
    split at h
    · simp at h
    · rename_i ht
      split at h
      · simp at h
      · rename_i ha
        split at h
        · simp at h
        · rename_i slot hslot
          split at h
          · simp at h
          · rename_i hst
            split at h
            · rename_i b0 db0 hc
              simp only [Prod.mk.injEq, Except.ok.injEq] at h
              obtain ⟨slot', hs', h1, h2, h3, h4, h5, h6⟩ := createWithLock_ok hc
              simp only at hs'
              rw [hslot] at hs'
              cases hs'
              refine ⟨service, slot, hsvc, by simpa using ht, by simpa using ha, hslot,
                by simpa using hst, h2, h3, h4, ?_, ?_⟩
              · rw [← h.1]; exact h5
              · rw [← h.2, ← h.1]; exact h6
            · simp at h

/-- A `create` that throws leaves the tables as they were. -/
theorem create_error {fault : Fault} {db db' : Db} {r : CreateRequest} {e : Err}
    (h : bookingsService.create fault db r = (Except.error e, db')) : db' = db := by
  unfold bookingsService.create at h
  split at h
  · simp at h; exact h.2.symm
  · split at h
    · simp at h; exact h.2.symm
    · split at h
      · simp at h; exact h.2.symm
      · split at h
        · simp at h; exact h.2.symm
        · split at h
          · simp at h; exact h.2.symm
          · split at h
            · simp at h
            · rename_i e0 db0 hc
              simp only [Prod.mk.injEq] at h
              rw [← h.2]
              exact createWithLock_error hc

/-- The slot rows after `create`: untouched, or incremented at the requested id
where the row read under the lock had room. -/
theorem create_slots (fault : Fault) (db : Db) (r : CreateRequest) :
    (bookingsService.create fault db r).2.slots = db.slots ∨
    ∃ slot, slotsRepository.findById db r.slotId = some slot ∧
      slot.bookedCount < slot.maxCapacity ∧
      (bookingsService.create fault db r).2.slots =
        db.slots.map (fun s => if s.id = r.slotId then slotsRepository.incrementRow s else s) := by
  rcases hc : bookingsService.create fault db r with ⟨res, db'⟩
  cases res with
  | error e => left; rw [create_error hc]
  | ok b =>
    right
    obtain ⟨service, slot, -, -, -, hslot, -, -, hlt, -, -, hdb⟩ := create_ok hc
    exact ⟨slot, hslot, hlt, by rw [hdb]; rfl⟩

/-- The slot rows after the repository `cancel`: untouched, or decremented at
one id. -/
theorem cancel_slots (db : Db) (id : Nat) (reason : String) :
    (bookingsRepository.cancel db id reason).2.slots = db.slots ∨
    ∃ sid, (bookingsRepository.cancel db id reason).2.slots =
        db.slots.map (fun s => if s.id = sid then slotsRepository.decrementRow s else s) := by
  unfold bookingsRepository.cancel
  split
  · left; rfl
  · rename_i booking _
    right; exact ⟨booking.timeSlotId, rfl⟩

/-- One operation rewrites each slot row in place, in one of five ways. -/
theorem apply_slot_cases (db : Db) (op : InventoryOp) (hu : slotIdsUnique db) (i : Nat)
    (s : TimeSlot) (hs : db.slots[i]? = some s) :
    ∃ s', (op.apply db).slots[i]? = some s' ∧
      (s' = s ∨ (s' = slotsRepository.incrementRow s ∧ s.bookedCount < s.maxCapacity) ∨
        s' = slotsRepository.decrementRow s ∨ s' = { s with status := SlotStatus.blocked } ∨
        s' = slotsRepository.unblockRow s) := by
  have hmem : s ∈ db.slots := List.getElem?_mem hs
  cases op with
  | create fault r =>
    rcases create_slots fault db r with h | ⟨slot, hslot, hlt, h⟩
    · exact ⟨s, by simp only [InventoryOp.apply]; rw [h]; exact hs, Or.inl rfl⟩
    · simp only [InventoryOp.apply]
      rw [h, List.getElem?_map, hs]
      by_cases hid : s.id = r.slotId
      · refine ⟨slotsRepository.incrementRow s, by simp [hid], Or.inr (Or.inl ⟨rfl, ?_⟩)⟩
        have := find?_slot_of_unique hu hmem
        rw [hid] at this
        unfold slotsRepository.findById at hslot
        rw [this] at hslot
        cases hslot
        exact hlt
      · exact ⟨s, by simp [hid], Or.inl rfl⟩
  | cancel id reason =>
    rcases cancel_slots db id reason with h | ⟨sid, h⟩
    · exact ⟨s, by simp only [InventoryOp.apply]; rw [h]; exact hs, Or.inl rfl⟩
    · simp only [InventoryOp.apply]
      rw [h, List.getElem?_map, hs]
      by_cases hid : s.id = sid
      · exact ⟨slotsRepository.decrementRow s, by simp [hid], Or.inr (Or.inr (Or.inl rfl))⟩
      · exact ⟨s, by simp [hid], Or.inl rfl⟩
  | blockSlot id =>
    simp only [InventoryOp.apply, slotsRepository.blockSlot, updateWhereId_slots_get, hs]
    by_cases hid : s.id = id
    · exact ⟨_, by simp [hid], Or.inr (Or.inr (Or.inr (Or.inl rfl)))⟩
    · exact ⟨s, by simp [hid], Or.inl rfl⟩
  | unblockSlot id =>
    simp only [InventoryOp.apply, slotsRepository.unblockSlot, updateWhereId_slots_get, hs]
    by_cases hid : s.id = id
    · exact ⟨_, by simp [hid], Or.inr (Or.inr (Or.inr (Or.inr rfl)))⟩
    · exact ⟨s, by simp [hid], Or.inl rfl⟩

/-- One operation keeps the id and the capacity of each slot row and the
capacity bound. -/
theorem apply_slot_bound (db : Db) (op : InventoryOp) (hu : slotIdsUnique db) (i : Nat)
    (s : TimeSlot) (hs : db.slots[i]? = some s) (hb : withinCapacity s) :
    ∃ s', (op.apply db).slots[i]? = some s' ∧ s'.id = s.id ∧
      s'.maxCapacity = s.maxCapacity ∧ withinCapacity s' := by
  obtain ⟨s', hs', hc⟩ := apply_slot_cases db op hu i s hs
  refine ⟨s', hs', ?_⟩
  unfold withinCapacity at hb ⊢
  rcases hc with rfl | ⟨rfl, hlt⟩ | rfl | rfl | rfl
  · exact ⟨rfl, rfl, hb⟩
  · refine ⟨rfl, rfl, ?_⟩
    simp only [slotsRepository.incrementRow]
    omega
  · refine ⟨rfl, rfl, ?_⟩
    simp only [slotsRepository.decrementRow]
    omega
  · exact ⟨rfl, rfl, hb⟩
  · exact ⟨rfl, rfl, hb⟩

/-- One operation keeps the slot ids, hence the primary key. -/
theorem apply_slot_ids (db : Db) (op : InventoryOp) (hu : slotIdsUnique db) :
    (op.apply db).slots.map (fun s => s.id) = db.slots.map (fun s => s.id) := by
  apply List.ext_getElem?
  intro i
  rw [List.getElem?_map, List.getElem?_map]
  cases hs : db.slots[i]? with
  | none =>
    have hlen : (op.apply db).slots.length = db.slots.length := by
      cases op with
      | create fault r =>
        rcases create_slots fault db r with h | ⟨_, _, _, h⟩ <;>
          simp [InventoryOp.apply, h]
      | cancel id reason =>
        rcases cancel_slots db id reason with h | ⟨_, h⟩ <;>
          simp [InventoryOp.apply, h]
      | blockSlot id => simp [InventoryOp.apply, slotsRepository.blockSlot,
          slotsRepository.updateWhereId]
      | unblockSlot id => simp [InventoryOp.apply, slotsRepository.unblockSlot,
          slotsRepository.updateWhereId]
    rw [List.getElem?_eq_none_iff] at hs
    have hn : (op.apply db).slots[i]? = none := List.getElem?_eq_none_iff.2 (by omega)
    rw [hn]
  | some s =>
    obtain ⟨s', hs', hid, -, -⟩ :
        ∃ s', (op.apply db).slots[i]? = some s' ∧ s'.id = s.id ∧ True ∧ True := by
      obtain ⟨s', hs', hc⟩ := apply_slot_cases db op hu i s hs
      refine ⟨s', hs', ?_, trivial, trivial⟩
      rcases hc with rfl | ⟨rfl, _⟩ | rfl | rfl | rfl <;> rfl
    rw [hs']
    simp [hid]

/-- The capacity bound of every slot is an invariant of the operations. -/
theorem runOps_bound (ops : List InventoryOp) (db : Db) (hu : slotIdsUnique db)
    (hb : ∀ s ∈ db.slots, withinCapacity s) :
    ∀ s ∈ (runOps db ops).slots, withinCapacity s := by
  induction ops generalizing db with
  | nil => exact hb
  | cons op ops ih =>
    simp only [runOps, List.foldl_cons]
    apply ih
    · unfold slotIdsUnique
      rw [apply_slot_ids db op hu]
      exact hu
    · intro s' hs'
      obtain ⟨i, hi', hget⟩ := List.getElem_of_mem hs'
      have hi : i < db.slots.length := by
        have := congrArg List.length (apply_slot_ids db op hu)
        simp only [List.length_map] at this
        omega
      obtain ⟨t, ht, -, -, hw⟩ := apply_slot_bound db op hu i (db.slots[i])
        (List.getElem?_eq_getElem hi) (hb _ (List.getElem_mem hi))
      rw [List.getElem?_eq_getElem hi'] at ht
      cases ht
      rw [← hget]
      exact hw

/-! ## Occupancy counting -/

theorem map_update_absent {l : List Booking} (g : Booking → Booking) (id : Nat)
    (h : ∀ x ∈ l, x.id ≠ id) : l.map (fun x => if x.id = id then g x else x) = l := by
  induction l with
  | nil => rfl
  | cons a l ih =>
    have ha : a.id ≠ id := h a (List.mem_cons_self _ _)
    rw [List.map_cons, if_neg ha, ih (fun x hx => h x (List.mem_cons_of_mem _ hx))]

/-- Rewriting the one row with a given id changes a count by that row only. -/
theorem countP_update_unique {l : List Booking} (hn : (l.map (fun b => b.id)).Nodup)
    {b : Booking} (hb : b ∈ l) (g : Booking → Booking) (p : Booking → Bool) :
    (l.map (fun x => if x.id = b.id then g x else x)).countP p + (if p b then 1 else 0) =
      l.countP p + (if p (g b) then 1 else 0) := by
  induction l with
  | nil => cases hb
  | cons a l ih =>
    rw [List.map_cons, List.nodup_cons] at hn
    rcases List.mem_cons.1 hb with rfl | h
    · have habs : ∀ x ∈ l, x.id ≠ b.id := by
        intro x hx he
        exact hn.1 (he ▸ List.mem_map_of_mem (fun b => b.id) hx)
      rw [List.map_cons, map_update_absent g b.id habs, if_pos rfl, List.countP_cons,
        List.countP_cons]
      omega
    · have hne : a.id ≠ b.id := by
        intro he
        exact hn.1 (he ▸ List.mem_map_of_mem (fun b => b.id) h)
      rw [List.map_cons, if_neg hne, List.countP_cons, List.countP_cons]
      have := ih hn.2 h
      omega

theorem find?_booking_some {l : List Booking} {id : Nat} {b : Booking}
    (h : l.find? (fun x => x.id = id) = some b) : b ∈ l ∧ b.id = id := by
  refine ⟨List.mem_of_find?_eq_some h, ?_⟩
  have := List.find?_some h
  simpa using this

theorem map_update_ids {l : List Booking} (g : Booking → Booking) (hg : ∀ x, (g x).id = x.id)
    (id : Nat) :
    (l.map (fun x => if x.id = id then g x else x)).map (fun b => b.id) =
      l.map (fun b => b.id) := by
  rw [List.map_map]
  apply List.map_congr_left
  intro x _
  simp only [Function.comp]
  split <;> simp [hg]

theorem lt_freshId {l : List Booking} {b : Booking} (hb : b ∈ l) : b.id < freshId l := by
  unfold freshId
  induction l with
  | nil => cases hb
  | cons a l ih =>
    simp only [List.map_cons, List.foldr_cons]
    rcases List.mem_cons.1 hb with rfl | h
    · omega
    · have := ih h
      omega

/-- The repository `cancel` of a booking that is not yet cancelled keeps both
the primary key and the occupancy count. -/
theorem cancel_preserves (db : Db) (id : Nat) (reason : String) (hk : bookingIdsUnique db)
    (hc : occupancyConsistent db)
    (hact : ∀ b, bookingsRepository.findById db id = some b →
      b.status ≠ BookingStatus.cancelled) :
    bookingIdsUnique (bookingsRepository.cancel db id reason).2 ∧
      occupancyConsistent (bookingsRepository.cancel db id reason).2 := by
  unfold bookingsRepository.cancel
  cases hf : bookingsRepository.findById db id with
  | none => exact ⟨hk, hc⟩
  | some b =>
    have hst := hact b hf
    obtain ⟨hmem, hid⟩ := find?_booking_some hf
    subst hid
    constructor
    · exact Eq.mpr (congrArg List.Nodup (map_update_ids (l := db.bookings)
        (fun x => { x with status := BookingStatus.cancelled, cancellationReason := some reason })
        (fun _ => rfl) b.id)) hk
    · intro s' hs'
      simp only [slotsRepository.decrementBookedCount, slotsRepository.updateWhereId,
        List.mem_map] at hs'
      obtain ⟨s, hs, rfl⟩ := hs'
      have hcs := hc s hs
      have hcount := countP_update_unique hk hmem
        (fun x => { x with status := BookingStatus.cancelled, cancellationReason := some reason })
        (holdsSeat s.id)
      simp only [activeCount, slotsRepository.decrementBookedCount,
        slotsRepository.updateWhereId] at hcs ⊢
      by_cases hsid : s.id = b.timeSlotId
      · have hp : holdsSeat s.id b = true := by simp [holdsSeat, hsid, hst]
        have hq : holdsSeat s.id
            { b with status := BookingStatus.cancelled, cancellationReason := some reason }
            = false := by simp [holdsSeat]
        rw [hp, hq] at hcount
        simp only [if_true, Bool.false_eq_true, if_false, Nat.add_zero] at hcount
        rw [if_pos hsid]
        simp only [slotsRepository.decrementRow]
        omega
      · have hp : holdsSeat s.id b = false := by
          simp only [holdsSeat, Bool.and_eq_false_imp, decide_eq_true_eq]
          intro h; exact absurd h.symm hsid
        have hq : holdsSeat s.id
            { b with status := BookingStatus.cancelled, cancellationReason := some reason }
            = false := by simp [holdsSeat]
        rw [hp, hq] at hcount
        simp only [Bool.false_eq_true, if_false, Nat.add_zero] at hcount
        rw [if_neg hsid]
        omega

/-- A successful `create` keeps both the primary key and the occupancy count; a
failed one changes nothing. -/
theorem create_preserves (fault : Fault) (db : Db) (r : CreateRequest)
    (hk : bookingIdsUnique db) (hc : occupancyConsistent db) :
    bookingIdsUnique (bookingsService.create fault db r).2 ∧
      occupancyConsistent (bookingsService.create fault db r).2 := by
  rcases hcr : bookingsService.create fault db r with ⟨res, db'⟩
  cases res with
  | error e => rw [create_error hcr]; exact ⟨hk, hc⟩
  | ok b =>
    obtain ⟨service, slot, -, -, -, -, -, -, -, -, hb, hdb⟩ := create_ok hcr
    subst hdb
    constructor
    · unfold bookingIdsUnique at hk ⊢
      simp only [slotsRepository.incrementBookedCount, slotsRepository.updateWhereId,
        List.map_append, List.map_cons, List.map_nil]
      rw [List.nodup_append]
      refine ⟨hk, List.nodup_singleton _, ?_⟩
      intro x hx hx'
      rw [List.mem_singleton] at hx'
      obtain ⟨y, hy, rfl⟩ := List.mem_map.1 hx
      have := lt_freshId hy
      rw [hb] at hx'
      simp only [bookingsRepository.insertedRow] at hx'
      omega
    · intro s' hs'
      simp only [slotsRepository.incrementBookedCount, slotsRepository.updateWhereId,
        List.mem_map] at hs'
      obtain ⟨s, hs, rfl⟩ := hs'
      have hcs := hc s hs
      simp only [activeCount, slotsRepository.incrementBookedCount,
        slotsRepository.updateWhereId, List.countP_append, List.countP_cons,
        List.countP_nil] at hcs ⊢
      have hbs : b.timeSlotId = r.slotId ∧ b.status = BookingStatus.reserved := by
        rw [hb]; exact ⟨rfl, rfl⟩
      by_cases hsid : s.id = r.slotId
      · rw [if_pos hsid]
        have hp : holdsSeat s.id b = true := by simp [holdsSeat, hbs.1, hbs.2, hsid]
        simp only [slotsRepository.incrementRow, hp, if_true]
        omega
      · rw [if_neg hsid]
        have hp : holdsSeat s.id b = false := by
          simp only [holdsSeat, Bool.and_eq_false_imp, decide_eq_true_eq]
          intro h; rw [hbs.1] at h; exact absurd h.symm hsid
        simp only [hp, Bool.false_eq_true, if_false]
        omega

/-- An `updateStatus` whose new status is not cancelled keeps both the primary
key and the occupancy count. -/
theorem updateStatus_preserves (db : Db) (id tenantId : Nat) (newStatus : BookingStatus)
    (hns : newStatus ≠ BookingStatus.cancelled) (hk : bookingIdsUnique db)
    (hc : occupancyConsistent db) :
    bookingIdsUnique (bookingsService.updateStatus db id tenantId newStatus).2 ∧
      occupancyConsistent (bookingsService.updateStatus db id tenantId newStatus).2 := by
  unfold bookingsService.updateStatus
  cases hf : bookingsRepository.findById db id with
  | none => exact ⟨hk, hc⟩
  | some b =>
    simp only
    split
    · exact ⟨hk, hc⟩
    · split
      · exact ⟨hk, hc⟩
      · rename_i hallowed
        have hst : b.status ≠ BookingStatus.cancelled := by
          intro he
          rw [he] at hallowed
          simp [STATUS_TRANSITIONS] at hallowed
        obtain ⟨hmem, hid⟩ := find?_booking_some hf
        subst hid
        simp only [bookingsRepository.updateStatus]
        constructor
        · unfold bookingIdsUnique
          simp only
          rw [map_update_ids]
          · exact hk
          · intro x; split <;> rfl
        · intro s hs
          have hcs := hc s hs
          simp only [activeCount] at hcs ⊢
          have hcount := countP_update_unique hk hmem
            (fun x => match (if newStatus = BookingStatus.completed ∧
                b.paymentStatus = PaymentStatus.pending then some PaymentStatus.paid
                else none) with
              | some p => { x with status := newStatus, paymentStatus := p }
              | none => { x with status := newStatus })
            (holdsSeat s.id)
          have hq : holdsSeat s.id
              (match (if newStatus = BookingStatus.completed ∧
                  b.paymentStatus = PaymentStatus.pending then some PaymentStatus.paid
                  else none) with
                | some p => { b with status := newStatus, paymentStatus := p }
                | none => { b with status := newStatus }) = holdsSeat s.id b := by
            have h1 : (newStatus != BookingStatus.cancelled) = true := bne_iff_ne.2 hns
            have h2 : (b.status != BookingStatus.cancelled) = true := bne_iff_ne.2 hst
            split <;> simp [holdsSeat, h1, h2]
          rw [hq] at hcount
          omega

/-- Each service operation other than an `updateStatus` into cancelled keeps
both the primary key and the occupancy count. -/
theorem serviceOp_preserves (db : Db) (op : ServiceOp) (hop : op.noStatusCancel = true)
    (hk : bookingIdsUnique db) (hc : occupancyConsistent db) :
    bookingIdsUnique (op.apply db) ∧ occupancyConsistent (op.apply db) := by
  cases op with
  | create fault r => exact create_preserves fault db r hk hc
  | updateStatus id tenantId newStatus =>
    have hns : newStatus ≠ BookingStatus.cancelled := by
      simpa [ServiceOp.noStatusCancel] using hop
    exact updateStatus_preserves db id tenantId newStatus hns hk hc
  | cancelByCustomer env id customerId reason =>
    simp only [ServiceOp.apply]
    unfold bookingsService.cancelByCustomer
    cases hf : bookingsRepository.findById db id with
    | none => exact ⟨hk, hc⟩
    | some b =>
      simp only
      split
      · exact ⟨hk, hc⟩
      · split
        · exact ⟨hk, hc⟩
        · rename_i hst
          split
          · exact ⟨hk, hc⟩
          · apply cancel_preserves db id _ hk hc
            intro b' hb'
            rw [hf] at hb'
            cases hb'
            intro he
            rw [he] at hst
            simp at hst
  | cancelByManager id tenantId reason =>
    simp only [ServiceOp.apply]
    unfold bookingsService.cancelByManager
    cases hf : bookingsRepository.findById db id with
    | none => exact ⟨hk, hc⟩
    | some b =>
      simp only
      split
      · exact ⟨hk, hc⟩
      · split
        · exact ⟨hk, hc⟩
        · rename_i hst
          apply cancel_preserves db id _ hk hc
          intro b' hb'
          rw [hf] at hb'
          cases hb'
          intro he
          rw [he] at hst
          simp at hst


/-! ## Evaluating `create` -/

theorem create_service_none {fault : Fault} {db : Db} {r : CreateRequest}
    (h : servicesRepository.findById db r.serviceId = none) :
    bookingsService.create fault db r =
      (Except.error (NotFoundError "Service not found."), db) := by
  unfold bookingsService.create
  rw [h]

theorem create_service_other {fault : Fault} {db : Db} {r : CreateRequest} {service : Service}
    (h : servicesRepository.findById db r.serviceId = some service)
    (ht : service.tenantId ≠ r.tenantId) :
    bookingsService.create fault db r =
      (Except.error (BadRequestError "Service does not belong to this car wash."), db) := by
  unfold bookingsService.create
  rw [h]
  simp only [ht, ne_eq, not_false_eq_true, if_true]

theorem create_service_inactive {fault : Fault} {db : Db} {r : CreateRequest} {service : Service}
    (h : servicesRepository.findById db r.serviceId = some service)
    (ht : service.tenantId = r.tenantId) (ha : service.isActive = false) :
    bookingsService.create fault db r =
      (Except.error (BadRequestError "Service is not available."), db) := by
  unfold bookingsService.create
  rw [h]
  simp [ht, ha]

theorem create_slot_none {fault : Fault} {db : Db} {r : CreateRequest} {service : Service}
    (h : servicesRepository.findById db r.serviceId = some service)
    (ht : service.tenantId = r.tenantId) (ha : service.isActive = true)
    (hs : slotsRepository.findById db r.slotId = none) :
    bookingsService.create fault db r =
      (Except.error (NotFoundError "Time slot not found."), db) := by
  unfold bookingsService.create
  rw [h]
  simp [ht, ha, hs]

theorem create_slot_other {fault : Fault} {db : Db} {r : CreateRequest} {service : Service}
    {slot : TimeSlot} (h : servicesRepository.findById db r.serviceId = some service)
    (ht : service.tenantId = r.tenantId) (ha : service.isActive = true)
    (hs : slotsRepository.findById db r.slotId = some slot) (hst : slot.tenantId ≠ r.tenantId) :
    bookingsService.create fault db r =
      (Except.error (BadRequestError "Time slot does not belong to this car wash."), db) := by
  unfold bookingsService.create
  rw [h]
  simp [ht, ha, hs, hst]

theorem create_slot_blocked {fault : Fault} {db : Db} {r : CreateRequest} {service : Service}
    {slot : TimeSlot} (h : servicesRepository.findById db r.serviceId = some service)
    (ht : service.tenantId = r.tenantId) (ha : service.isActive = true)
    (hs : slotsRepository.findById db r.slotId = some slot) (hst : slot.tenantId = r.tenantId)
    (hb : slot.status = SlotStatus.blocked) :
    bookingsService.create fault db r =
      (Except.error (BadRequestError "This time slot is not available."), db) := by
  have hlock : db.slots.find? (fun s => s.id = r.slotId) = some slot := hs
  unfold bookingsService.create
  rw [h]
  simp [ht, ha, hs, hst, hb, bookingsRepository.createWithLock,
    bookingsRepository.createWithLockBody, slotsRepository.findByIdWithLock, hlock,
    bookingsService.translate, Err.message]

theorem create_slot_full {fault : Fault} {db : Db} {r : CreateRequest} {service : Service}
    {slot : TimeSlot} (h : servicesRepository.findById db r.serviceId = some service)
    (ht : service.tenantId = r.tenantId) (ha : service.isActive = true)
    (hs : slotsRepository.findById db r.slotId = some slot) (hst : slot.tenantId = r.tenantId)
    (hb : slot.status ≠ SlotStatus.blocked) (hfull : slot.bookedCount ≥ slot.maxCapacity) :
    bookingsService.create fault db r =
      (Except.error (ConflictError "This time slot is no longer available."), db) := by
  have hlock : db.slots.find? (fun s => s.id = r.slotId) = some slot := hs
  unfold bookingsService.create
  rw [h]
  simp [ht, ha, hs, hst, hb, hfull, bookingsRepository.createWithLock,
    bookingsRepository.createWithLockBody, slotsRepository.findByIdWithLock, hlock,
    bookingsService.translate, Err.message]

theorem create_storage_fault {fault : Fault} {db : Db} {r : CreateRequest} {service : Service}
    {slot : TimeSlot} (h : servicesRepository.findById db r.serviceId = some service)
    (ht : service.tenantId = r.tenantId) (ha : service.isActive = true)
    (hs : slotsRepository.findById db r.slotId = some slot) (hst : slot.tenantId = r.tenantId)
    (hb : slot.status ≠ SlotStatus.blocked) (hroom : slot.bookedCount < slot.maxCapacity)
    (hf : fault ≠ Fault.none) :
    bookingsService.create fault db r = (Except.error storageError, db) := by
  have hlock : db.slots.find? (fun s => s.id = r.slotId) = some slot := hs
  have hroom' : ¬ slot.bookedCount ≥ slot.maxCapacity := by omega
  unfold bookingsService.create
  rw [h]
  cases fault with
  | none => exact absurd rfl hf
  | insert =>
    simp [ht, ha, hs, hst, hb, hroom', bookingsRepository.createWithLock,
      bookingsRepository.createWithLockBody, slotsRepository.findByIdWithLock, hlock,
      bookingsService.translate, Err.message, storageError]
  | increment =>
    simp [ht, ha, hs, hst, hb, hroom', bookingsRepository.createWithLock,
      bookingsRepository.createWithLockBody, slotsRepository.findByIdWithLock, hlock,
      bookingsService.translate, Err.message, storageError]

theorem create_success {db : Db} {r : CreateRequest} {service : Service}
    {slot : TimeSlot} (h : servicesRepository.findById db r.serviceId = some service)
    (ht : service.tenantId = r.tenantId) (ha : service.isActive = true)
    (hs : slotsRepository.findById db r.slotId = some slot) (hst : slot.tenantId = r.tenantId)
    (hb : slot.status ≠ SlotStatus.blocked) (hroom : slot.bookedCount < slot.maxCapacity) :
    bookingsService.create Fault.none db r =
      (Except.ok (bookingsRepository.insertedRow db
          { tenantId := r.tenantId, customerId := r.customerId, serviceId := r.serviceId,
            timeSlotId := r.slotId, bookingDate := slot.slotDate,
            startTime := slot.startTime, endTime := slot.endTime,
            totalAmount := service.price, notes := r.notes }),
        slotsRepository.incrementBookedCount
          { db with bookings := db.bookings ++ [bookingsRepository.insertedRow db
              { tenantId := r.tenantId, customerId := r.customerId, serviceId := r.serviceId,
                timeSlotId := r.slotId, bookingDate := slot.slotDate,
                startTime := slot.startTime, endTime := slot.endTime,
                totalAmount := service.price, notes := r.notes }] } r.slotId) := by
  have hlock : db.slots.find? (fun s => s.id = r.slotId) = some slot := hs
  have hroom' : ¬ slot.bookedCount ≥ slot.maxCapacity := by omega
  unfold bookingsService.create
  rw [h]
  simp [ht, ha, hs, hst, hb, hroom', bookingsRepository.createWithLock,
    bookingsRepository.createWithLockBody, slotsRepository.findByIdWithLock, hlock]


/-! ## Looking up a slot after an update -/

theorem find?_update_same (f : TimeSlot → TimeSlot) (hf : ∀ s, (f s).id = s.id)
    (l : List TimeSlot) (id : Nat) :
    (l.map (fun s => if s.id = id then f s else s)).find? (fun s => s.id = id) =
      (l.find? (fun s => s.id = id)).map f := by
  induction l with
  | nil => rfl
  | cons a l ih =>
    by_cases ha : a.id = id
    · simp [List.find?_cons, ha, hf]
    · simp only [List.map_cons, List.find?_cons, ha, if_false, decide_False]
      exact ih

theorem find?_update_other (f : TimeSlot → TimeSlot) (hf : ∀ s, (f s).id = s.id)
    (l : List TimeSlot) {id id' : Nat} (hne : id' ≠ id) :
    (l.map (fun s => if s.id = id then f s else s)).find? (fun s => s.id = id') =
      l.find? (fun s => s.id = id') := by
  induction l with
  | nil => rfl
  | cons a l ih =>
    by_cases ha : a.id = id
    · have ha' : ¬ a.id = id' := fun h => hne (h.symm.trans ha)
      have hfa : ¬ (f a).id = id' := by rw [hf]; exact ha'
      rw [List.map_cons, if_pos ha, List.find?_cons_of_neg _ (by simpa using hfa),
        List.find?_cons_of_neg _ (by simpa using ha')]
      exact ih
    · rw [List.map_cons, if_neg ha]
      by_cases ha' : a.id = id'
      · rw [List.find?_cons_of_pos _ (by simpa using ha'),
          List.find?_cons_of_pos _ (by simpa using ha')]
      · rw [List.find?_cons_of_neg _ (by simpa using ha'),
          List.find?_cons_of_neg _ (by simpa using ha')]
        exact ih


/-! ## Filling a slot -/

theorem isOk_iff {α : Type} (x : Except Err α) : x.isOk = true ↔ ∃ a, x = Except.ok a := by
  cases x with
  | error e => simp [Except.isOk, Except.toBool]
  | ok a => simp [Except.isOk, Except.toBool]


theorem create_services (fault : Fault) (db : Db) (r : CreateRequest) :
    (bookingsService.create fault db r).2.services = db.services := by
  rcases hc : bookingsService.create fault db r with ⟨res, db'⟩
  cases res with
  | error e => rw [create_error hc]
  | ok b =>
    obtain ⟨_, _, -, -, -, -, -, -, -, -, -, hdb⟩ := create_ok hc
    rw [hdb]; rfl

theorem create_find_other (fault : Fault) (db : Db) (r : CreateRequest) {id : Nat}
    (hne : id ≠ r.slotId) :
    slotsRepository.findById (bookingsService.create fault db r).2 id =
      slotsRepository.findById db id := by
  rcases hc : bookingsService.create fault db r with ⟨res, db'⟩
  cases res with
  | error e => rw [create_error hc]
  | ok b =>
    obtain ⟨_, _, -, -, -, -, -, -, -, -, -, hdb⟩ := create_ok hc
    rw [hdb]
    exact find?_update_other slotsRepository.incrementRow (fun _ => rfl) db.slots hne

theorem create_get_other (fault : Fault) (db : Db) (r : CreateRequest) {i : Nat} {s : TimeSlot}
    (hs : db.slots[i]? = some s) (hne : s.id ≠ r.slotId) :
    (bookingsService.create fault db r).2.slots[i]? = some s := by
  rcases create_slots fault db r with h | ⟨_, _, _, h⟩
  · rw [h]; exact hs
  · rw [h, List.getElem?_map, hs]
    simp [hne]

/-- Sequential fill, from a slot that already holds `k` bookings. -/
theorem createAll_fill (svcs : List Service) (t sid : Nat) (c : Int) :
    ∀ (rs : List CreateRequest) (db : Db) (slot : TimeSlot) (k : Nat),
      db.services = svcs → slotsRepository.findById db sid = some slot →
      slot.tenantId = t → slot.status ≠ SlotStatus.blocked → slot.bookedCount = (k : Int) →
      slot.maxCapacity = c → (∀ r ∈ rs, validRequest svcs t sid r) →
      (∀ i, i < rs.length → ∃ res, (createAll db rs).1[i]? = some res ∧
        (((k + i : Nat) : Int) < c → res.isOk = true) ∧
        (c ≤ ((k + i : Nat) : Int) →
          res = Except.error (ConflictError "This time slot is no longer available."))) ∧
      (createAll db rs).2.services = svcs ∧
      (∀ id, id ≠ sid →
        slotsRepository.findById (createAll db rs).2 id = slotsRepository.findById db id) ∧
      (∀ (i : Nat) (s : TimeSlot), db.slots[i]? = some s → s.id ≠ sid →
        (createAll db rs).2.slots[i]? = some s) := by
  intro rs
  induction rs with
  | nil =>
    intro db slot k hsv _ _ _ _ _ _
    exact ⟨fun i hi => absurd hi (Nat.not_lt_zero i), hsv, fun _ _ => rfl, fun _ _ h _ => h⟩
  | cons r rs ih =>
    intro db slot k hsv hslot ht hnb hk hcap hval
    obtain ⟨hrt, hrs, service, hfind, hst, hact⟩ := hval r (List.mem_cons_self _ _)
    have hval' : ∀ r ∈ rs, validRequest svcs t sid r :=
      fun x hx => hval x (List.mem_cons_of_mem _ hx)
    have hsvc : servicesRepository.findById db r.serviceId = some service := by
      unfold servicesRepository.findById; rw [hsv]; exact hfind
    have hslot' : slotsRepository.findById db r.slotId = some slot := by rw [hrs]; exact hslot
    have hsv1 : (bookingsService.create Fault.none db r).2.services = svcs := by
      rw [create_services]; exact hsv
    by_cases hroom : slot.bookedCount < slot.maxCapacity
    · have hcr := create_success hsvc (hst.trans hrt.symm) hact hslot' (ht.trans hrt.symm) hnb
        hroom
      have hslot1 : slotsRepository.findById (bookingsService.create Fault.none db r).2 sid =
          some (slotsRepository.incrementRow slot) := by
        rw [hcr]
        unfold slotsRepository.findById at hslot ⊢
        simp only [slotsRepository.incrementBookedCount, slotsRepository.updateWhereId, hrs]
        rw [find?_update_same slotsRepository.incrementRow (fun _ => rfl), hslot]
        rfl
      have hnb1 : (slotsRepository.incrementRow slot).status ≠ SlotStatus.blocked := by
        simp only [slotsRepository.incrementRow]
        split
        · simp
        · exact hnb
      have hk1 : (slotsRepository.incrementRow slot).bookedCount = ((k + 1 : Nat) : Int) := by
        simp only [slotsRepository.incrementRow]
        omega
      obtain ⟨h1, h2, h3, h4⟩ := ih (bookingsService.create Fault.none db r).2
        (slotsRepository.incrementRow slot) (k + 1) hsv1 hslot1 ht hnb1 hk1 hcap hval'
      refine ⟨?_, h2, ?_, ?_⟩
      · intro i hi
        cases i with
        | zero =>
          refine ⟨(bookingsService.create Fault.none db r).1, by simp [createAll], ?_, ?_⟩
          · intro _; rw [hcr]; rfl
          · intro hc; omega
        | succ j =>
          obtain ⟨res, hres, ha, hb⟩ := h1 j (by simpa using hi)
          refine ⟨res, by simpa [createAll] using hres, ?_, ?_⟩
          · intro hlt; exact ha (by omega)
          · intro hle; exact hb (by omega)
      · intro id hid
        simp only [createAll]
        rw [h3 id hid]
        exact create_find_other Fault.none db r (by rw [hrs]; exact hid)
      · intro i s hs hne
        simp only [createAll]
        exact h4 i s (create_get_other Fault.none db r hs (by rw [hrs]; exact hne)) hne
    · have hcr : bookingsService.create Fault.none db r = _ :=
        create_slot_full hsvc (hst.trans hrt.symm) hact hslot' (ht.trans hrt.symm) hnb (by omega)
      have hdb : (bookingsService.create Fault.none db r).2 = db := by rw [hcr]
      obtain ⟨h1, h2, h3, h4⟩ := ih (bookingsService.create Fault.none db r).2 slot k hsv1
        (by rw [hdb]; exact hslot) ht hnb hk hcap hval'
      refine ⟨?_, h2, ?_, ?_⟩
      · intro i hi
        cases i with
        | zero =>
          refine ⟨(bookingsService.create Fault.none db r).1, by simp [createAll], ?_, ?_⟩
          · intro hlt; omega
          · intro _; rw [hcr]
        | succ j =>
          obtain ⟨res, hres, ha, hb⟩ := h1 j (by simpa using hi)
          refine ⟨res, by simpa [createAll] using hres, ?_, ?_⟩
          · intro hlt; omega
          · intro hle; exact hb (by omega)
      · intro id hid
        simp only [createAll]
        rw [h3 id hid, hdb]
      · intro i s hs hne
        simp only [createAll]
        exact h4 i s (by rw [hdb]; exact hs) hne


/-! ## Evaluating `updateStatus` -/

theorem find?_booking_update_same (g : Booking → Booking) (hg : ∀ b, (g b).id = b.id)
    (l : List Booking) (id : Nat) :
    (l.map (fun b => if b.id = id then g b else b)).find? (fun b => b.id = id) =
      (l.find? (fun b => b.id = id)).map g := by
  induction l with
  | nil => rfl
  | cons a l ih =>
    by_cases ha : a.id = id
    · have hga : (g a).id = id := by rw [hg]; exact ha
      rw [List.map_cons, if_pos ha, List.find?_cons_of_pos _ (by simpa using hga),
        List.find?_cons_of_pos _ (by simpa using ha)]
      rfl
    · rw [List.map_cons, if_neg ha, List.find?_cons_of_neg _ (by simpa using ha),
        List.find?_cons_of_neg _ (by simpa using ha)]
      exact ih

theorem transitions_eq_spec (cur next : BookingStatus) :
    (STATUS_TRANSITIONS cur).contains next = transitionAllowedSpec cur next := by
  cases cur <;> cases next <;> rfl

theorem updateStatus_refused {db : Db} {id tenantId : Nat} {newStatus : BookingStatus}
    {b : Booking} (hf : bookingsRepository.findById db id = some b)
    (ht : b.tenantId = tenantId)
    (hno : (STATUS_TRANSITIONS b.status).contains newStatus = false) :
    bookingsService.updateStatus db id tenantId newStatus =
      (Except.error (BadRequestError
        ("Cannot transition from '" ++ b.status.text ++ "' to '" ++ newStatus.text ++ "'.")),
        db) := by
  unfold bookingsService.updateStatus
  rw [hf]
  simp only [ht, ne_eq, not_true_eq_false, if_false, hno, Bool.not_false, if_true]

theorem repository_updateStatus_row (db : Db) (id : Nat) (status : BookingStatus)
    (paymentStatus : Option PaymentStatus) {b : Booking}
    (hf : bookingsRepository.findById db id = some b) :
    ∃ b', (bookingsRepository.updateStatus db id status paymentStatus).1 = some b' ∧
      bookingsRepository.findById
        (bookingsRepository.updateStatus db id status paymentStatus).2 id = some b' ∧
      b'.status = status ∧ b'.id = b.id ∧ b'.timeSlotId = b.timeSlotId ∧
      (bookingsRepository.updateStatus db id status paymentStatus).2.slots = db.slots := by
  unfold bookingsRepository.findById at hf
  cases paymentStatus with
  | none =>
    have h := find?_booking_update_same (fun x => { x with status := status })
      (fun _ => rfl) db.bookings id
    rw [hf] at h
    exact ⟨_, h, h, rfl, rfl, rfl, rfl⟩
  | some p =>
    have h := find?_booking_update_same
      (fun x => { x with status := status, paymentStatus := p }) (fun _ => rfl) db.bookings id
    rw [hf] at h
    exact ⟨_, h, h, rfl, rfl, rfl, rfl⟩

theorem updateStatus_allowed {db : Db} {id tenantId : Nat} {newStatus : BookingStatus}
    {b : Booking} (hf : bookingsRepository.findById db id = some b)
    (ht : b.tenantId = tenantId)
    (hyes : (STATUS_TRANSITIONS b.status).contains newStatus = true) :
    ∃ b', bookingsService.updateStatus db id tenantId newStatus =
        (Except.ok (some b'), (bookingsService.updateStatus db id tenantId newStatus).2) ∧
      bookingsRepository.findById (bookingsService.updateStatus db id tenantId newStatus).2 id =
        some b' ∧
      b'.status = newStatus ∧ b'.id = b.id ∧ b'.timeSlotId = b.timeSlotId ∧
      (bookingsService.updateStatus db id tenantId newStatus).2.slots = db.slots := by
  unfold bookingsService.updateStatus
  rw [hf]
  simp only [ht, ne_eq, not_true_eq_false, if_false, hyes, Bool.not_true, Bool.false_eq_true]
  obtain ⟨b', h1, h2, h3, h4, h5, h6⟩ := repository_updateStatus_row db id newStatus
    (if newStatus = BookingStatus.completed ∧ b.paymentStatus = PaymentStatus.pending
      then some PaymentStatus.paid else none) hf
  exact ⟨b', by rw [h1], h2, h3, h4, h5, h6⟩

/-! ## Claims -/

/-- C1 (capacity bound).  With `time_slots.id` a key: a slot with
`maxCapacity >= 1` and `0 <= bookedCount <= maxCapacity` still has its id and
capacity and `0 <= bookedCount <= maxCapacity` after any one booking creation,
repository cancellation, `blockSlot` or `unblockSlot`; and from freshly
generated slots the bound holds after every sequence of these operations. -/
theorem capacity_bound (db : Db) (hu : slotIdsUnique db) :
    (∀ (op : InventoryOp) (i : Nat) (s : TimeSlot), db.slots[i]? = some s →
      1 ≤ s.maxCapacity → 0 ≤ s.bookedCount → s.bookedCount ≤ s.maxCapacity →
      ∃ s', (op.apply db).slots[i]? = some s' ∧ s'.id = s.id ∧
        s'.maxCapacity = s.maxCapacity ∧ 0 ≤ s'.bookedCount ∧
        s'.bookedCount ≤ s'.maxCapacity) ∧
    (∀ ops : List InventoryOp, (∀ s ∈ db.slots, freshSlot s) →
      ∀ s ∈ (runOps db ops).slots,
        0 ≤ s.bookedCount ∧ s.bookedCount ≤ s.maxCapacity) := by
  constructor
  · intro op i s hs _ h0 h1
    exact apply_slot_bound db op hu i s hs ⟨h0, h1⟩
  · intro ops hfresh
    apply runOps_bound ops db hu
    intro s hs
    obtain ⟨h1, h2, -⟩ := hfresh s hs
    unfold withinCapacity
    omega

/-- Witness of C1: a creation, a block, a cancellation and an unblock on two
fresh slots. -/
theorem capacity_bound_witness :
    slotIdsUnique dbFresh ∧
      ∀ s ∈ (runOps dbFresh
          [InventoryOp.create Fault.none
              { customerId := 7, tenantId := 1, serviceId := 1, slotId := 1, notes := none },
           InventoryOp.blockSlot 2, InventoryOp.cancel 1 "changed plans",
           InventoryOp.unblockSlot 2]).slots,
        0 ≤ s.bookedCount ∧ s.bookedCount ≤ s.maxCapacity :=
  ⟨by decide, (capacity_bound dbFresh (by decide)).2 _ (by decide)⟩

/-- Counterexample to C2 as stated: the table allows reserved -> cancelled, the
service `updateStatus` performs it without touching the slot, and the slot then
counts one booking while none is active. -/
theorem occupancy_counterexample :
    bookingIdsUnique dbBooked ∧ occupancyConsistent dbBooked ∧
      (STATUS_TRANSITIONS BookingStatus.reserved).contains BookingStatus.cancelled = true ∧
      (bookingsService.updateStatus dbBooked 1 1 BookingStatus.cancelled).1.isOk = true ∧
      ¬ occupancyConsistent
          (runService dbBooked [ServiceOp.updateStatus 1 1 BookingStatus.cancelled]) := by
  decide

/-- C2 (occupancy consistency, amended).  With `bookings.id` a key: from a state
in which every slot's `bookedCount` is the number of non-cancelled bookings
that reference it, every sequence of `create`, `updateStatus` with a new status
other than cancelled, `cancelByCustomer` and `cancelByManager` ends in such a
state. -/
theorem occupancy_consistent (db : Db) (ops : List ServiceOp) (hk : bookingIdsUnique db)
    (hc : occupancyConsistent db) (hops : ∀ op ∈ ops, op.noStatusCancel = true) :
    occupancyConsistent (runService db ops) := by
  suffices h : bookingIdsUnique (runService db ops) ∧ occupancyConsistent (runService db ops)
    from h.2
  induction ops generalizing db with
  | nil => exact ⟨hk, hc⟩
  | cons op ops ih =>
    simp only [runService, List.foldl_cons]
    obtain ⟨hk', hc'⟩ := serviceOp_preserves db op (hops op (List.mem_cons_self _ _)) hk hc
    exact ih (op.apply db) hk' hc' (fun o ho => hops o (List.mem_cons_of_mem _ ho))

/-- Witness of C2: a transition, a manager cancellation and a new booking on
the booked example slot. -/
theorem occupancy_consistent_witness :
    bookingIdsUnique dbBooked ∧ occupancyConsistent dbBooked ∧
      occupancyConsistent (runService dbBooked
        [ServiceOp.updateStatus 1 1 BookingStatus.confirmed,
         ServiceOp.cancelByManager 1 1 none,
         ServiceOp.create Fault.none
           { customerId := 8, tenantId := 1, serviceId := 1, slotId := 1, notes := none }]) :=
  ⟨by decide, by decide,
    occupancy_consistent dbBooked _ (by decide) (by decide) (by decide)⟩

/-- C4 (sequential fill).  For a slot of tenant `t` that is available with
`bookedCount = 0` and `maxCapacity >= 1`, and `create` calls against it with
valid active services run one after another: call number `i` (from 0) succeeds
when `i < maxCapacity` and fails with the conflict error (slot full) otherwise;
every row of a different slot is unchanged; and a request against a different
slot that would have succeeded before still succeeds afterwards. -/
theorem sequential_fill (db : Db) (t sid : Nat) (slot : TimeSlot) (rs : List CreateRequest)
    (hslot : slotsRepository.findById db sid = some slot) (ht : slot.tenantId = t)
    (hav : slot.status = SlotStatus.available) (hbc : slot.bookedCount = 0)
    (hcap : 1 ≤ slot.maxCapacity) (hval : ∀ r ∈ rs, validRequest db.services t sid r) :
    (∀ i, i < rs.length → ∃ res, (createAll db rs).1[i]? = some res ∧
      ((i : Int) < slot.maxCapacity → res.isOk = true) ∧
      (slot.maxCapacity ≤ (i : Int) →
        res = Except.error (ConflictError "This time slot is no longer available."))) ∧
    (∀ (i : Nat) (s : TimeSlot), db.slots[i]? = some s → s.id ≠ sid →
      (createAll db rs).2.slots[i]? = some s) ∧
    (∀ r2 : CreateRequest, r2.slotId ≠ sid →
      (bookingsService.create Fault.none db r2).1.isOk = true →
      (bookingsService.create Fault.none (createAll db rs).2 r2).1.isOk = true) := by
  have _ := hcap
  obtain ⟨h1, h2, h3, h4⟩ := createAll_fill db.services t sid slot.maxCapacity rs db slot 0 rfl
    hslot ht (by rw [hav]; decide) (by rw [hbc]; rfl) rfl hval
  refine ⟨?_, h4, ?_⟩
  · intro i hi
    obtain ⟨res, hres, ha, hb⟩ := h1 i hi
    exact ⟨res, hres, fun h => ha (by simpa using h), fun h => hb (by simpa using h)⟩
  · intro r2 hne hok
    obtain ⟨b, hb⟩ := (isOk_iff _).1 hok
    have hcr : bookingsService.create Fault.none db r2 =
        (Except.ok b, (bookingsService.create Fault.none db r2).2) := Prod.ext hb rfl
    obtain ⟨service, slot2, hs1, hs2, hs3, hs4, hs5, hs6, hs7, -, -, -⟩ := create_ok hcr
    have hsvc : servicesRepository.findById (createAll db rs).2 r2.serviceId = some service := by
      unfold servicesRepository.findById at hs1 ⊢
      rw [h2]; exact hs1
    have hsl : slotsRepository.findById (createAll db rs).2 r2.slotId = some slot2 := by
      rw [h3 _ hne]; exact hs4
    rw [create_success hsvc hs2 hs3 hsl hs5 hs6 hs7]
    rfl

/-- Witness of C4: three calls on the fresh slot of capacity 2; the third is
refused. -/
theorem sequential_fill_witness :
    slotsRepository.findById dbFresh 1 = some slotOne ∧
      ∃ res, (createAll dbFresh [requestSlot1, requestSlot1, requestSlot1]).1[2]? = some res ∧
        (((2 : Nat) : Int) < slotOne.maxCapacity → res.isOk = true) ∧
        (slotOne.maxCapacity ≤ ((2 : Nat) : Int) →
          res = Except.error (ConflictError "This time slot is no longer available.")) :=
  ⟨rfl, (sequential_fill dbFresh 1 1 slotOne [requestSlot1, requestSlot1, requestSlot1]
    rfl rfl rfl rfl (by decide)
    (fun r hr => by
      simp only [List.mem_cons, List.mem_singleton, List.mem_nil_iff, or_false, or_self] at hr
      subst hr
      exact ⟨rfl, rfl, _, rfl, rfl, rfl⟩)).1 2 (by decide)⟩

/-- Counterexample to C5 as stated: the insert fails on an otherwise bookable
slot and `create` throws the storage error, which is not an `ApiError`. -/
theorem create_raw_error :
    bookingsService.create Fault.insert dbFresh requestSlot1 =
        (Except.error storageError, dbFresh) ∧
      storageError.isOperational = false :=
  ⟨rfl, rfl⟩

/-- C5 (error classification of `create`, amended).  In order: service absent,
not found; service of another tenant or inactive, bad request; slot absent, not
found; slot of another tenant, bad request; slot blocked, bad request; slot at
capacity, conflict; otherwise the call succeeds when no storage statement
fails, and a failing storage statement is rethrown as it is.  Every error is an
`ApiError` except that rethrown storage error. -/
theorem create_classification (fault : Fault) (db : Db) (r : CreateRequest) :
    (servicesRepository.findById db r.serviceId = none →
      (bookingsService.create fault db r).1 = Except.error (NotFoundError "Service not found.")) ∧
    (∀ service, servicesRepository.findById db r.serviceId = some service →
      (service.tenantId ≠ r.tenantId →
        (bookingsService.create fault db r).1 =
          Except.error (BadRequestError "Service does not belong to this car wash.")) ∧
      (service.tenantId = r.tenantId → service.isActive = false →
        (bookingsService.create fault db r).1 =
          Except.error (BadRequestError "Service is not available.")) ∧
      (service.tenantId = r.tenantId → service.isActive = true →
        (slotsRepository.findById db r.slotId = none →
          (bookingsService.create fault db r).1 =
            Except.error (NotFoundError "Time slot not found.")) ∧
        (∀ slot, slotsRepository.findById db r.slotId = some slot →
          (slot.tenantId ≠ r.tenantId →
            (bookingsService.create fault db r).1 =
              Except.error (BadRequestError "Time slot does not belong to this car wash.")) ∧
          (slot.tenantId = r.tenantId → slot.status = SlotStatus.blocked →
            (bookingsService.create fault db r).1 =
              Except.error (BadRequestError "This time slot is not available.")) ∧
          (slot.tenantId = r.tenantId → slot.status ≠ SlotStatus.blocked →
            slot.bookedCount ≥ slot.maxCapacity →
            (bookingsService.create fault db r).1 =
              Except.error (ConflictError "This time slot is no longer available.")) ∧
          (slot.tenantId = r.tenantId → slot.status ≠ SlotStatus.blocked →
            slot.bookedCount < slot.maxCapacity →
            (fault = Fault.none → (bookingsService.create fault db r).1.isOk = true) ∧
            (fault ≠ Fault.none →
              (bookingsService.create fault db r).1 = Except.error storageError))))) ∧
    (∀ e, (bookingsService.create fault db r).1 = Except.error e →
      e.isOperational = true ∨ (fault ≠ Fault.none ∧ e = storageError)) := by
  refine ⟨fun h => by rw [create_service_none h], ?_, ?_⟩
  · intro service h
    refine ⟨fun ht => by rw [create_service_other h ht],
      fun ht ha => by rw [create_service_inactive h ht ha], fun ht ha => ⟨?_, ?_⟩⟩
    · intro hs
      rw [create_slot_none h ht ha hs]
    · intro slot hs
      refine ⟨fun hst => by rw [create_slot_other h ht ha hs hst],
        fun hst hb => by rw [create_slot_blocked h ht ha hs hst hb],
        fun hst hb hfull => by rw [create_slot_full h ht ha hs hst hb hfull],
        fun hst hb hroom => ⟨?_, ?_⟩⟩
      · intro hf
        subst hf
        rw [create_success h ht ha hs hst hb hroom]
        rfl
      · intro hf
        rw [create_storage_fault h ht ha hs hst hb hroom hf]
  · intro e he
    cases h : servicesRepository.findById db r.serviceId with
    | none =>
      rw [create_service_none h] at he
      cases he; left; rfl
    | some service =>
      by_cases ht : service.tenantId = r.tenantId
      · cases ha : service.isActive with
        | false =>
          rw [create_service_inactive h ht ha] at he
          cases he; left; rfl
        | true =>
          cases hs : slotsRepository.findById db r.slotId with
          | none =>
            rw [create_slot_none h ht ha hs] at he
            cases he; left; rfl
          | some slot =>
            by_cases hst : slot.tenantId = r.tenantId
            · by_cases hb : slot.status = SlotStatus.blocked
              · rw [create_slot_blocked h ht ha hs hst hb] at he
                cases he; left; rfl
              · by_cases hroom : slot.bookedCount < slot.maxCapacity
                · by_cases hf : fault = Fault.none
                  · subst hf
                    rw [create_success h ht ha hs hst hb hroom] at he
                    cases he
                  · rw [create_storage_fault h ht ha hs hst hb hroom hf] at he
                    cases he
                    right; exact ⟨hf, rfl⟩
                · rw [create_slot_full h ht ha hs hst hb (by omega)] at he
                  cases he; left; rfl
            · rw [create_slot_other h ht ha hs hst] at he
              cases he; left; rfl
      · rw [create_service_other h ht] at he
        cases he; left; rfl

/-- Witness of C5: on the fresh slot the last case of the classification
applies; the call succeeds without a fault and rethrows the storage error of a
failing insert. -/
theorem create_classification_witness :
    (bookingsService.create Fault.none dbFresh requestSlot1).1.isOk = true ∧
      (bookingsService.create Fault.insert dbFresh requestSlot1).1 =
        Except.error storageError :=
  ⟨((((((create_classification Fault.none dbFresh requestSlot1).2.1 serviceOne rfl).2.2
      rfl rfl).2 slotOne rfl).2.2.2 rfl (by decide) (by decide)).1 rfl),
    ((((((create_classification Fault.insert dbFresh requestSlot1).2.1 serviceOne rfl).2.2
      rfl rfl).2 slotOne rfl).2.2.2 rfl (by decide) (by decide)).2 (by decide))⟩

/-- C6 (atomicity of creation).  A `create` that fails, by validation or by a
failing insert or increment, leaves the tables exactly as they were; and in
every case either nothing changed or the call succeeded, its booking was
appended and the rows of its slot were incremented. -/
theorem create_atomic (fault : Fault) (db : Db) (r : CreateRequest) :
    (∀ e, (bookingsService.create fault db r).1 = Except.error e →
      (bookingsService.create fault db r).2 = db) ∧
    ((bookingsService.create fault db r).2 = db ∨
      ∃ b slot, (bookingsService.create fault db r).1 = Except.ok b ∧
        (bookingsService.create fault db r).2.bookings = db.bookings ++ [b] ∧
        b.timeSlotId = r.slotId ∧
        slotsRepository.findById db r.slotId = some slot ∧
        slotsRepository.findById (bookingsService.create fault db r).2 r.slotId =
          some (slotsRepository.incrementRow slot) ∧
        (bookingsService.create fault db r).2.slots =
          db.slots.map
            (fun s => if s.id = r.slotId then slotsRepository.incrementRow s else s)) := by
  rcases hc : bookingsService.create fault db r with ⟨res, db'⟩
  cases res with
  | error e => exact ⟨fun _ _ => create_error hc, Or.inl (create_error hc)⟩
  | ok b =>
    refine ⟨fun e he => (by cases he), Or.inr ?_⟩
    obtain ⟨service, slot, -, -, -, hslot, -, -, -, -, hb, hdb⟩ := create_ok hc
    refine ⟨b, slot, rfl, by rw [hdb]; rfl, by rw [hb]; rfl, hslot, ?_, by rw [hdb]; rfl⟩
    rw [hdb]
    unfold slotsRepository.findById at hslot ⊢
    simp only [slotsRepository.incrementBookedCount, slotsRepository.updateWhereId]
    rw [find?_update_same slotsRepository.incrementRow (fun _ => rfl), hslot]
    rfl

/-- Witness of C6: the increment fails after the insert and the tables are
those before the call. -/
theorem create_atomic_witness :
    (bookingsService.create Fault.increment dbFresh requestSlot1).1 =
        Except.error storageError ∧
      (bookingsService.create Fault.increment dbFresh requestSlot1).2 = dbFresh :=
  ⟨rfl, (create_atomic Fault.increment dbFresh requestSlot1).1 storageError rfl⟩

/-- C7 (the inserted booking).  A successful `create` appends exactly one
booking to the table, leaving the earlier rows as they were; the new row has
status reserved, payment status pending, the price of the service as amount,
the tenant, customer, service and slot of the request, the date and times of
the slot, and an id that no earlier row carries. -/
theorem create_adds_one_booking (fault : Fault) (db : Db) (r : CreateRequest) (b : Booking)
    (h : (bookingsService.create fault db r).1 = Except.ok b) :
    (bookingsService.create fault db r).2.bookings = db.bookings ++ [b] ∧
    b.status = BookingStatus.reserved ∧ b.paymentStatus = PaymentStatus.pending ∧
    (∃ service, servicesRepository.findById db r.serviceId = some service ∧
      b.totalAmount = service.price) ∧
    b.tenantId = r.tenantId ∧ b.customerId = r.customerId ∧ b.serviceId = r.serviceId ∧
    b.timeSlotId = r.slotId ∧
    (∃ slot, slotsRepository.findById db r.slotId = some slot ∧
      b.bookingDate = slot.slotDate ∧ b.startTime = slot.startTime ∧
      b.endTime = slot.endTime) ∧
    (∀ x ∈ db.bookings, x.id ≠ b.id) := by
  have hc : bookingsService.create fault db r =
      (Except.ok b, (bookingsService.create fault db r).2) := Prod.ext h rfl
  obtain ⟨service, slot, hsvc, -, -, hslot, -, -, -, -, hb, hdb⟩ := create_ok hc
  refine ⟨by rw [hdb]; rfl, by rw [hb]; rfl, by rw [hb]; rfl,
    ⟨service, hsvc, by rw [hb]; rfl⟩,
    by rw [hb]; rfl, by rw [hb]; rfl, by rw [hb]; rfl, by rw [hb]; rfl,
    ⟨slot, hslot, by rw [hb]; rfl, by rw [hb]; rfl, by rw [hb]; rfl⟩, ?_⟩
  intro x hx
  have := lt_freshId hx
  rw [hb]
  simp only [bookingsRepository.insertedRow]
  omega

/-- Witness of C7: the first booking on the fresh slot. -/
theorem create_adds_one_booking_witness :
    (bookingsService.create Fault.none dbFresh requestSlot1).1 = Except.ok bookingSlot1 ∧
      (bookingsService.create Fault.none dbFresh requestSlot1).2.bookings =
        dbFresh.bookings ++ [bookingSlot1] ∧
      bookingSlot1.status = BookingStatus.reserved :=
  ⟨rfl, (create_adds_one_booking Fault.none dbFresh requestSlot1 bookingSlot1 rfl).1,
    (create_adds_one_booking Fault.none dbFresh requestSlot1 bookingSlot1 rfl).2.1⟩

/-- C8 (the increment).  A successful `create` raises the `bookedCount` of the
target slot by exactly 1, keeps its `maxCapacity` (and id, tenant, date and
times), and sets its status to full when the new count reaches the capacity,
leaving the status as it was otherwise. -/
theorem create_increments_slot (fault : Fault) (db : Db) (r : CreateRequest) (b : Booking)
    (h : (bookingsService.create fault db r).1 = Except.ok b) :
    ∃ slot slot', slotsRepository.findById db r.slotId = some slot ∧
      slotsRepository.findById (bookingsService.create fault db r).2 r.slotId = some slot' ∧
      slot'.bookedCount = slot.bookedCount + 1 ∧ slot'.maxCapacity = slot.maxCapacity ∧
      slot'.status =
        (if slot'.bookedCount ≥ slot'.maxCapacity then SlotStatus.full else slot.status) ∧
      slot'.id = slot.id ∧ slot'.tenantId = slot.tenantId ∧ slot'.slotDate = slot.slotDate ∧
      slot'.startTime = slot.startTime ∧ slot'.endTime = slot.endTime := by
  have hc : bookingsService.create fault db r =
      (Except.ok b, (bookingsService.create fault db r).2) := Prod.ext h rfl
  obtain ⟨service, slot, -, -, -, hslot, -, -, -, -, -, hdb⟩ := create_ok hc
  refine ⟨slot, slotsRepository.incrementRow slot, hslot, ?_, rfl, rfl, rfl, rfl, rfl, rfl, rfl,
    rfl⟩
  rw [hdb]
  unfold slotsRepository.findById at hslot ⊢
  simp only [slotsRepository.incrementBookedCount, slotsRepository.updateWhereId]
  rw [find?_update_same slotsRepository.incrementRow (fun _ => rfl), hslot]
  rfl

/-- Witness of C8: the first booking on the fresh slot. -/
theorem create_increments_slot_witness :
    (bookingsService.create Fault.none dbFresh requestSlot1).1 = Except.ok bookingSlot1 ∧
      ∃ slot slot', slotsRepository.findById dbFresh 1 = some slot ∧
        slotsRepository.findById (bookingsService.create Fault.none dbFresh requestSlot1).2 1 =
          some slot' ∧
        slot'.bookedCount = slot.bookedCount + 1 :=
  ⟨rfl, by
    obtain ⟨slot, slot', h1, h2, h3, -⟩ :=
      create_increments_slot Fault.none dbFresh requestSlot1 bookingSlot1 rfl
    exact ⟨slot, slot', h1, h2, h3⟩⟩

/-- C9 (transition enforcement).  `updateStatus` fails with not found when the
booking is absent, else with forbidden when it belongs to another tenant, else
succeeds exactly when the specification's table allows the transition, storing
the new status; otherwise it fails with the bad-request error naming both
statuses and changes nothing.  Every transition out of completed fails and
reserved to in_progress fails. -/
theorem updateStatus_enforces (db : Db) (id tenantId : Nat) (newStatus : BookingStatus) :
    (bookingsRepository.findById db id = none →
      bookingsService.updateStatus db id tenantId newStatus =
        (Except.error (NotFoundError "Booking not found."), db)) ∧
    (∀ b, bookingsRepository.findById db id = some b →
      (b.tenantId ≠ tenantId →
        bookingsService.updateStatus db id tenantId newStatus =
          (Except.error (ForbiddenError "Access denied."), db)) ∧
      (b.tenantId = tenantId →
        ((bookingsService.updateStatus db id tenantId newStatus).1.isOk = true ↔
          transitionAllowedSpec b.status newStatus = true) ∧
        (transitionAllowedSpec b.status newStatus = true →
          ∃ b', (bookingsService.updateStatus db id tenantId newStatus).1 =
              Except.ok (some b') ∧
            bookingsRepository.findById
              (bookingsService.updateStatus db id tenantId newStatus).2 id = some b' ∧
            b'.status = newStatus) ∧
        (transitionAllowedSpec b.status newStatus = false →
          bookingsService.updateStatus db id tenantId newStatus =
            (Except.error (BadRequestError
              ("Cannot transition from '" ++ b.status.text ++ "' to '" ++ newStatus.text
                ++ "'.")), db)) ∧
        (b.status = BookingStatus.completed →
          (bookingsService.updateStatus db id tenantId newStatus).1.isOk = false) ∧
        (b.status = BookingStatus.reserved → newStatus = BookingStatus.in_progress →
          (bookingsService.updateStatus db id tenantId newStatus).1.isOk = false))) := by
  constructor
  · intro hf
    unfold bookingsService.updateStatus
    rw [hf]
  · intro b hf
    constructor
    · intro ht
      unfold bookingsService.updateStatus
      rw [hf]
      simp [ht]
    · intro ht
      have hyes : transitionAllowedSpec b.status newStatus = true →
          ∃ b', (bookingsService.updateStatus db id tenantId newStatus).1 =
              Except.ok (some b') ∧
            bookingsRepository.findById
              (bookingsService.updateStatus db id tenantId newStatus).2 id = some b' ∧
            b'.status = newStatus := by
        intro h
        rw [← transitions_eq_spec] at h
        obtain ⟨b', h1, h2, h3, -⟩ := updateStatus_allowed hf ht h
        exact ⟨b', by rw [h1], h2, h3⟩
      have hno : transitionAllowedSpec b.status newStatus = false →
          bookingsService.updateStatus db id tenantId newStatus =
            (Except.error (BadRequestError
              ("Cannot transition from '" ++ b.status.text ++ "' to '" ++ newStatus.text
                ++ "'.")), db) := by
        intro h
        rw [← transitions_eq_spec] at h
        exact updateStatus_refused hf ht h
      refine ⟨?_, hyes, hno, ?_, ?_⟩
      · constructor
        · intro hok
          cases hsp : transitionAllowedSpec b.status newStatus with
          | true => rfl
          | false =>
            rw [hno hsp] at hok
            simp [Except.isOk, Except.toBool] at hok
        · intro hsp
          obtain ⟨b', h1, -⟩ := hyes hsp
          rw [h1]; rfl
      · intro hst
        rw [hno (by rw [hst]; rfl)]
        rfl
      · intro hst hns
        rw [hno (by rw [hst, hns]; rfl)]
        rfl

/-- Witness of C9: the reserved booking of the example is confirmed. -/
theorem updateStatus_enforces_witness :
    bookingsRepository.findById dbBooked 1 = some bookingReserved ∧
      ∃ b', (bookingsService.updateStatus dbBooked 1 1 BookingStatus.confirmed).1 =
          Except.ok (some b') ∧
        bookingsRepository.findById
          (bookingsService.updateStatus dbBooked 1 1 BookingStatus.confirmed).2 1 = some b' ∧
        b'.status = BookingStatus.confirmed :=
  ⟨rfl, (((updateStatus_enforces dbBooked 1 1 BookingStatus.confirmed).2 bookingReserved
    rfl).2 rfl).2.1 rfl⟩

/-- C10 (manager cancellation): what the code does.  For a booking of the
manager's tenant `cancelByManager` succeeds from reserved, confirmed,
in_progress and also from no_show, and fails without any change from completed
and cancelled.  On the example a no_show booking, which the transition table
treats as terminal, is cancelled and its slot goes from 1 booked seat to 0. -/
theorem cancelByManager_no_show :
    (∀ (db : Db) (id tenantId : Nat) (reason : Option String) (b : Booking),
      bookingsRepository.findById db id = some b → b.tenantId = tenantId →
      ((b.status = BookingStatus.reserved ∨ b.status = BookingStatus.confirmed ∨
          b.status = BookingStatus.in_progress ∨ b.status = BookingStatus.no_show) →
        (bookingsService.cancelByManager db id tenantId reason).1.isOk = true) ∧
      ((b.status = BookingStatus.completed ∨ b.status = BookingStatus.cancelled) →
        bookingsService.cancelByManager db id tenantId reason =
          (Except.error (BadRequestError "This booking cannot be cancelled."), db))) ∧
    (bookingsRepository.findById dbNoShow 1).map (fun b => (b.tenantId, b.status)) =
      some (1, BookingStatus.no_show) ∧
    STATUS_TRANSITIONS BookingStatus.no_show = [] ∧
    (bookingsService.cancelByManager dbNoShow 1 1 none).1.isOk = true ∧
    (bookingsRepository.findById (bookingsService.cancelByManager dbNoShow 1 1 none).2 1).map
      (fun b => b.status) = some BookingStatus.cancelled ∧
    (slotsRepository.findById dbNoShow 1).map (fun s => s.bookedCount) = some 1 ∧
    (slotsRepository.findById (bookingsService.cancelByManager dbNoShow 1 1 none).2 1).map
      (fun s => s.bookedCount) = some 0 := by
  refine ⟨?_, by decide, by decide, by decide, by decide, by decide, by decide⟩
  intro db id tenantId reason b hf ht
  unfold bookingsService.cancelByManager
  rw [hf]
  constructor
  · intro hst
    rcases hst with h | h | h | h <;> simp [ht, h, Except.isOk, Except.toBool]
  · intro hst
    rcases hst with h | h <;> simp [ht, h]

/-! ## Evaluating the cancellations -/

/-- The repository `cancel` of a booking that exists: the row returned, the row
stored and the slot rows afterwards. -/
theorem cancel_found {db : Db} {id : Nat} {b : Booking} (reason : String)
    (hf : bookingsRepository.findById db id = some b) :
    (bookingsRepository.cancel db id reason).1 =
        some { b with status := BookingStatus.cancelled, cancellationReason := some reason } ∧
    bookingsRepository.findById (bookingsRepository.cancel db id reason).2 id =
        some { b with status := BookingStatus.cancelled, cancellationReason := some reason } ∧
    (bookingsRepository.cancel db id reason).2.slots =
        db.slots.map
          (fun s => if s.id = b.timeSlotId then slotsRepository.decrementRow s else s) ∧
    (bookingsRepository.cancel db id reason).2.services = db.services := by
  have h := find?_booking_update_same
    (fun x => { x with status := BookingStatus.cancelled, cancellationReason := some reason })
    (fun _ => rfl) db.bookings id
  unfold bookingsRepository.cancel
  rw [hf]
  unfold bookingsRepository.findById at hf
  rw [hf] at h
  exact ⟨h, h, rfl, rfl⟩

theorem cancelByCustomer_absent {env : CancelEnv} {db : Db} {id customerId : Nat}
    {reason : Option String} (hf : bookingsRepository.findById db id = none) :
    bookingsService.cancelByCustomer env db id customerId reason =
      (Except.error (NotFoundError "Booking not found."), db) := by
  unfold bookingsService.cancelByCustomer
  rw [hf]

theorem cancelByCustomer_other {env : CancelEnv} {db : Db} {id customerId : Nat}
    {reason : Option String} {b : Booking} (hf : bookingsRepository.findById db id = some b)
    (hc : b.customerId ≠ customerId) :
    bookingsService.cancelByCustomer env db id customerId reason =
      (Except.error (ForbiddenError "Access denied."), db) := by
  unfold bookingsService.cancelByCustomer
  rw [hf]
  simp only [hc, ne_eq, not_false_eq_true, if_true]

theorem cancelByCustomer_status {env : CancelEnv} {db : Db} {id customerId : Nat}
    {reason : Option String} {b : Booking} (hf : bookingsRepository.findById db id = some b)
    (hc : b.customerId = customerId) (h1 : b.status ≠ BookingStatus.reserved)
    (h2 : b.status ≠ BookingStatus.confirmed) :
    bookingsService.cancelByCustomer env db id customerId reason =
      (Except.error (BadRequestError "This booking cannot be cancelled."), db) := by
  unfold bookingsService.cancelByCustomer
  rw [hf]
  cases hs : b.status <;> simp_all

theorem cancelByCustomer_late {env : CancelEnv} {db : Db} {id customerId : Nat}
    {reason : Option String} {b : Booking} (hf : bookingsRepository.findById db id = some b)
    (hc : b.customerId = customerId)
    (hs : b.status = BookingStatus.reserved ∨ b.status = BookingStatus.confirmed)
    (hlate : underTwoHours (bookingTime env b) env.now = true) :
    bookingsService.cancelByCustomer env db id customerId reason =
      (Except.error (BadRequestError
        "Bookings cannot be cancelled less than 2 hours before the scheduled time."), db) := by
  unfold bookingsService.cancelByCustomer
  rw [hf]
  rcases hs with hs | hs <;> simp [hc, hs, hlate]

theorem cancelByCustomer_in_time {env : CancelEnv} {db : Db} {id customerId : Nat}
    {reason : Option String} {b : Booking} (hf : bookingsRepository.findById db id = some b)
    (hc : b.customerId = customerId)
    (hs : b.status = BookingStatus.reserved ∨ b.status = BookingStatus.confirmed)
    (htime : underTwoHours (bookingTime env b) env.now = false) :
    bookingsService.cancelByCustomer env db id customerId reason =
      (Except.ok (bookingsRepository.cancel db id (orDefault reason "Cancelled by customer")).1,
        (bookingsRepository.cancel db id (orDefault reason "Cancelled by customer")).2) := by
  unfold bookingsService.cancelByCustomer
  rw [hf]
  rcases hs with hs | hs <;> simp [hc, hs, htime]

theorem underTwoHours_text {env : CancelEnv} (b : Booking)
    (h : env.bookingDate = DateColumn.text) :
    (underTwoHours (bookingTime env b) env.now = true ↔
      (b.bookingDate * 1440 + b.startTime - env.utcOffset) * 60000 - env.now <
        2 * (60 * 60 * 1000)) := by
  simp only [bookingTime, h, underTwoHours, decide_eq_true_eq]
  omega

theorem underTwoHours_date {env : CancelEnv} (b : Booking)
    (h : env.bookingDate = DateColumn.date) :
    underTwoHours (bookingTime env b) env.now = false := by
  simp only [bookingTime, h, underTwoHours]

theorem cancelByManager_open {db : Db} {id tenantId : Nat} {reason : Option String}
    {b : Booking} (hf : bookingsRepository.findById db id = some b)
    (ht : b.tenantId = tenantId) (h1 : b.status ≠ BookingStatus.completed)
    (h2 : b.status ≠ BookingStatus.cancelled) :
    bookingsService.cancelByManager db id tenantId reason =
      (Except.ok (bookingsRepository.cancel db id (orDefault reason "Cancelled by car wash")).1,
        (bookingsRepository.cancel db id (orDefault reason "Cancelled by car wash")).2) := by
  unfold bookingsService.cancelByManager
  rw [hf]
  cases hs : b.status <;> simp_all

/-! ## Bookings after a run of creations -/

theorem find?_booking_of_unique {l : List Booking} (hn : (l.map (fun b => b.id)).Nodup)
    {b : Booking} (hb : b ∈ l) : l.find? (fun x => x.id = b.id) = some b := by
  induction l with
  | nil => cases hb
  | cons a l ih =>
    rw [List.map_cons, List.nodup_cons] at hn
    rcases List.mem_cons.1 hb with rfl | h
    · simp
    · have hne : a.id ≠ b.id := by
        intro he
        exact hn.1 (he ▸ List.mem_map_of_mem (fun b => b.id) h)
      rw [List.find?_cons_of_neg _ (by simpa using hne)]
      exact ih hn.2 h

theorem create_ids_unique (fault : Fault) (db : Db) (r : CreateRequest)
    (hk : bookingIdsUnique db) : bookingIdsUnique (bookingsService.create fault db r).2 := by
  rcases hcr : bookingsService.create fault db r with ⟨res, db'⟩
  cases res with
  | error e => rw [create_error hcr]; exact hk
  | ok b =>
    obtain ⟨service, slot, -, -, -, -, -, -, -, -, hb, hdb⟩ := create_ok hcr
    subst hdb
    unfold bookingIdsUnique at hk ⊢
    simp only [slotsRepository.incrementBookedCount, slotsRepository.updateWhereId,
      List.map_append, List.map_cons, List.map_nil]
    rw [List.nodup_append]
    refine ⟨hk, List.nodup_singleton _, ?_⟩
    intro x hx hx'
    rw [List.mem_singleton] at hx'
    obtain ⟨y, hy, rfl⟩ := List.mem_map.1 hx
    have := lt_freshId hy
    rw [hb] at hx'
    simp only [bookingsRepository.insertedRow] at hx'
    omega

theorem create_bookings_mem (fault : Fault) (db : Db) (r : CreateRequest) {x : Booking}
    (hx : x ∈ db.bookings) : x ∈ (bookingsService.create fault db r).2.bookings := by
  rcases hcr : bookingsService.create fault db r with ⟨res, db'⟩
  cases res with
  | error e => rw [create_error hcr]; exact hx
  | ok b =>
    obtain ⟨service, slot, -, -, -, -, -, -, -, -, -, hdb⟩ := create_ok hcr
    subst hdb
    exact List.mem_append_left _ hx

theorem createAll_ids_unique (rs : List CreateRequest) :
    ∀ db : Db, bookingIdsUnique db → bookingIdsUnique (createAll db rs).2 := by
  induction rs with
  | nil => intro db hk; exact hk
  | cons r rs ih =>
    intro db hk
    exact ih _ (create_ids_unique Fault.none db r hk)

theorem createAll_bookings_mem (rs : List CreateRequest) :
    ∀ (db : Db) (x : Booking), x ∈ db.bookings → x ∈ (createAll db rs).2.bookings := by
  induction rs with
  | nil => intro db x hx; exact hx
  | cons r rs ih =>
    intro db x hx
    exact ih _ x (create_bookings_mem Fault.none db r hx)

/-- A run of creations that all fit into the slot: the final slot row, and each
booking created is a stored row found under its id. -/
theorem createAll_full (svcs : List Service) (t sid : Nat) (c : Int) :
    ∀ (rs : List CreateRequest) (db : Db) (slot : TimeSlot) (k : Nat),
      db.services = svcs → bookingIdsUnique db →
      slotsRepository.findById db sid = some slot →
      slot.tenantId = t → slot.status ≠ SlotStatus.blocked → slot.bookedCount = (k : Int) →
      slot.maxCapacity = c → ((k + rs.length : Nat) : Int) ≤ c →
      (∀ r ∈ rs, validRequest svcs t sid r) →
      (∃ slot', slotsRepository.findById (createAll db rs).2 sid = some slot' ∧
        slot'.tenantId = t ∧ slot'.maxCapacity = c ∧
        slot'.bookedCount = ((k + rs.length : Nat) : Int) ∧
        slot'.status ≠ SlotStatus.blocked ∧
        (1 ≤ rs.length → ((k + rs.length : Nat) : Int) = c → slot'.status = SlotStatus.full)) ∧
      (∀ i, i < rs.length → ∃ b, (createAll db rs).1[i]? = some (Except.ok b) ∧
        b.timeSlotId = sid ∧ b.status = BookingStatus.reserved ∧
        bookingsRepository.findById (createAll db rs).2 b.id = some b) ∧
      (createAll db rs).2.services = svcs := by
  intro rs
  induction rs with
  | nil =>
    intro db slot k hsv _ hslot ht hnb hk hcap _ _
    refine ⟨⟨slot, hslot, ht, hcap, by simpa using hk, hnb, ?_⟩,
      fun i hi => absurd hi (Nat.not_lt_zero i), hsv⟩
    intro h; simp at h
  | cons r rs ih =>
    intro db slot k hsv hu hslot ht hnb hk hcap hfit hval
    obtain ⟨hrt, hrs, service, hfind, hst, hact⟩ := hval r (List.mem_cons_self _ _)
    have hval' : ∀ r ∈ rs, validRequest svcs t sid r :=
      fun x hx => hval x (List.mem_cons_of_mem _ hx)
    have hsvc : servicesRepository.findById db r.serviceId = some service := by
      unfold servicesRepository.findById; rw [hsv]; exact hfind
    have hslot' : slotsRepository.findById db r.slotId = some slot := by rw [hrs]; exact hslot
    have hlen : (r :: rs).length = rs.length + 1 := rfl
    have hroom : slot.bookedCount < slot.maxCapacity := by
      rw [hlen] at hfit; omega
    have hcr := create_success hsvc (hst.trans hrt.symm) hact hslot' (ht.trans hrt.symm) hnb
      hroom
    have hsv1 : (bookingsService.create Fault.none db r).2.services = svcs := by
      rw [create_services]; exact hsv
    have hu1 := create_ids_unique Fault.none db r hu
    have hslot1 : slotsRepository.findById (bookingsService.create Fault.none db r).2 sid =
        some (slotsRepository.incrementRow slot) := by
      rw [hcr]
      unfold slotsRepository.findById at hslot ⊢
      simp only [slotsRepository.incrementBookedCount, slotsRepository.updateWhereId, hrs]
      rw [find?_update_same slotsRepository.incrementRow (fun _ => rfl), hslot]
      rfl
    have hnb1 : (slotsRepository.incrementRow slot).status ≠ SlotStatus.blocked := by
      simp only [slotsRepository.incrementRow]
      split
      · simp
      · exact hnb
    have hk1 : (slotsRepository.incrementRow slot).bookedCount = ((k + 1 : Nat) : Int) := by
      simp only [slotsRepository.incrementRow]
      omega
    obtain ⟨⟨slot', h1, h2, h3, h4, h5, h6⟩, hb, hs⟩ :=
      ih (bookingsService.create Fault.none db r).2
        (slotsRepository.incrementRow slot) (k + 1) hsv1 hu1 hslot1 ht hnb1 hk1 hcap
        (by rw [hlen] at hfit; omega) hval'
    refine ⟨⟨slot', h1, h2, h3, by rw [h4, hlen]; omega, h5, ?_⟩, ?_, hs⟩
    · intro _ hfull
      by_cases hrs0 : 1 ≤ rs.length
      · exact h6 hrs0 (by rw [hlen] at hfull; omega)
      · have hnil : rs = [] := by
          cases rs with
          | nil => rfl
          | cons a l => simp at hrs0
        subst hnil
        simp only [createAll] at h1
        rw [hslot1] at h1
        cases h1
        simp only [slotsRepository.incrementRow, List.length_singleton] at hfull ⊢
        rw [if_pos (by omega)]
    · intro i hi
      cases i with
      | zero =>
        have hmem0 : bookingsRepository.insertedRow db
            { tenantId := r.tenantId, customerId := r.customerId, serviceId := r.serviceId,
              timeSlotId := r.slotId, bookingDate := slot.slotDate,
              startTime := slot.startTime, endTime := slot.endTime,
              totalAmount := service.price, notes := r.notes } ∈
            (bookingsService.create Fault.none db r).2.bookings := by
          rw [hcr]
          simp [slotsRepository.incrementBookedCount, slotsRepository.updateWhereId]
        have hmem := createAll_bookings_mem rs _ _ hmem0
        have hun := createAll_ids_unique rs _ hu1
        refine ⟨bookingsRepository.insertedRow db
            { tenantId := r.tenantId, customerId := r.customerId, serviceId := r.serviceId,
              timeSlotId := r.slotId, bookingDate := slot.slotDate,
              startTime := slot.startTime, endTime := slot.endTime,
              totalAmount := service.price, notes := r.notes },
          by simp [createAll, hcr], hrs, rfl, ?_⟩
        exact find?_booking_of_unique hun hmem
      | succ j =>
        obtain ⟨b, hres, hb1, hb2, hb3⟩ := hb j (by simpa using hi)
        exact ⟨b, by simpa [createAll] using hres, hb1, hb2, hb3⟩


/-! ## Invariants of the slot rows -/

/-- A property of slot rows that the four row updates keep is an invariant of
the operations. -/
theorem runOps_invariant (P : TimeSlot → Prop)
    (hinc : ∀ s, P s → s.bookedCount < s.maxCapacity → P (slotsRepository.incrementRow s))
    (hdec : ∀ s, P s → P (slotsRepository.decrementRow s))
    (hblk : ∀ s : TimeSlot, P s → P { s with status := SlotStatus.blocked })
    (hunb : ∀ s, P s → P (slotsRepository.unblockRow s))
    (ops : List InventoryOp) :
    ∀ db : Db, slotIdsUnique db → (∀ s ∈ db.slots, P s) →
      ∀ s ∈ (runOps db ops).slots, P s := by
  induction ops with
  | nil => intro db _ hP; exact hP
  | cons op ops ih =>
    intro db hu hP
    simp only [runOps, List.foldl_cons]
    apply ih
    · unfold slotIdsUnique
      rw [apply_slot_ids db op hu]
      exact hu
    · intro s' hs'
      obtain ⟨i, hi', hget⟩ := List.getElem_of_mem hs'
      have hi : i < db.slots.length := by
        have := congrArg List.length (apply_slot_ids db op hu)
        simp only [List.length_map] at this
        omega
      obtain ⟨t, ht, hc⟩ := apply_slot_cases db op hu i (db.slots[i])
        (List.getElem?_eq_getElem hi)
      rw [List.getElem?_eq_getElem hi'] at ht
      cases ht
      rw [← hget]
      have hPs := hP _ (List.getElem_mem hi)
      rcases hc with h | ⟨h, hlt⟩ | h | h | h
      · rw [h]; exact hPs
      · rw [h]; exact hinc _ hPs hlt
      · rw [h]; exact hdec _ hPs
      · rw [h]; exact hblk _ hPs
      · rw [h]; exact hunb _ hPs


/-! ## Claims on cancellation -/

/-- C11 (customer cancellation).  `cancelByCustomer` fails, in this order, with
not found, forbidden and bad request (not cancellable), and a failure changes
nothing.  When the driver hands `booking_date` over as text, the call succeeds
exactly when the booking exists, belongs to the customer, is reserved or
confirmed and starts, in local time, at least 2 hours after `now`, and before
that it is refused with the policy error.  When the driver hands it over as a
`Date`, the parsed date is invalid and the 2 hour test is never true: the call
succeeds for every reserved or confirmed booking of the customer whatever the
time, so the confirmed booking of `dbConfirmed` is cancelled 90 minutes before
its start, where with the text it is refused.  `cancelByManager` cancels a
confirmed booking of its tenant whatever the time. -/
theorem cancelByCustomer_window (env : CancelEnv) (db : Db) (id customerId : Nat)
    (reason : Option String) :
    (env.bookingDate = DateColumn.text →
      ((bookingsService.cancelByCustomer env db id customerId reason).1.isOk = true ↔
        ∃ b, bookingsRepository.findById db id = some b ∧ b.customerId = customerId ∧
          (b.status = BookingStatus.reserved ∨ b.status = BookingStatus.confirmed) ∧
          2 * (60 * 60 * 1000) ≤
            (b.bookingDate * 1440 + b.startTime - env.utcOffset) * 60000 - env.now)) ∧
    (env.bookingDate = DateColumn.date →
      ((bookingsService.cancelByCustomer env db id customerId reason).1.isOk = true ↔
        ∃ b, bookingsRepository.findById db id = some b ∧ b.customerId = customerId ∧
          (b.status = BookingStatus.reserved ∨ b.status = BookingStatus.confirmed))) ∧
    (bookingsRepository.findById db id = none →
      bookingsService.cancelByCustomer env db id customerId reason =
        (Except.error (NotFoundError "Booking not found."), db)) ∧
    (∀ b, bookingsRepository.findById db id = some b →
      (b.customerId ≠ customerId →
        bookingsService.cancelByCustomer env db id customerId reason =
          (Except.error (ForbiddenError "Access denied."), db)) ∧
      (b.customerId = customerId → b.status ≠ BookingStatus.reserved →
        b.status ≠ BookingStatus.confirmed →
        bookingsService.cancelByCustomer env db id customerId reason =
          (Except.error (BadRequestError "This booking cannot be cancelled."), db)) ∧
      (b.customerId = customerId →
        (b.status = BookingStatus.reserved ∨ b.status = BookingStatus.confirmed) →
        env.bookingDate = DateColumn.text →
        (b.bookingDate * 1440 + b.startTime - env.utcOffset) * 60000 - env.now <
          2 * (60 * 60 * 1000) →
        bookingsService.cancelByCustomer env db id customerId reason =
          (Except.error (BadRequestError
            "Bookings cannot be cancelled less than 2 hours before the scheduled time."),
            db)) ∧
      (b.customerId = customerId →
        (b.status = BookingStatus.reserved ∨ b.status = BookingStatus.confirmed) →
        (env.bookingDate = DateColumn.date ∨
          2 * (60 * 60 * 1000) ≤
            (b.bookingDate * 1440 + b.startTime - env.utcOffset) * 60000 - env.now) →
        ∃ b', (bookingsService.cancelByCustomer env db id customerId reason).1 =
            Except.ok (some b') ∧
          bookingsRepository.findById
            (bookingsService.cancelByCustomer env db id customerId reason).2 id = some b' ∧
          b'.status = BookingStatus.cancelled) ∧
      (b.status = BookingStatus.confirmed →
        ∃ b', (bookingsService.cancelByManager db id b.tenantId reason).1 =
            Except.ok (some b') ∧
          bookingsRepository.findById
            (bookingsService.cancelByManager db id b.tenantId reason).2 id = some b' ∧
          b'.status = BookingStatus.cancelled)) ∧
    (∀ e, (bookingsService.cancelByCustomer env db id customerId reason).1 = Except.error e →
      (bookingsService.cancelByCustomer env db id customerId reason).2 = db) ∧
    bookingsRepository.findById dbConfirmed 1 = some bookingConfirmed ∧
    (bookingConfirmed.bookingDate * 1440 + bookingConfirmed.startTime) * 60000 -
      1728030600000 = 90 * (60 * 1000) ∧
    (bookingsService.cancelByCustomer
        { now := 1728030600000, bookingDate := DateColumn.date, utcOffset := 0 }
        dbConfirmed 1 7 none).1 =
      Except.ok (some { bookingConfirmed with
        status := BookingStatus.cancelled
        cancellationReason := some "Cancelled by customer" }) ∧
    bookingsService.cancelByCustomer
        { now := 1728030600000, bookingDate := DateColumn.text, utcOffset := 0 }
        dbConfirmed 1 7 none =
      (Except.error (BadRequestError
        "Bookings cannot be cancelled less than 2 hours before the scheduled time."),
        dbConfirmed) ∧
    (bookingsService.cancelByCustomer
        { now := 1728025200000, bookingDate := DateColumn.text, utcOffset := 0 }
        dbConfirmed 1 7 none).1.isOk = true := by
  have hok : ∀ b, bookingsRepository.findById db id = some b → b.customerId = customerId →
      (b.status = BookingStatus.reserved ∨ b.status = BookingStatus.confirmed) →
      underTwoHours (bookingTime env b) env.now = false →
      ∃ b', (bookingsService.cancelByCustomer env db id customerId reason).1 =
          Except.ok (some b') ∧
        bookingsRepository.findById
          (bookingsService.cancelByCustomer env db id customerId reason).2 id = some b' ∧
        b'.status = BookingStatus.cancelled := by
    intro b hf hc hs htime
    rw [cancelByCustomer_in_time hf hc hs htime]
    obtain ⟨h1, h2, -, -⟩ := cancel_found (orDefault reason "Cancelled by customer") hf
    exact ⟨_, by rw [h1], h2, rfl⟩
  have hiff : (bookingsService.cancelByCustomer env db id customerId reason).1.isOk = true ↔
      ∃ b, bookingsRepository.findById db id = some b ∧ b.customerId = customerId ∧
        (b.status = BookingStatus.reserved ∨ b.status = BookingStatus.confirmed) ∧
        underTwoHours (bookingTime env b) env.now = false := by
    constructor
    · intro h
      cases hf : bookingsRepository.findById db id with
      | none =>
        rw [cancelByCustomer_absent hf] at h
        simp [Except.isOk, Except.toBool] at h
      | some b =>
        by_cases hc : b.customerId = customerId
        · by_cases hs : b.status = BookingStatus.reserved ∨ b.status = BookingStatus.confirmed
          · by_cases htime : underTwoHours (bookingTime env b) env.now = true
            · rw [cancelByCustomer_late hf hc hs htime] at h
              simp [Except.isOk, Except.toBool] at h
            · exact ⟨b, rfl, hc, hs, by simpa using htime⟩
          · rw [cancelByCustomer_status hf hc (fun h1 => hs (Or.inl h1))
              (fun h2 => hs (Or.inr h2))] at h
            simp [Except.isOk, Except.toBool] at h
        · rw [cancelByCustomer_other hf hc] at h
          simp [Except.isOk, Except.toBool] at h
    · rintro ⟨b, hf, hc, hs, htime⟩
      obtain ⟨b', h1, -⟩ := hok b hf hc hs htime
      rw [h1]; rfl
  have hfalse_text : env.bookingDate = DateColumn.text → ∀ b : Booking,
      (underTwoHours (bookingTime env b) env.now = false ↔
        2 * (60 * 60 * 1000) ≤
          (b.bookingDate * 1440 + b.startTime - env.utcOffset) * 60000 - env.now) := by
    intro ht b
    have h := underTwoHours_text b ht
    constructor
    · intro hf
      by_contra hlt
      have : underTwoHours (bookingTime env b) env.now = true := h.2 (by omega)
      rw [hf] at this
      cases this
    · intro hge
      by_contra hne
      have htrue : underTwoHours (bookingTime env b) env.now = true := by simpa using hne
      have := h.1 htrue
      omega
  refine ⟨?_, ?_, fun hf => cancelByCustomer_absent hf, ?_, ?_, rfl, by decide, rfl, rfl, rfl⟩
  · intro ht
    rw [hiff]
    constructor
    · rintro ⟨b, hf, hc, hs, htime⟩
      exact ⟨b, hf, hc, hs, (hfalse_text ht b).1 htime⟩
    · rintro ⟨b, hf, hc, hs, htime⟩
      exact ⟨b, hf, hc, hs, (hfalse_text ht b).2 htime⟩
  · intro hd
    rw [hiff]
    constructor
    · rintro ⟨b, hf, hc, hs, -⟩
      exact ⟨b, hf, hc, hs⟩
    · rintro ⟨b, hf, hc, hs⟩
      exact ⟨b, hf, hc, hs, underTwoHours_date b hd⟩
  · intro b hf
    refine ⟨fun hc => cancelByCustomer_other hf hc,
      fun hc h1 h2 => cancelByCustomer_status hf hc h1 h2,
      fun hc hs ht hlate => cancelByCustomer_late hf hc hs ((underTwoHours_text b ht).2 hlate),
      fun hc hs htime => ?_, fun hs => ?_⟩
    · rcases htime with hd | hge
      · exact hok b hf hc hs (underTwoHours_date b hd)
      · cases hcol : env.bookingDate with
        | text => exact hok b hf hc hs ((hfalse_text hcol b).2 hge)
        | date => exact hok b hf hc hs (underTwoHours_date b hcol)
    · rw [cancelByManager_open hf rfl (by rw [hs]; decide) (by rw [hs]; decide)]
      obtain ⟨h1, h2, -, -⟩ := cancel_found (orDefault reason "Cancelled by car wash") hf
      exact ⟨_, by rw [h1], h2, rfl⟩
  · intro e he
    cases hf : bookingsRepository.findById db id with
    | none => rw [cancelByCustomer_absent hf]
    | some b =>
      by_cases hc : b.customerId = customerId
      · by_cases hs : b.status = BookingStatus.reserved ∨ b.status = BookingStatus.confirmed
        · by_cases htime : underTwoHours (bookingTime env b) env.now = true
          · rw [cancelByCustomer_late hf hc hs htime]
          · obtain ⟨b', h1, -⟩ := hok b hf hc hs (by simpa using htime)
            rw [h1] at he
            cases he
        · rw [cancelByCustomer_status hf hc (fun h1 => hs (Or.inl h1))
            (fun h2 => hs (Or.inr h2))]
      · rw [cancelByCustomer_other hf hc]

/-- C12 (cancellation reconciliation).  For a fresh slot of capacity `c >= 1`
(booking ids being a key): after `c` creations with valid requests the slot is
full with `bookedCount = c`; cancelling any one of the bookings created makes
that booking cancelled and the slot available with `bookedCount = c - 1`, and a
further creation on the slot succeeds.  The decrement never goes below 0. -/
theorem cancellation_reconciliation (db : Db) (t sid : Nat) (slot : TimeSlot)
    (rs : List CreateRequest) (r : CreateRequest) (reason : String)
    (hk : bookingIdsUnique db) (hslot : slotsRepository.findById db sid = some slot)
    (ht : slot.tenantId = t) (hav : slot.status = SlotStatus.available)
    (hbc : slot.bookedCount = 0) (hcap : 1 ≤ slot.maxCapacity)
    (hlen : (rs.length : Int) = slot.maxCapacity)
    (hval : ∀ x ∈ rs, validRequest db.services t sid x)
    (hr : validRequest db.services t sid r) :
    (∃ s, slotsRepository.findById (createAll db rs).2 sid = some s ∧
      s.status = SlotStatus.full ∧ s.bookedCount = slot.maxCapacity) ∧
    (∀ i, i < rs.length → ∃ b, (createAll db rs).1[i]? = some (Except.ok b) ∧
      (∃ b', bookingsRepository.findById
          (bookingsRepository.cancel (createAll db rs).2 b.id reason).2 b.id = some b' ∧
        b'.status = BookingStatus.cancelled) ∧
      (∃ s', slotsRepository.findById
          (bookingsRepository.cancel (createAll db rs).2 b.id reason).2 sid = some s' ∧
        s'.status = SlotStatus.available ∧ s'.bookedCount = slot.maxCapacity - 1) ∧
      (bookingsService.create Fault.none
        (bookingsRepository.cancel (createAll db rs).2 b.id reason).2 r).1.isOk = true) ∧
    (∀ s : TimeSlot, 0 ≤ (slotsRepository.decrementRow s).bookedCount) := by
  obtain ⟨⟨full, hf1, hf2, hf3, hf4, -, hf6⟩, hb, hsv⟩ :=
    createAll_full db.services t sid slot.maxCapacity rs db slot 0 rfl hk hslot ht
      (by rw [hav]; decide) (by rw [hbc]; rfl) rfl (by omega) hval
  have hlen1 : 1 ≤ rs.length := by omega
  have hfull : full.status = SlotStatus.full := hf6 hlen1 (by omega)
  have hcount : full.bookedCount = slot.maxCapacity := by rw [hf4]; omega
  refine ⟨⟨full, hf1, hfull, hcount⟩, ?_, ?_⟩
  · intro i hi
    obtain ⟨b, hres, hbs, -, hfind⟩ := hb i hi
    obtain ⟨-, hc2, hc3, hc4⟩ := cancel_found reason hfind
    have hslot' : slotsRepository.findById
        (bookingsRepository.cancel (createAll db rs).2 b.id reason).2 sid =
        some (slotsRepository.decrementRow full) := by
      unfold slotsRepository.findById at hf1 ⊢
      rw [hc3, hbs, find?_update_same slotsRepository.decrementRow (fun _ => rfl), hf1]
      rfl
    have hst : (slotsRepository.decrementRow full).status = SlotStatus.available := by
      simp only [slotsRepository.decrementRow]
      rw [if_pos (by omega)]
    have hbc' : (slotsRepository.decrementRow full).bookedCount = slot.maxCapacity - 1 := by
      simp only [slotsRepository.decrementRow]
      omega
    refine ⟨b, hres, ⟨_, hc2, rfl⟩, ⟨_, hslot', hst, hbc'⟩, ?_⟩
    obtain ⟨hrt, hrs, service, hfs, hst1, hact⟩ := hr
    have hsvc : servicesRepository.findById
        (bookingsRepository.cancel (createAll db rs).2 b.id reason).2 r.serviceId =
        some service := by
      unfold servicesRepository.findById
      rw [hc4, hsv]; exact hfs
    have htn : (slotsRepository.decrementRow full).tenantId = r.tenantId := by
      rw [hrt]; exact hf2
    have hnb : (slotsRepository.decrementRow full).status ≠ SlotStatus.blocked := by
      rw [hst]; decide
    have hroom : (slotsRepository.decrementRow full).bookedCount <
        (slotsRepository.decrementRow full).maxCapacity := by
      rw [hbc']
      have : (slotsRepository.decrementRow full).maxCapacity = slot.maxCapacity := hf3
      omega
    rw [create_success hsvc (hst1.trans hrt.symm) hact (by rw [hrs]; exact hslot') htn hnb
      hroom]
    rfl
  · intro s
    simp only [slotsRepository.decrementRow]
    omega

/-- Witness of C12: the fresh slot of capacity 2 is filled by two creations and
the first booking is cancelled. -/
theorem cancellation_reconciliation_witness :
    slotsRepository.findById dbFresh 1 = some slotOne ∧
      ∃ s, slotsRepository.findById (createAll dbFresh [requestSlot1, requestSlot1]).2 1 =
          some s ∧
        s.status = SlotStatus.full ∧ s.bookedCount = slotOne.maxCapacity :=
  ⟨rfl, (cancellation_reconciliation dbFresh 1 1 slotOne [requestSlot1, requestSlot1]
    requestSlot1 "changed plans" (by decide) rfl rfl rfl rfl (by decide) rfl
    (fun x hx => by
      simp only [List.mem_cons, List.mem_singleton, List.mem_nil_iff, or_false, or_self] at hx
      subst hx
      exact ⟨rfl, rfl, _, rfl, rfl, rfl⟩)
    ⟨rfl, rfl, _, rfl, rfl, rfl⟩).1⟩

/-- C13 (a block under cancellation): what the code does.  The decrement sets
the status of a blocked slot with `bookedCount - 1 < maxCapacity` to available;
on the example a blocked slot with one booking is available, and bookable
again, after the booking is cancelled. -/
theorem cancel_lifts_block :
    (∀ (db : Db) (id : Nat) (reason : String) (b : Booking) (slot : TimeSlot),
      bookingsRepository.findById db id = some b →
      slotsRepository.findById db b.timeSlotId = some slot →
      slot.status = SlotStatus.blocked → slot.bookedCount - 1 < slot.maxCapacity →
      ∃ s', slotsRepository.findById (bookingsRepository.cancel db id reason).2 b.timeSlotId =
          some s' ∧
        s'.status = SlotStatus.available ∧ s'.bookedCount = max 0 (slot.bookedCount - 1)) ∧
    (slotsRepository.findById dbBlocked 1).map (fun s => (s.status, s.bookedCount)) =
      some (SlotStatus.blocked, 1) ∧
    (bookingsService.create Fault.none dbBlocked requestSlot1).1 =
      Except.error (BadRequestError "This time slot is not available.") ∧
    (slotsRepository.findById (bookingsRepository.cancel dbBlocked 1 "changed plans").2 1).map
      (fun s => (s.status, s.bookedCount)) = some (SlotStatus.available, 0) ∧
    (bookingsService.create Fault.none
      (bookingsRepository.cancel dbBlocked 1 "changed plans").2 requestSlot1).1.isOk = true := by
  refine ⟨?_, by decide, rfl, by decide, by decide⟩
  intro db id reason b slot hf hslot hblocked hroom
  obtain ⟨-, -, hc3, -⟩ := cancel_found reason hf
  refine ⟨slotsRepository.decrementRow slot, ?_, ?_, rfl⟩
  · unfold slotsRepository.findById at hslot ⊢
    rw [hc3, find?_update_same slotsRepository.decrementRow (fun _ => rfl), hslot]
    rfl
  · simp only [slotsRepository.decrementRow]
    rw [if_pos hroom]

/-- C14 (atomicity of cancellation): what the code does.  Without a failing
statement `cancelWithFault` is `cancel`; when the booking update fails nothing
has changed; when the decrement fails the booking is already stored as
cancelled while the slots are as before.  On the example the booking is
cancelled and its slot still counts 1. -/
theorem cancel_not_atomic :
    (∀ (db : Db) (id : Nat) (reason : String),
      bookingsRepository.cancelWithFault CancelFault.none db id reason =
        (Except.ok (bookingsRepository.cancel db id reason).1,
          (bookingsRepository.cancel db id reason).2)) ∧
    (∀ (db : Db) (id : Nat) (reason : String) (b : Booking),
      bookingsRepository.findById db id = some b →
      bookingsRepository.cancelWithFault CancelFault.update db id reason =
        (Except.error storageError, db)) ∧
    (∀ (db : Db) (id : Nat) (reason : String) (b : Booking),
      bookingsRepository.findById db id = some b →
      (bookingsRepository.cancelWithFault CancelFault.decrement db id reason).1 =
        Except.error storageError ∧
      bookingsRepository.findById
        (bookingsRepository.cancelWithFault CancelFault.decrement db id reason).2 id =
        some { b with status := BookingStatus.cancelled, cancellationReason := some reason } ∧
      (bookingsRepository.cancelWithFault CancelFault.decrement db id reason).2.slots =
        db.slots) ∧
    (bookingsRepository.cancelWithFault CancelFault.decrement dbBooked 1 "changed plans").1 =
      Except.error storageError ∧
    (bookingsRepository.cancelWithFault CancelFault.decrement dbBooked 1 "changed plans").2 ≠
      dbBooked ∧
    (bookingsRepository.findById
      (bookingsRepository.cancelWithFault CancelFault.decrement dbBooked 1 "changed plans").2
      1).map (fun b => b.status) = some BookingStatus.cancelled ∧
    (slotsRepository.findById
      (bookingsRepository.cancelWithFault CancelFault.decrement dbBooked 1 "changed plans").2
      1).map (fun s => s.bookedCount) = some 1 := by
  refine ⟨?_, ?_, ?_, rfl, by decide, by decide, by decide⟩
  · intro db id reason
    unfold bookingsRepository.cancelWithFault bookingsRepository.cancel
    cases bookingsRepository.findById db id with
    | none => rfl
    | some b => simp
  · intro db id reason b hf
    unfold bookingsRepository.cancelWithFault
    rw [hf]
    simp
  · intro db id reason b hf
    have h := find?_booking_update_same
      (fun x => { x with status := BookingStatus.cancelled, cancellationReason := some reason })
      (fun _ => rfl) db.bookings id
    unfold bookingsRepository.cancelWithFault
    rw [hf]
    unfold bookingsRepository.findById at hf
    rw [hf] at h
    exact ⟨by simp, h, by simp⟩

/-- C15 (status consistency).  With `time_slots.id` a key: in every state
reached from freshly generated slots by `create`, the repository `cancel`,
`blockSlot` and `unblockSlot`, a slot that is not blocked is full exactly when
`bookedCount >= maxCapacity` and available exactly when
`bookedCount < maxCapacity`. -/
theorem status_consistent (db : Db) (ops : List InventoryOp) (hu : slotIdsUnique db)
    (hfresh : ∀ s ∈ db.slots, freshSlot s) :
    ∀ s ∈ (runOps db ops).slots, s.status ≠ SlotStatus.blocked →
      ((s.status = SlotStatus.full ↔ s.bookedCount ≥ s.maxCapacity) ∧
        (s.status = SlotStatus.available ↔ s.bookedCount < s.maxCapacity)) := by
  have h := runOps_invariant (fun s => 1 ≤ s.maxCapacity ∧ statusConsistent s)
    ?_ ?_ ?_ ?_ ops db hu ?_
  · intro s hs
    exact (h s hs).2
  · rintro s ⟨hcap, hst⟩ hlt
    refine ⟨hcap, ?_⟩
    unfold statusConsistent at hst ⊢
    simp only [slotsRepository.incrementRow]
    by_cases hfull : s.bookedCount + 1 ≥ s.maxCapacity
    · rw [if_pos hfull]
      intro _
      exact ⟨⟨fun _ => hfull, fun _ => rfl⟩, ⟨fun h => (by cases h), fun h => by omega⟩⟩
    · rw [if_neg hfull]
      intro hnb
      obtain ⟨h1, h2⟩ := hst hnb
      exact ⟨⟨fun h => by have := h1.1 h; omega, fun h => absurd h hfull⟩,
        ⟨fun _ => by omega, fun _ => h2.2 hlt⟩⟩
  · rintro s ⟨hcap, hst⟩
    refine ⟨hcap, ?_⟩
    unfold statusConsistent at hst ⊢
    simp only [slotsRepository.decrementRow]
    by_cases hlt : s.bookedCount - 1 < s.maxCapacity
    · rw [if_pos hlt]
      intro _
      exact ⟨⟨fun h => (by cases h), fun h => by omega⟩, ⟨fun _ => by omega, fun _ => rfl⟩⟩
    · rw [if_neg hlt]
      intro hnb
      obtain ⟨h1, h2⟩ := hst hnb
      exact ⟨⟨fun _ => by omega, fun _ => h1.2 (by omega)⟩,
        ⟨fun h => by have := h2.1 h; omega, fun h => by omega⟩⟩
  · rintro s ⟨hcap, -⟩
    refine ⟨hcap, ?_⟩
    unfold statusConsistent
    intro h
    exact absurd rfl h
  · rintro s ⟨hcap, -⟩
    refine ⟨hcap, ?_⟩
    unfold statusConsistent
    simp only [slotsRepository.unblockRow]
    by_cases hfull : s.bookedCount ≥ s.maxCapacity
    · rw [if_pos hfull]
      intro _
      exact ⟨⟨fun _ => hfull, fun _ => rfl⟩, ⟨fun h => (by cases h), fun h => by omega⟩⟩
    · rw [if_neg hfull]
      intro _
      exact ⟨⟨fun h => (by cases h), fun h => absurd h hfull⟩,
        ⟨fun _ => by omega, fun _ => rfl⟩⟩
  · intro s hs
    obtain ⟨h1, h2, h3⟩ := hfresh s hs
    refine ⟨h1, ?_⟩
    unfold statusConsistent
    intro _
    rw [h3, h2]
    exact ⟨⟨fun h => (by cases h), fun h => by omega⟩, ⟨fun _ => by omega, fun _ => rfl⟩⟩

/-- Witness of C15: two creations fill the first fresh slot, the second slot is
blocked, a booking is cancelled twice and the second slot is unblocked. -/
theorem status_consistent_witness :
    slotIdsUnique dbFresh ∧ (∀ s ∈ dbFresh.slots, freshSlot s) ∧
      ∀ s ∈ (runOps dbFresh
          [InventoryOp.create Fault.none requestSlot1,
           InventoryOp.create Fault.none requestSlot1,
           InventoryOp.blockSlot 2, InventoryOp.cancel 1 "changed plans",
           InventoryOp.cancel 1 "changed plans", InventoryOp.unblockSlot 2]).slots,
        s.status ≠ SlotStatus.blocked →
          ((s.status = SlotStatus.full ↔ s.bookedCount ≥ s.maxCapacity) ∧
            (s.status = SlotStatus.available ↔ s.bookedCount < s.maxCapacity)) :=
  ⟨by decide, by decide, status_consistent dbFresh _ (by decide) (by decide)⟩

/-- C20 (block and unblock).  A missing slot gives not found and a slot of
another tenant forbidden.  For a slot of the caller's tenant `toggleSlotBlock`
with `true` stores status blocked, with `false` it stores full when
`bookedCount >= maxCapacity` and available otherwise; both keep the slot's
`bookedCount` and `maxCapacity` and the whole booking table, and a `create`
with a valid service against the blocked slot fails with the bad-request error
of a blocked slot. -/
theorem toggleSlotBlock_effect (db : Db) (id tenantId : Nat) :
    (slotsRepository.findById db id = none → ∀ block,
      slotsService.toggleSlotBlock db id tenantId block =
        (Except.error (NotFoundError "Slot not found."), db)) ∧
    (∀ slot, slotsRepository.findById db id = some slot →
      (slot.tenantId ≠ tenantId → ∀ block,
        slotsService.toggleSlotBlock db id tenantId block =
          (Except.error (ForbiddenError "Access denied."), db)) ∧
      (slot.tenantId = tenantId →
        (∃ s', (slotsService.toggleSlotBlock db id tenantId true).1 = Except.ok (some s') ∧
          slotsRepository.findById (slotsService.toggleSlotBlock db id tenantId true).2 id =
            some s' ∧
          s'.status = SlotStatus.blocked ∧ s'.bookedCount = slot.bookedCount ∧
          s'.maxCapacity = slot.maxCapacity) ∧
        (∃ s', (slotsService.toggleSlotBlock db id tenantId false).1 = Except.ok (some s') ∧
          slotsRepository.findById (slotsService.toggleSlotBlock db id tenantId false).2 id =
            some s' ∧
          s'.status = (if slot.bookedCount ≥ slot.maxCapacity then SlotStatus.full
            else SlotStatus.available) ∧
          s'.bookedCount = slot.bookedCount ∧ s'.maxCapacity = slot.maxCapacity) ∧
        (∀ (fault : Fault) (r : CreateRequest), r.slotId = id → r.tenantId = tenantId →
          (∃ service, servicesRepository.findById db r.serviceId = some service ∧
            service.tenantId = tenantId ∧ service.isActive = true) →
          bookingsService.create fault (slotsService.toggleSlotBlock db id tenantId true).2 r =
            (Except.error (BadRequestError "This time slot is not available."),
              (slotsService.toggleSlotBlock db id tenantId true).2)))) ∧
    (∀ block, (slotsService.toggleSlotBlock db id tenantId block).2.bookings = db.bookings ∧
      (slotsService.toggleSlotBlock db id tenantId block).2.services = db.services ∧
      ∀ (i : Nat) (s : TimeSlot), db.slots[i]? = some s →
        ∃ s', (slotsService.toggleSlotBlock db id tenantId block).2.slots[i]? = some s' ∧
          s'.id = s.id ∧ s'.bookedCount = s.bookedCount ∧ s'.maxCapacity = s.maxCapacity ∧
          (s.id ≠ id → s' = s)) := by
  refine ⟨?_, ?_, ?_⟩
  · intro hf block
    unfold slotsService.toggleSlotBlock
    rw [hf]
  · intro slot hf
    have hfind : db.slots.find? (fun s => s.id = id) = some slot := hf
    refine ⟨?_, ?_⟩
    · intro ht block
      unfold slotsService.toggleSlotBlock
      rw [hf]
      simp only [ht, ne_eq, not_false_eq_true, if_true]
    · intro ht
      have hb : slotsRepository.findById (slotsRepository.blockSlot db id) id =
          some { slot with status := SlotStatus.blocked } := by
        have h := find?_update_same (fun s => { s with status := SlotStatus.blocked })
          (fun _ => rfl) db.slots id
        rw [hfind] at h
        exact h
      have hu : slotsRepository.findById (slotsRepository.unblockSlot db id) id =
          some (slotsRepository.unblockRow slot) := by
        have h := find?_update_same slotsRepository.unblockRow (fun _ => rfl) db.slots id
        rw [hfind] at h
        exact h
      have htrue : slotsService.toggleSlotBlock db id tenantId true =
          (Except.ok (slotsRepository.findById (slotsRepository.blockSlot db id) id),
            slotsRepository.blockSlot db id) := by
        unfold slotsService.toggleSlotBlock
        rw [hf]
        simp [ht]
      have hfalse : slotsService.toggleSlotBlock db id tenantId false =
          (Except.ok (slotsRepository.findById (slotsRepository.unblockSlot db id) id),
            slotsRepository.unblockSlot db id) := by
        unfold slotsService.toggleSlotBlock
        rw [hf]
        simp [ht]
      refine ⟨⟨{ slot with status := SlotStatus.blocked }, by rw [htrue, hb],
          by rw [htrue]; exact hb, rfl, rfl, rfl⟩,
        ⟨slotsRepository.unblockRow slot, by rw [hfalse, hu], by rw [hfalse]; exact hu, rfl,
          rfl, rfl⟩, ?_⟩
      intro fault r hrs hrt ⟨service, hsvc, hst, hact⟩
      rw [htrue]
      have hsvc' : servicesRepository.findById (slotsRepository.blockSlot db id) r.serviceId =
          some service := hsvc
      have hslotb : slotsRepository.findById (slotsRepository.blockSlot db id) r.slotId =
          some { slot with status := SlotStatus.blocked } := by rw [hrs]; exact hb
      have htb : ({ slot with status := SlotStatus.blocked } : TimeSlot).tenantId =
          r.tenantId := ht.trans hrt.symm
      exact create_slot_blocked hsvc' (hst.trans hrt.symm) hact hslotb htb rfl
  · intro block
    have hcases : (slotsService.toggleSlotBlock db id tenantId block).2 = db ∨
        (slotsService.toggleSlotBlock db id tenantId block).2 = slotsRepository.blockSlot db id ∨
        (slotsService.toggleSlotBlock db id tenantId block).2 =
          slotsRepository.unblockSlot db id := by
      unfold slotsService.toggleSlotBlock
      cases slotsRepository.findById db id with
      | none => left; rfl
      | some slot =>
        simp only
        split
        · left; rfl
        · split
          · right; left; rfl
          · right; right; rfl
    rcases hcases with h | h | h
    · rw [h]
      exact ⟨rfl, rfl, fun i s hs => ⟨s, hs, rfl, rfl, rfl, fun _ => rfl⟩⟩
    · rw [h]
      refine ⟨rfl, rfl, fun i s hs => ?_⟩
      simp only [slotsRepository.blockSlot, updateWhereId_slots_get, hs, Option.map_some']
      by_cases hid : s.id = id
      · exact ⟨{ s with status := SlotStatus.blocked }, by rw [if_pos hid], rfl, rfl, rfl,
          fun hne => absurd hid hne⟩
      · exact ⟨s, by rw [if_neg hid], rfl, rfl, rfl, fun _ => rfl⟩
    · rw [h]
      refine ⟨rfl, rfl, fun i s hs => ?_⟩
      simp only [slotsRepository.unblockSlot, updateWhereId_slots_get, hs, Option.map_some']
      by_cases hid : s.id = id
      · exact ⟨slotsRepository.unblockRow s, by rw [if_pos hid], rfl, rfl, rfl,
          fun hne => absurd hid hne⟩
      · exact ⟨s, by rw [if_neg hid], rfl, rfl, rfl, fun _ => rfl⟩

/-- Witness of C20: the first fresh slot is blocked, refuses a booking, and is
available again after the unblock. -/
theorem toggleSlotBlock_effect_witness :
    slotsRepository.findById dbFresh 1 = some slotOne ∧
      bookingsService.create Fault.none (slotsService.toggleSlotBlock dbFresh 1 1 true).2
          requestSlot1 =
        (Except.error (BadRequestError "This time slot is not available."),
          (slotsService.toggleSlotBlock dbFresh 1 1 true).2) ∧
      (slotsService.toggleSlotBlock (slotsService.toggleSlotBlock dbFresh 1 1 true).2 1 1
        false).2 = dbFresh :=
  ⟨rfl, (((toggleSlotBlock_effect dbFresh 1 1).2.1 slotOne rfl).2 rfl).2.2 Fault.none
    requestSlot1 rfl rfl ⟨serviceOne, rfl, rfl, rfl⟩, by decide⟩

/-! ## The loops of slot generation -/

/-- Every candidate the inner loop pushes carries the tenant, the date and the
capacity, lasts `slotDuration` minutes and ends by the closing minute. -/
theorem windowLoop_mem (tenantId : Nat) (slotDate slotDuration closeMinutes capacity : Int) :
    ∀ (fuel : Nat) (m : Int) (cs : List SlotCandidate),
      slotsService.windowLoop tenantId slotDate slotDuration closeMinutes capacity fuel m =
        some cs →
      ∀ x ∈ cs, x.tenantId = tenantId ∧ x.slotDate = slotDate ∧ x.maxCapacity = capacity ∧
        x.endTime = x.startTime + slotDuration ∧ x.endTime ≤ closeMinutes := by
  intro fuel
  induction fuel with
  | zero =>
    intro m cs h x hx
    simp only [slotsService.windowLoop] at h
    split at h
    · cases h
    · cases h; cases hx
  | succ fuel ih =>
    intro m cs h x hx
    simp only [slotsService.windowLoop] at h
    split at h
    · rename_i hle
      cases hrest : slotsService.windowLoop tenantId slotDate slotDuration closeMinutes capacity
          fuel (m + slotDuration) with
      | none => rw [hrest] at h; cases h
      | some rest =>
        rw [hrest] at h
        simp only [Option.map_some', Option.some.injEq] at h
        subst h
        rcases List.mem_cons.1 hx with rfl | hx'
        · exact ⟨rfl, rfl, rfl, rfl, hle⟩
        · exact ih _ _ hrest x hx'
    · cases h; cases hx

/-- With a duration of at least 1 and enough iterations allowed, the inner loop
ends and pushes exactly the candidates of the specification. -/
theorem windowLoop_eq_spec (tenantId : Nat) (slotDate slotDuration closeMinutes capacity : Int)
    (hd : 1 ≤ slotDuration) :
    ∀ (fuel : Nat) (m : Int), closeMinutes - m ≤ (fuel : Int) →
      slotsService.windowLoop tenantId slotDate slotDuration closeMinutes capacity fuel m =
        some (windowSlotsSpec tenantId slotDate slotDuration closeMinutes capacity m) := by
  have hpos : 0 < slotDuration := by omega
  have hempty : ∀ m : Int, ¬ m + slotDuration ≤ closeMinutes →
      windowSlotsSpec tenantId slotDate slotDuration closeMinutes capacity m = [] := by
    intro m hm
    have hlt : (closeMinutes - m) / slotDuration < 1 :=
      Int.ediv_lt_of_lt_mul hpos (by omega)
    have h0 : ((closeMinutes - m) / slotDuration).toNat = 0 := by omega
    simp [windowSlotsSpec, h0]
  intro fuel
  induction fuel with
  | zero =>
    intro m hm
    have hcond : ¬ m + slotDuration ≤ closeMinutes := by omega
    simp only [slotsService.windowLoop, if_neg hcond]
    rw [hempty m hcond]
  | succ fuel ih =>
    intro m hm
    by_cases hcond : m + slotDuration ≤ closeMinutes
    · simp only [slotsService.windowLoop, if_pos hcond]
      rw [ih (m + slotDuration) (by push_cast at hm; omega)]
      simp only [Option.map_some', Option.some.injEq]
      have hq : (closeMinutes - m) / slotDuration =
          (closeMinutes - (m + slotDuration)) / slotDuration + 1 := by
        have h := Int.add_mul_ediv_right (closeMinutes - (m + slotDuration)) 1
          (ne_of_gt hpos)
        rw [← h]
        congr 1
        ring
      have hq0 : 0 ≤ (closeMinutes - (m + slotDuration)) / slotDuration :=
        Int.ediv_nonneg (by omega) (by omega)
      have hn : ((closeMinutes - m) / slotDuration).toNat =
          ((closeMinutes - (m + slotDuration)) / slotDuration).toNat + 1 := by omega
      simp only [windowSlotsSpec]
      rw [hn, List.range_succ_eq_map, List.map_cons, List.map_map]
      congr 1
      · simp
      · apply List.map_congr_left
        intro k _
        simp only [Function.comp, Nat.succ_eq_add_one, Nat.cast_add, Nat.cast_one,
          SlotCandidate.mk.injEq, true_and, and_true]
        constructor <;> ring
    · simp only [slotsService.windowLoop, if_neg hcond]
      rw [hempty m hcond]

theorem hoursMap_foldl (rows : List OperatingHours) :
    ∀ (init : Nat → Option OperatingHours) (k : Nat) (oh : OperatingHours),
      (rows.foldl (fun m oh => fun k => if k = oh.dayOfWeek then some oh else m k) init) k =
        some oh →
      (oh ∈ rows ∧ oh.dayOfWeek = k) ∨ init k = some oh := by
  induction rows with
  | nil => intro init k oh h; exact Or.inr h
  | cons a rows ih =>
    intro init k oh h
    rw [List.foldl_cons] at h
    rcases ih _ k oh h with ⟨hmem, hk⟩ | h'
    · exact Or.inl ⟨List.mem_cons_of_mem _ hmem, hk⟩
    · by_cases hka : k = a.dayOfWeek
      · simp only [hka, if_true, Option.some.injEq] at h'
        subst h'
        exact Or.inl ⟨List.mem_cons_self _ _, hka.symm⟩
      · simp only [hka, if_false] at h'
        exact Or.inr h'

/-- The row the map holds for a weekday is a row of that weekday. -/
theorem hoursMap_some {rows : List OperatingHours} {k : Nat} {oh : OperatingHours}
    (h : slotsService.hoursMap rows k = some oh) : oh ∈ rows ∧ oh.dayOfWeek = k := by
  rcases hoursMap_foldl rows (fun _ => none) k oh h with h' | h'
  · exact h'
  · cases h'

/-- The body of the date loop pushes nothing for a day whose weekday has only
closed rows, or no row. -/
theorem dayCandidates_closed (fuel : Nat) (rows : List OperatingHours) (tenantId : Nat)
    (slotDuration capacity day : Int)
    (hclosed : ∀ oh ∈ rows, oh.dayOfWeek = dayOfWeek day → oh.isClosed = true) :
    slotsService.dayCandidates fuel (slotsService.hoursMap rows) tenantId slotDuration capacity
      day = some [] := by
  unfold slotsService.dayCandidates
  cases hm : slotsService.hoursMap rows (dayOfWeek day) with
  | none => rfl
  | some oh =>
    obtain ⟨hmem, hk⟩ := hoursMap_some hm
    simp only [hclosed oh hmem hk, if_true]

/-- Every candidate of a day carries that day, the tenant and the capacity. -/
theorem dayCandidates_mem {fuel : Nat} {map : Nat → Option OperatingHours} {tenantId : Nat}
    {slotDuration capacity day : Int} {cs : List SlotCandidate}
    (h : slotsService.dayCandidates fuel map tenantId slotDuration capacity day = some cs) :
    ∀ x ∈ cs, x.slotDate = day ∧ x.tenantId = tenantId ∧ x.maxCapacity = capacity := by
  intro x hx
  unfold slotsService.dayCandidates at h
  split at h
  · cases h; cases hx
  · split at h
    · cases h; cases hx
    · obtain ⟨h1, h2, h3, -, -⟩ := windowLoop_mem _ _ _ _ _ _ _ _ h x hx
      exact ⟨h2, h1, h3⟩

/-- A candidate of the date loop comes from the body of its own day, a day of
the range. -/
theorem dateLoop_mem (body : Int → Option (List SlotCandidate))
    (hbody : ∀ day cs, body day = some cs → ∀ x ∈ cs, x.slotDate = day) :
    ∀ (n : Nat) (start : Int) (cs : List SlotCandidate),
      slotsService.dateLoop body n start = some cs →
      ∀ x ∈ cs, start ≤ x.slotDate ∧ x.slotDate < start + n ∧
        ∃ csd, body x.slotDate = some csd ∧ x ∈ csd := by
  intro n
  induction n with
  | zero =>
    intro start cs h x hx
    simp only [slotsService.dateLoop, Option.some.injEq] at h
    subst h; cases hx
  | succ n ih =>
    intro start cs h x hx
    simp only [slotsService.dateLoop] at h
    cases hb : body start with
    | none => rw [hb] at h; cases h
    | some cs0 =>
      rw [hb] at h
      cases hr : slotsService.dateLoop body n (start + 1) with
      | none => rw [hr] at h; cases h
      | some rest =>
        rw [hr] at h
        simp only [Option.map_some', Option.some.injEq] at h
        subst h
        rcases List.mem_append.1 hx with h0 | h1
        · have hd := hbody start cs0 hb x h0
          refine ⟨by omega, by push_cast; omega, cs0, by rw [hd]; exact hb, h0⟩
        · obtain ⟨h2, h3, h4⟩ := ih (start + 1) rest hr x h1
          exact ⟨by omega, by push_cast; omega, h4⟩

/-- The candidates of one day of the range, within the result of the date loop,
are exactly what the body pushed for that day. -/
theorem dateLoop_filter (body : Int → Option (List SlotCandidate))
    (hbody : ∀ day cs, body day = some cs → ∀ x ∈ cs, x.slotDate = day) :
    ∀ (n : Nat) (start : Int) (cs : List SlotCandidate),
      slotsService.dateLoop body n start = some cs →
      ∀ day, start ≤ day → day < start + n →
        ∃ csd, body day = some csd ∧ cs.filter (fun x => x.slotDate = day) = csd := by
  intro n
  induction n with
  | zero => intro start cs _ day h1 h2; simp at h2; omega
  | succ n ih =>
    intro start cs h day h1 h2
    simp only [slotsService.dateLoop] at h
    cases hb : body start with
    | none => rw [hb] at h; cases h
    | some cs0 =>
      rw [hb] at h
      cases hr : slotsService.dateLoop body n (start + 1) with
      | none => rw [hr] at h; cases h
      | some rest =>
        rw [hr] at h
        simp only [Option.map_some', Option.some.injEq] at h
        subst h
        rw [List.filter_append]
        by_cases hday : day = start
        · subst hday
          refine ⟨cs0, hb, ?_⟩
          have hf0 : cs0.filter (fun x => x.slotDate = day) = cs0 := by
            rw [List.filter_eq_self]
            intro x hx
            simpa using hbody day cs0 hb x hx
          have hf1 : rest.filter (fun x => x.slotDate = day) = [] := by
            rw [List.filter_eq_nil_iff]
            intro x hx
            obtain ⟨h3, -, -⟩ := dateLoop_mem body hbody n (day + 1) rest hr x hx
            simp only [decide_eq_true_eq]
            omega
          rw [hf0, hf1, List.append_nil]
        · obtain ⟨csd, hcsd, hf⟩ := ih (start + 1) rest hr day (by omega)
            (by push_cast at h2; omega)
          refine ⟨csd, hcsd, ?_⟩
          have hf0 : cs0.filter (fun x => x.slotDate = day) = [] := by
            rw [List.filter_eq_nil_iff]
            intro x hx
            have := hbody start cs0 hb x hx
            simp only [decide_eq_true_eq]
            omega
          rw [hf0, List.nil_append, hf]

/-- The date loop ends when the body ends for every day of the range. -/
theorem dateLoop_returns (body : Int → Option (List SlotCandidate)) :
    ∀ (n : Nat) (start : Int),
      (∀ day, start ≤ day → day < start + n → ∃ cs, body day = some cs) →
      ∃ cs, slotsService.dateLoop body n start = some cs := by
  intro n
  induction n with
  | zero => intro start _; exact ⟨[], rfl⟩
  | succ n ih =>
    intro start h
    obtain ⟨cs0, h0⟩ := h start (le_refl _) (by push_cast; omega)
    obtain ⟨rest, hr⟩ := ih (start + 1)
      (fun day h1 h2 => h day (by omega) (by push_cast; omega))
    exact ⟨cs0 ++ rest, by simp [slotsService.dateLoop, h0, hr]⟩

/-! ## The insert of slot generation -/

theorem conflicts_append (table extra : List TimeSlot) (c : SlotCandidate) :
    slotsRepository.conflicts (table ++ extra) c =
      (slotsRepository.conflicts table c || slotsRepository.conflicts extra c) := by
  simp [slotsRepository.conflicts, List.any_append]

theorem conflicts_inserted (table : List TimeSlot) (c : SlotCandidate) :
    slotsRepository.conflicts [slotsRepository.insertedSlot table c] c = true := by
  simp [slotsRepository.conflicts, slotsRepository.insertedSlot]

/-- The insert statement: the table afterwards is the old table followed by the
rows returned, each returned row is a candidate with the column defaults, every
candidate then has a row with its key, and the unique constraint is kept. -/
theorem insertAll_spec : ∀ (cs : List SlotCandidate) (table : List TimeSlot),
    (slotsRepository.insertAll table cs).2 = table ++ (slotsRepository.insertAll table cs).1 ∧
    (∀ row ∈ (slotsRepository.insertAll table cs).1, ∃ c ∈ cs,
      row.tenantId = c.tenantId ∧ row.slotDate = c.slotDate ∧ row.startTime = c.startTime ∧
      row.endTime = c.endTime ∧ row.maxCapacity = c.maxCapacity ∧ row.bookedCount = 0 ∧
      row.status = SlotStatus.available) ∧
    (∀ c ∈ cs, slotsRepository.conflicts (slotsRepository.insertAll table cs).2 c = true) ∧
    (slotKeysUnique table → slotKeysUnique (slotsRepository.insertAll table cs).2) := by
  intro cs
  induction cs with
  | nil =>
    intro table
    refine ⟨by simp [slotsRepository.insertAll], ?_, ?_, fun h => h⟩
    · intro row hrow; simp [slotsRepository.insertAll] at hrow
    · intro c hc; cases hc
  | cons c cs ih =>
    intro table
    by_cases hconf : slotsRepository.conflicts table c = true
    · have heq : slotsRepository.insertAll table (c :: cs) = slotsRepository.insertAll table cs := by
        simp only [slotsRepository.insertAll, hconf, if_true]
      rw [heq]
      obtain ⟨h1, h2, h3, h4⟩ := ih table
      refine ⟨h1, ?_, ?_, h4⟩
      · intro row hrow
        obtain ⟨c', hc', hrest⟩ := h2 row hrow
        exact ⟨c', List.mem_cons_of_mem _ hc', hrest⟩
      · intro c' hc'
        rcases List.mem_cons.1 hc' with rfl | hc''
        · rw [h1, conflicts_append, hconf, Bool.true_or]
        · exact h3 c' hc''
    · have heq : slotsRepository.insertAll table (c :: cs) =
          (slotsRepository.insertedSlot table c ::
            (slotsRepository.insertAll (table ++ [slotsRepository.insertedSlot table c]) cs).1,
            (slotsRepository.insertAll (table ++ [slotsRepository.insertedSlot table c]) cs).2)
          := by
        simp only [slotsRepository.insertAll, hconf, Bool.false_eq_true, if_false]
      rw [heq]
      obtain ⟨h1, h2, h3, h4⟩ := ih (table ++ [slotsRepository.insertedSlot table c])
      refine ⟨?_, ?_, ?_, ?_⟩
      · simp only
        rw [h1, List.append_assoc, List.singleton_append]
      · intro row hrow
        rcases List.mem_cons.1 hrow with rfl | hrow'
        · exact ⟨c, List.mem_cons_self _ _, rfl, rfl, rfl, rfl, rfl, rfl, rfl⟩
        · obtain ⟨c', hc', hrest⟩ := h2 row hrow'
          exact ⟨c', List.mem_cons_of_mem _ hc', hrest⟩
      · intro c' hc'
        rcases List.mem_cons.1 hc' with rfl | hc''
        · simp only
          rw [h1, conflicts_append, conflicts_append, conflicts_inserted, Bool.or_true,
            Bool.true_or]
        · exact h3 c' hc''
      · intro hkeys
        apply h4
        unfold slotKeysUnique at hkeys ⊢
        rw [List.pairwise_append]
        refine ⟨hkeys, List.pairwise_singleton _ _, ?_⟩
        intro a ha b hb
        rw [List.mem_singleton] at hb
        subst hb
        intro hkey
        apply hconf
        simp only [slotsRepository.conflicts, List.any_eq_true, Bool.and_eq_true,
          decide_eq_true_eq]
        exact ⟨a, ha, ⟨hkey.1, hkey.2.1⟩, hkey.2.2⟩

/-- When every candidate already has a row with its key the insert statement
inserts nothing. -/
theorem insertAll_all_conflict : ∀ (cs : List SlotCandidate) (table : List TimeSlot),
    (∀ c ∈ cs, slotsRepository.conflicts table c = true) →
    slotsRepository.insertAll table cs = ([], table) := by
  intro cs
  induction cs with
  | nil => intro table _; rfl
  | cons c cs ih =>
    intro table h
    simp only [slotsRepository.insertAll, h c (List.mem_cons_self _ _), if_true]
    exact ih table (fun c' hc' => h c' (List.mem_cons_of_mem _ hc'))

/-- A second `bulkCreate` of the same candidates returns no row and leaves the
tables as the first left them. -/
theorem bulkCreate_twice (db : Db) (cs : List SlotCandidate) :
    slotsRepository.bulkCreate (slotsRepository.bulkCreate db cs).2 cs =
      ([], (slotsRepository.bulkCreate db cs).2) := by
  unfold slotsRepository.bulkCreate
  by_cases hlen : cs.length = 0
  · simp only [hlen, if_true]
  · simp only [hlen, if_false]
    rw [insertAll_all_conflict cs _ (insertAll_spec cs db.slots).2.2.1]

theorem bulkCreate_keys (db : Db) (cs : List SlotCandidate)
    (hkeys : slotKeysUnique db.slots) :
    slotKeysUnique (slotsRepository.bulkCreate db cs).2.slots := by
  unfold slotsRepository.bulkCreate
  by_cases hlen : cs.length = 0
  · simp only [hlen, if_true]; exact hkeys
  · simp only [hlen, if_false]
    exact (insertAll_spec cs db.slots).2.2.2 hkeys

/-- The rows of the slot table after `bulkCreate`: the old rows, followed by
rows that each carry the date of a candidate. -/
theorem bulkCreate_rows (db : Db) (cs : List SlotCandidate) :
    (slotsRepository.bulkCreate db cs).2.slots =
        db.slots ++ (slotsRepository.bulkCreate db cs).1 ∧
    (slotsRepository.bulkCreate db cs).2.bookings = db.bookings ∧
    (slotsRepository.bulkCreate db cs).2.services = db.services ∧
    ∀ row ∈ (slotsRepository.bulkCreate db cs).1, ∃ c ∈ cs, row.slotDate = c.slotDate := by
  unfold slotsRepository.bulkCreate
  by_cases hlen : cs.length = 0
  · simp only [hlen, if_true]
    refine ⟨by simp, trivial, trivial, ?_⟩
    intro row hrow; cases hrow
  · simp only [hlen, if_false]
    obtain ⟨h1, h2, -, -⟩ := insertAll_spec cs db.slots
    refine ⟨h1, trivial, trivial, ?_⟩
    intro row hrow
    obtain ⟨c, hc, -, hdate, -⟩ := h2 row hrow
    exact ⟨c, hc, hdate⟩

/-! ## Evaluating `generateSlots` -/

theorem getOperatingHours_nil_iff (hours : List OperatingHours) (tenantId : Nat) :
    slotsRepository.getOperatingHours hours tenantId = [] ↔
      ∀ oh ∈ hours, oh.tenantId ≠ tenantId := by
  simp [slotsRepository.getOperatingHours, List.filter_eq_nil_iff]

theorem generateSlots_no_hours {fuel : Nat} {hours : List OperatingHours} {db : Db}
    {tenantId : Nat} {startDate endDate slotDuration capacity : Int}
    (h : slotsRepository.getOperatingHours hours tenantId = []) :
    slotsService.generateSlots fuel hours db tenantId startDate endDate slotDuration capacity =
      some (Except.error (BadRequestError "Please set operating hours first."), db) := by
  unfold slotsService.generateSlots
  simp [h]

theorem generateSlots_with_hours {fuel : Nat} {hours : List OperatingHours} {db : Db}
    {tenantId : Nat} {startDate endDate slotDuration capacity : Int}
    (h : slotsRepository.getOperatingHours hours tenantId ≠ []) :
    slotsService.generateSlots fuel hours db tenantId startDate endDate slotDuration capacity =
      (slotsService.candidates fuel (slotsRepository.getOperatingHours hours tenantId) tenantId
        startDate endDate slotDuration capacity).map (fun slots =>
          (Except.ok { created := (slotsRepository.bulkCreate db slots).1.length,
                       total := slots.length },
            (slotsRepository.bulkCreate db slots).2)) := by
  unfold slotsService.generateSlots
  have hlen : ¬ (slotsRepository.getOperatingHours hours tenantId).length = 0 := by
    intro h0; exact h (List.length_eq_zero.1 h0)
  simp only [hlen, if_false]
  cases slotsService.candidates fuel (slotsRepository.getOperatingHours hours tenantId)
    tenantId startDate endDate slotDuration capacity <;> rfl

/-- With a duration of at least 1 and enough iterations allowed for every
window, the loops of `generateSlots` end. -/
theorem candidates_returns (fuel : Nat) (rows : List OperatingHours) (tenantId : Nat)
    (startDate endDate slotDuration capacity : Int) (hd : 1 ≤ slotDuration)
    (hfuel : ∀ oh ∈ rows, oh.closeTime - oh.openTime ≤ (fuel : Int)) :
    ∃ slots, slotsService.candidates fuel rows tenantId startDate endDate slotDuration
      capacity = some slots := by
  unfold slotsService.candidates
  apply dateLoop_returns
  intro day _ _
  unfold slotsService.dayCandidates
  cases hm : slotsService.hoursMap rows (dayOfWeek day) with
  | none => exact ⟨[], rfl⟩
  | some oh =>
    by_cases hc : oh.isClosed = true
    · exact ⟨[], by simp [hc]⟩
    · refine ⟨windowSlotsSpec tenantId day slotDuration oh.closeTime capacity oh.openTime, ?_⟩
      simp only [hc, Bool.false_eq_true, if_false]
      exact windowLoop_eq_spec tenantId day slotDuration oh.closeTime capacity hd fuel
        oh.openTime (hfuel oh (hoursMap_some hm).1)

/-! ## Claims on slot generation -/

/-- C16 (generation on an open day).  For a day whose weekday row is open from
minute `o` to minute `c`, a duration `d >= 1` and enough iterations allowed, the
body of the date loop ends with exactly `max(0, floor((c - o) / d))`
candidates; number `k` starts at `o + k * d`, ends at `o + (k + 1) * d` and has
the given capacity; every candidate ends by `c`; and these are exactly the
candidates of that date in the array `generateSlots` builds for a range that
contains it. -/
theorem open_day_slots (fuel : Nat) (rows : List OperatingHours) (tenantId : Nat)
    (slotDuration capacity day : Int) (oh : OperatingHours)
    (hmap : slotsService.hoursMap rows (dayOfWeek day) = some oh)
    (hopen : oh.isClosed = false) (hd : 1 ≤ slotDuration)
    (hfuel : oh.closeTime - oh.openTime ≤ (fuel : Int)) :
    ∃ cs, slotsService.dayCandidates fuel (slotsService.hoursMap rows) tenantId slotDuration
        capacity day = some cs ∧
      (cs.length : Int) = max 0 ((oh.closeTime - oh.openTime) / slotDuration) ∧
      (∀ k : Nat, k < cs.length → cs[k]? = some
        { tenantId := tenantId, slotDate := day,
          startTime := oh.openTime + (k : Int) * slotDuration,
          endTime := oh.openTime + ((k : Int) + 1) * slotDuration,
          maxCapacity := capacity }) ∧
      (∀ x ∈ cs, x.endTime ≤ oh.closeTime ∧ x.startTime + slotDuration ≤ oh.closeTime) ∧
      (∀ (startDate endDate : Int) (slots : List SlotCandidate),
        startDate ≤ day → day ≤ endDate →
        slotsService.candidates fuel rows tenantId startDate endDate slotDuration capacity =
          some slots →
        slots.filter (fun x => x.slotDate = day) = cs) := by
  have hday : slotsService.dayCandidates fuel (slotsService.hoursMap rows) tenantId
      slotDuration capacity day =
      some (windowSlotsSpec tenantId day slotDuration oh.closeTime capacity oh.openTime) := by
    unfold slotsService.dayCandidates
    rw [hmap]
    simp only [hopen, Bool.false_eq_true, if_false]
    exact windowLoop_eq_spec tenantId day slotDuration oh.closeTime capacity hd fuel
      oh.openTime hfuel
  refine ⟨_, hday, ?_, ?_, ?_, ?_⟩
  · simp only [windowSlotsSpec, List.length_map, List.length_range]
    omega
  · intro k hk
    simp only [windowSlotsSpec, List.length_map, List.length_range] at hk
    simp only [windowSlotsSpec, List.getElem?_map, List.getElem?_range hk, Option.map_some']
  · intro x hx
    have hloop := windowLoop_eq_spec tenantId day slotDuration oh.closeTime capacity hd fuel
      oh.openTime hfuel
    obtain ⟨-, -, -, h4, h5⟩ := windowLoop_mem _ _ _ _ _ _ _ _ hloop x hx
    exact ⟨h5, by omega⟩
  · intro startDate endDate slots h1 h2 hc
    unfold slotsService.candidates at hc
    obtain ⟨csd, hcsd, hf⟩ := dateLoop_filter _
      (fun d cs h x hx => (dayCandidates_mem h x hx).1) _ _ _ hc day h1 (by omega)
    rw [hday] at hcsd
    cases hcsd
    exact hf

/-- Witness of C16: Monday 08:00 to 10:00 with 60 minute slots gives the two
slots 08:00 to 09:00 and 09:00 to 10:00. -/
theorem open_day_slots_witness :
    slotsService.hoursMap (slotsRepository.getOperatingHours hoursWeek 1) (dayOfWeek 20003) =
        some hoursMonday ∧
      slotsService.dayCandidates 200 (slotsService.hoursMap
          (slotsRepository.getOperatingHours hoursWeek 1)) 1 60 2 20003 =
        some [{ tenantId := 1, slotDate := 20003, startTime := 480, endTime := 540,
                maxCapacity := 2 },
              { tenantId := 1, slotDate := 20003, startTime := 540, endTime := 600,
                maxCapacity := 2 }] ∧
      ∃ cs, slotsService.dayCandidates 200 (slotsService.hoursMap
          (slotsRepository.getOperatingHours hoursWeek 1)) 1 60 2 20003 = some cs ∧
        (cs.length : Int) = max 0 ((hoursMonday.closeTime - hoursMonday.openTime) / 60) :=
  ⟨rfl, rfl, by
    obtain ⟨cs, h1, h2, -⟩ := open_day_slots 200 (slotsRepository.getOperatingHours hoursWeek 1)
      1 60 2 20003 hoursMonday rfl rfl (by decide) (by decide)
    exact ⟨cs, h1, h2⟩⟩

/-- C17 (closed-day exclusion).  For a day whose weekday has, among the tenant's
operating hours, only closed rows or no row: the body of the date loop ends
with no candidate for every duration and every number of iterations allowed,
the array `generateSlots` builds has no candidate of that date, and no row that
`generateSlots` adds to the slot table carries that date. -/
theorem closed_day_excluded (fuel : Nat) (hours : List OperatingHours) (db : Db)
    (tenantId : Nat) (startDate endDate slotDuration capacity day : Int)
    (hclosed : ∀ oh ∈ slotsRepository.getOperatingHours hours tenantId,
      oh.dayOfWeek = dayOfWeek day → oh.isClosed = true) :
    slotsService.dayCandidates fuel
        (slotsService.hoursMap (slotsRepository.getOperatingHours hours tenantId)) tenantId
        slotDuration capacity day = some [] ∧
    (∀ slots, slotsService.candidates fuel (slotsRepository.getOperatingHours hours tenantId)
        tenantId startDate endDate slotDuration capacity = some slots →
      ∀ x ∈ slots, x.slotDate ≠ day) ∧
    (∀ r db', slotsService.generateSlots fuel hours db tenantId startDate endDate slotDuration
        capacity = some (Except.ok r, db') →
      ∀ s ∈ db'.slots, s ∉ db.slots → s.slotDate ≠ day) := by
  have hbody := dayCandidates_closed fuel (slotsRepository.getOperatingHours hours tenantId)
    tenantId slotDuration capacity day hclosed
  have hcand : ∀ slots, slotsService.candidates fuel
      (slotsRepository.getOperatingHours hours tenantId) tenantId startDate endDate
      slotDuration capacity = some slots → ∀ x ∈ slots, x.slotDate ≠ day := by
    intro slots hc x hx hday
    unfold slotsService.candidates at hc
    obtain ⟨-, -, csd, hcsd, hmem⟩ := dateLoop_mem _
      (fun d cs h x hx => (dayCandidates_mem h x hx).1) _ _ _ hc x hx
    rw [hday, hbody] at hcsd
    cases hcsd
    cases hmem
  refine ⟨hbody, hcand, ?_⟩
  intro r db' hgen s hs hnew
  by_cases hrows : slotsRepository.getOperatingHours hours tenantId = []
  · rw [generateSlots_no_hours hrows] at hgen
    cases hgen
  · rw [generateSlots_with_hours hrows] at hgen
    cases hc : slotsService.candidates fuel (slotsRepository.getOperatingHours hours tenantId)
        tenantId startDate endDate slotDuration capacity with
    | none => rw [hc] at hgen; cases hgen
    | some slots =>
      rw [hc] at hgen
      simp only [Option.map_some', Option.some.injEq, Prod.mk.injEq] at hgen
      obtain ⟨h1, -, -, h4⟩ := bulkCreate_rows db slots
      rw [← hgen.2, h1] at hs
      rcases List.mem_append.1 hs with hold | hadd
      · exact absurd hold hnew
      · obtain ⟨c, hc', hdate⟩ := h4 s hadd
        rw [hdate]
        exact hcand slots hc c hc'

/-- Witness of C17: a week with a closed Sunday (day 20002) whose row has
opening hours filled in; no generated slot carries that date. -/
theorem closed_day_excluded_witness :
    dayOfWeek 20002 = 0 ∧
      (slotsService.generateSlots 1000 hoursWeek dbFresh 1 20000 20006 60 2).isSome = true ∧
      ∀ r db', slotsService.generateSlots 1000 hoursWeek dbFresh 1 20000 20006 60 2 =
          some (Except.ok r, db') →
        ∀ s ∈ db'.slots, s ∉ dbFresh.slots → s.slotDate ≠ 20002 :=
  ⟨by decide, rfl,
    (closed_day_excluded 1000 hoursWeek dbFresh 1 20000 20006 60 2 20002 (by decide)).2.2⟩

/-- C18 (idempotent generation).  With operating hours set, a duration of at
least 1 and enough iterations allowed, `generateSlots` returns; a second call
with the same arguments then returns `created = 0` and the same `total` and
leaves the tables exactly as the first call left them; and a slot table without
two rows of the same tenant, date and start time stays so. -/
theorem generateSlots_idempotent (fuel : Nat) (hours : List OperatingHours) (db : Db)
    (tenantId : Nat) (startDate endDate slotDuration capacity : Int)
    (hrows : ∃ oh ∈ hours, oh.tenantId = tenantId) (hd : 1 ≤ slotDuration)
    (hfuel : ∀ oh ∈ hours, oh.closeTime - oh.openTime ≤ (fuel : Int)) :
    ∃ r1 db1,
      slotsService.generateSlots fuel hours db tenantId startDate endDate slotDuration
        capacity = some (Except.ok r1, db1) ∧
      slotsService.generateSlots fuel hours db1 tenantId startDate endDate slotDuration
        capacity = some (Except.ok { created := 0, total := r1.total }, db1) ∧
      (slotKeysUnique db.slots → slotKeysUnique db1.slots) := by
  have hne : slotsRepository.getOperatingHours hours tenantId ≠ [] := by
    intro h
    obtain ⟨oh, hmem, ht⟩ := hrows
    exact (getOperatingHours_nil_iff hours tenantId).1 h oh hmem ht
  obtain ⟨slots, hslots⟩ := candidates_returns fuel
    (slotsRepository.getOperatingHours hours tenantId) tenantId startDate endDate slotDuration
    capacity hd (fun oh hoh => hfuel oh (List.mem_of_mem_filter hoh))
  refine ⟨{ created := (slotsRepository.bulkCreate db slots).1.length, total := slots.length },
    (slotsRepository.bulkCreate db slots).2, ?_, ?_, ?_⟩
  · rw [generateSlots_with_hours hne, hslots]
    rfl
  · rw [generateSlots_with_hours hne, hslots]
    simp only [Option.map_some', bulkCreate_twice, List.length_nil]
  · exact bulkCreate_keys db slots

/-- Witness of C18: a week is generated twice for tenant 1. -/
theorem generateSlots_idempotent_witness :
    slotsService.generateSlots 1000 hoursWeek dbFresh 1 20000 20006 60 2 =
        some (Except.ok { created := 2, total := 2 },
          (slotsRepository.bulkCreate dbFresh
            [{ tenantId := 1, slotDate := 20003, startTime := 480, endTime := 540,
               maxCapacity := 2 },
             { tenantId := 1, slotDate := 20003, startTime := 540, endTime := 600,
               maxCapacity := 2 }]).2) ∧
      ∃ r1 db1,
        slotsService.generateSlots 1000 hoursWeek dbFresh 1 20000 20006 60 2 =
          some (Except.ok r1, db1) ∧
        slotsService.generateSlots 1000 hoursWeek db1 1 20000 20006 60 2 =
          some (Except.ok { created := 0, total := r1.total }, db1) ∧
        (slotKeysUnique dbFresh.slots → slotKeysUnique db1.slots) :=
  ⟨rfl, generateSlots_idempotent 1000 hoursWeek dbFresh 1 20000 20006 60 2
    ⟨hoursMonday, by decide, rfl⟩ (by decide) (by decide)⟩

/-- C19 (operating hours required).  `generateSlots` fails with the bad-request
error asking for operating hours exactly when the tenant has no row of
operating hours; it does so for every number of iterations allowed and leaves
the tables as they were; with a row, a call that returns never returns an
error. -/
theorem generateSlots_requires_hours (fuel : Nat) (hours : List OperatingHours) (db : Db)
    (tenantId : Nat) (startDate endDate slotDuration capacity : Int) :
    ((∃ db', slotsService.generateSlots fuel hours db tenantId startDate endDate slotDuration
        capacity =
        some (Except.error (BadRequestError "Please set operating hours first."), db')) ↔
      ∀ oh ∈ hours, oh.tenantId ≠ tenantId) ∧
    ((∀ oh ∈ hours, oh.tenantId ≠ tenantId) →
      slotsService.generateSlots fuel hours db tenantId startDate endDate slotDuration
        capacity =
        some (Except.error (BadRequestError "Please set operating hours first."), db)) ∧
    ((∃ oh ∈ hours, oh.tenantId = tenantId) →
      ∀ e db', slotsService.generateSlots fuel hours db tenantId startDate endDate slotDuration
        capacity ≠ some (Except.error e, db')) := by
  have hno : (∀ oh ∈ hours, oh.tenantId ≠ tenantId) →
      slotsService.generateSlots fuel hours db tenantId startDate endDate slotDuration
        capacity =
        some (Except.error (BadRequestError "Please set operating hours first."), db) :=
    fun h => generateSlots_no_hours ((getOperatingHours_nil_iff hours tenantId).2 h)
  have hyes : (∃ oh ∈ hours, oh.tenantId = tenantId) →
      ∀ e db', slotsService.generateSlots fuel hours db tenantId startDate endDate slotDuration
        capacity ≠ some (Except.error e, db') := by
    rintro ⟨oh, hmem, ht⟩ e db' hgen
    have hne : slotsRepository.getOperatingHours hours tenantId ≠ [] :=
      fun h => (getOperatingHours_nil_iff hours tenantId).1 h oh hmem ht
    rw [generateSlots_with_hours hne] at hgen
    cases hc : slotsService.candidates fuel (slotsRepository.getOperatingHours hours tenantId)
        tenantId startDate endDate slotDuration capacity with
    | none => rw [hc] at hgen; cases hgen
    | some slots =>
      rw [hc] at hgen
      simp at hgen
  refine ⟨⟨?_, fun h => ⟨db, hno h⟩⟩, hno, hyes⟩
  rintro ⟨db', hgen⟩ oh hmem ht
  exact hyes ⟨oh, hmem, ht⟩ _ _ hgen

/-- Witness of C19: tenant 3 has no operating hours and gets the error; tenant 1
has operating hours and gets a result. -/
theorem generateSlots_requires_hours_witness :
    slotsService.generateSlots 0 hoursWeek dbFresh 3 20000 20006 60 2 =
        some (Except.error (BadRequestError "Please set operating hours first."), dbFresh) ∧
      (slotsService.generateSlots 1000 hoursWeek dbFresh 1 20000 20006 60 2).isSome = true :=
  ⟨(generateSlots_requires_hours 0 hoursWeek dbFresh 3 20000 20006 60 2).2.1 (by decide), rfl⟩

/-! ## Claims on payment, capacity and listing -/

/-- C21 (completion settles payment).  A successful `updateStatus` returns the
booking found under the id with its status set to the new status and its
payment status set to paid when the new status is completed and the payment
was pending, and left as it was otherwise; every other column of the row, every
other booking, the slots and the services are unchanged. -/
theorem updateStatus_payment (db : Db) (id tenantId : Nat) (newStatus : BookingStatus)
    (r : Option Booking) (db' : Db)
    (h : bookingsService.updateStatus db id tenantId newStatus = (Except.ok r, db')) :
    ∃ b, bookingsRepository.findById db id = some b ∧
      r = some { b with
        status := newStatus
        paymentStatus :=
          if newStatus = BookingStatus.completed ∧ b.paymentStatus = PaymentStatus.pending
          then PaymentStatus.paid else b.paymentStatus } ∧
      bookingsRepository.findById db' id = r ∧
      (newStatus = BookingStatus.completed → b.paymentStatus = PaymentStatus.pending →
        ∀ b', r = some b' → b'.paymentStatus = PaymentStatus.paid) ∧
      (¬ (newStatus = BookingStatus.completed ∧ b.paymentStatus = PaymentStatus.pending) →
        r = some { b with status := newStatus }) ∧
      db'.bookings = db.bookings.map (fun x =>
        if x.id = id then
          { x with
            status := newStatus
            paymentStatus :=
              if newStatus = BookingStatus.completed ∧ b.paymentStatus = PaymentStatus.pending
              then PaymentStatus.paid else x.paymentStatus }
        else x) ∧
      db'.slots = db.slots ∧ db'.services = db.services := by
  unfold bookingsService.updateStatus at h
  cases hf : bookingsRepository.findById db id with
  | none =>
    rw [hf] at h
    simp only [Prod.mk.injEq] at h
    exact absurd h.1 (by intro h'; cases h')
  | some b =>
    rw [hf] at h
    simp only at h
    split_ifs at h with h1 h2 h3
    · exact absurd (congrArg Prod.fst h) (by intro h'; cases h')
    · exact absurd (congrArg Prod.fst h) (by intro h'; cases h')
    · simp only [Prod.mk.injEq, Except.ok.injEq] at h
      obtain ⟨hr, hdb⟩ := h
      have hfind := hf
      unfold bookingsRepository.findById at hfind
      refine ⟨b, rfl, ?_, ?_, ?_, ?_, ?_, ?_, ?_⟩
      · rw [← hr]
        simp only [bookingsRepository.updateStatus]
        have := find?_booking_update_same
          (fun x : Booking => { x with status := newStatus, paymentStatus := PaymentStatus.paid })
          (fun _ => rfl) db.bookings id
        rw [hfind] at this
        simp only [if_pos h3]
        exact this
      · rw [← hr, ← hdb]
        rfl
      · intro _ _ b' hb'
        rw [← hr] at hb'
        simp only [bookingsRepository.updateStatus] at hb'
        have := find?_booking_update_same
          (fun x : Booking => { x with status := newStatus, paymentStatus := PaymentStatus.paid })
          (fun _ => rfl) db.bookings id
        rw [hfind] at this
        rw [this] at hb'
        cases hb'
        rfl
      · intro hn
        exact absurd h3 hn
      · rw [← hdb]
        simp only [bookingsRepository.updateStatus, if_pos h3]
      · rw [← hdb]; rfl
      · rw [← hdb]; rfl
    · simp only [Prod.mk.injEq, Except.ok.injEq] at h
      obtain ⟨hr, hdb⟩ := h
      have hfind := hf
      unfold bookingsRepository.findById at hfind
      have hrow := find?_booking_update_same
          (fun x : Booking => { x with status := newStatus })
          (fun _ => rfl) db.bookings id
      rw [hfind] at hrow
      refine ⟨b, rfl, ?_, ?_, ?_, ?_, ?_, ?_, ?_⟩
      · rw [← hr]
        simp only [bookingsRepository.updateStatus, if_neg h3]
        exact hrow
      · rw [← hr, ← hdb]
        rfl
      · intro hc hp
        exact absurd ⟨hc, hp⟩ h3
      · intro _
        rw [← hr]
        simp only [bookingsRepository.updateStatus]
        exact hrow
      · rw [← hdb]
        simp only [bookingsRepository.updateStatus, if_neg h3]
      · rw [← hdb]; rfl
      · rw [← hdb]; rfl

/-- Witness of C21: completing the unpaid booking of `dbInProgress` marks it
paid. -/
theorem updateStatus_payment_witness :
    bookingsService.updateStatus dbInProgress 1 1 BookingStatus.completed =
        (Except.ok (some { bookingInProgress with
            status := BookingStatus.completed, paymentStatus := PaymentStatus.paid }),
          (bookingsService.updateStatus dbInProgress 1 1 BookingStatus.completed).2) ∧
      ∃ b, bookingsRepository.findById dbInProgress 1 = some b ∧
        some { bookingInProgress with
            status := BookingStatus.completed, paymentStatus := PaymentStatus.paid } =
          some { b with
            status := BookingStatus.completed
            paymentStatus :=
              if BookingStatus.completed = BookingStatus.completed ∧
                  b.paymentStatus = PaymentStatus.pending
              then PaymentStatus.paid else b.paymentStatus } :=
  ⟨rfl, by
    obtain ⟨b, h1, h2, -⟩ := updateStatus_payment dbInProgress 1 1 BookingStatus.completed
      (some { bookingInProgress with
        status := BookingStatus.completed, paymentStatus := PaymentStatus.paid })
      (bookingsService.updateStatus dbInProgress 1 1 BookingStatus.completed).2 rfl
    exact ⟨b, h1, h2⟩⟩

/-! ## Slots after a run of operations -/

theorem apply_services (db : Db) (op : InventoryOp) : (op.apply db).services = db.services := by
  cases op with
  | create fault r => exact create_services fault db r
  | cancel id reason =>
    simp only [InventoryOp.apply, bookingsRepository.cancel]
    cases bookingsRepository.findById db id <;> rfl
  | blockSlot id => rfl
  | unblockSlot id => rfl

theorem runOps_services (ops : List InventoryOp) :
    ∀ db : Db, (runOps db ops).services = db.services := by
  induction ops with
  | nil => intro db; rfl
  | cons op ops ih =>
    intro db
    simp only [runOps, List.foldl_cons]
    exact (ih (op.apply db)).trans (apply_services db op)

theorem runOps_ids (ops : List InventoryOp) :
    ∀ db : Db, slotIdsUnique db →
      (runOps db ops).slots.map (fun s => s.id) = db.slots.map (fun s => s.id) := by
  induction ops with
  | nil => intro db _; rfl
  | cons op ops ih =>
    intro db hu
    simp only [runOps, List.foldl_cons]
    have hu' : slotIdsUnique (op.apply db) := by
      unfold slotIdsUnique
      rw [apply_slot_ids db op hu]
      exact hu
    exact (ih (op.apply db) hu').trans (apply_slot_ids db op hu)

/-- The slot found under an id is still found after a run of operations, with
the tenant and the capacity it had. -/
theorem runOps_find (ops : List InventoryOp) (db : Db) (hu : slotIdsUnique db) {id : Nat}
    {slot : TimeSlot} (hslot : slotsRepository.findById db id = some slot) :
    ∃ s, slotsRepository.findById (runOps db ops) id = some s ∧
      s.maxCapacity = slot.maxCapacity ∧ s.tenantId = slot.tenantId := by
  have hmem : slot ∈ db.slots := List.mem_of_find?_eq_some hslot
  have hid : slot.id = id := by
    have := List.find?_some hslot
    simpa using this
  have hinv := runOps_invariant
    (fun x => x.id = id → x.maxCapacity = slot.maxCapacity ∧ x.tenantId = slot.tenantId)
    (fun s hs _ h => hs h) (fun s hs h => hs h) (fun s hs h => hs h) (fun s hs h => hs h)
    ops db hu
    (by
      intro s hs hsid
      have h1 := find?_slot_of_unique hu hs
      rw [hsid] at h1
      unfold slotsRepository.findById at hslot
      rw [hslot] at h1
      cases h1
      exact ⟨rfl, rfl⟩)
  have hids := runOps_ids ops db hu
  have hin : id ∈ (runOps db ops).slots.map (fun s => s.id) := by
    rw [hids, ← hid]
    exact List.mem_map_of_mem (fun s => s.id) hmem
  obtain ⟨s, hs, hsid⟩ := List.mem_map.1 hin
  have hu' : ((runOps db ops).slots.map (fun s => s.id)).Nodup := by
    rw [hids]; exact hu
  have hfind := find?_slot_of_unique hu' hs
  rw [hsid] at hfind
  exact ⟨s, hfind, hinv s hs hsid⟩

/-- C22 (permissive capacity reduction).  `updateSlot` with a `maxCapacity`
below the slot's `bookedCount` succeeds and stores it, leaving `bookedCount`
and the bookings as they were.  After any further run of creations,
cancellations, blocks and unblocks the slot still has that capacity; while its
`bookedCount` is at least the capacity every `create` of a valid request
against it fails and changes nothing, with the slot-full conflict unless the
slot is blocked; once `bookedCount` is below the capacity (and the slot is not
blocked) a `create` succeeds. -/
theorem updateSlot_permissive (db : Db) (id tenantId : Nat) (slot : TimeSlot)
    (data : SlotUpdate) (m : Int) (r : CreateRequest)
    (hu : slotIdsUnique db) (hslot : slotsRepository.findById db id = some slot)
    (ht : slot.tenantId = tenantId) (hm : data.maxCapacity = some m)
    (hlt : m < slot.bookedCount) (hr : validRequest db.services tenantId id r) :
    slotsService.updateSlot db id tenantId data =
        (Except.ok (some (slotsRepository.updateRow data slot)),
          (slotsService.updateSlot db id tenantId data).2) ∧
    (slotsRepository.updateRow data slot).maxCapacity = m ∧
    (slotsRepository.updateRow data slot).bookedCount = slot.bookedCount ∧
    slotsRepository.findById (slotsService.updateSlot db id tenantId data).2 id =
      some (slotsRepository.updateRow data slot) ∧
    (slotsService.updateSlot db id tenantId data).2.bookings = db.bookings ∧
    (∀ fault : Fault,
      (bookingsService.create fault (slotsService.updateSlot db id tenantId data).2 r).1.isOk =
        false ∧
      ((slotsRepository.updateRow data slot).status ≠ SlotStatus.blocked →
        (bookingsService.create fault (slotsService.updateSlot db id tenantId data).2 r).1 =
          Except.error (ConflictError "This time slot is no longer available."))) ∧
    (∀ (ops : List InventoryOp) (fault : Fault),
      ∃ s, slotsRepository.findById
          (runOps (slotsService.updateSlot db id tenantId data).2 ops) id = some s ∧
        s.maxCapacity = m ∧
        (m ≤ s.bookedCount →
          (bookingsService.create fault
            (runOps (slotsService.updateSlot db id tenantId data).2 ops) r).1.isOk = false ∧
          (bookingsService.create fault
            (runOps (slotsService.updateSlot db id tenantId data).2 ops) r).2 =
            runOps (slotsService.updateSlot db id tenantId data).2 ops ∧
          (s.status ≠ SlotStatus.blocked →
            (bookingsService.create fault
              (runOps (slotsService.updateSlot db id tenantId data).2 ops) r).1 =
              Except.error (ConflictError "This time slot is no longer available."))) ∧
        (s.bookedCount < m → s.status ≠ SlotStatus.blocked →
          (bookingsService.create Fault.none
            (runOps (slotsService.updateSlot db id tenantId data).2 ops) r).1.isOk = true)) := by
  have hne : (data.maxCapacity.isNone && data.status.isNone) = false := by
    rw [hm]; rfl
  have hdb : (slotsService.updateSlot db id tenantId data).2 =
      slotsRepository.updateWhereId (slotsRepository.updateRow data) db id := by
    unfold slotsService.updateSlot
    rw [hslot]
    simp only [ht, ne_eq, not_true_eq_false, if_false, slotsRepository.update, hne,
      Bool.false_eq_true]
  have hfind : slotsRepository.findById
      (slotsRepository.updateWhereId (slotsRepository.updateRow data) db id) id =
      some (slotsRepository.updateRow data slot) := by
    have := find?_update_same (slotsRepository.updateRow data) (fun _ => rfl) db.slots id
    unfold slotsRepository.findById at hslot
    rw [hslot] at this
    exact this
  have hcap : (slotsRepository.updateRow data slot).maxCapacity = m := by
    simp only [slotsRepository.updateRow, hm, Option.getD_some]
  have hu' : slotIdsUnique
      (slotsRepository.updateWhereId (slotsRepository.updateRow data) db id) := by
    unfold slotIdsUnique
    rw [updateWhereId_ids (slotsRepository.updateRow data) (fun _ => rfl) db id]
    exact hu
  have hgen : ∀ (ops : List InventoryOp) (fault : Fault),
      ∃ s, slotsRepository.findById
          (runOps (slotsService.updateSlot db id tenantId data).2 ops) id = some s ∧
        s.maxCapacity = m ∧
        (m ≤ s.bookedCount →
          (bookingsService.create fault
            (runOps (slotsService.updateSlot db id tenantId data).2 ops) r).1.isOk = false ∧
          (bookingsService.create fault
            (runOps (slotsService.updateSlot db id tenantId data).2 ops) r).2 =
            runOps (slotsService.updateSlot db id tenantId data).2 ops ∧
          (s.status ≠ SlotStatus.blocked →
            (bookingsService.create fault
              (runOps (slotsService.updateSlot db id tenantId data).2 ops) r).1 =
              Except.error (ConflictError "This time slot is no longer available."))) ∧
        (s.bookedCount < m → s.status ≠ SlotStatus.blocked →
          (bookingsService.create Fault.none
            (runOps (slotsService.updateSlot db id tenantId data).2 ops) r).1.isOk = true) := by
    intro ops fault
    rw [hdb]
    obtain ⟨s, hs, hsc, hst⟩ := runOps_find ops _ hu' hfind
    obtain ⟨hrt, hrs, service, hsv, hsvt, hsva⟩ := hr
    have hsv' : servicesRepository.findById
        (runOps (slotsRepository.updateWhereId (slotsRepository.updateRow data) db id) ops)
        r.serviceId = some service := by
      unfold servicesRepository.findById
      rw [runOps_services]
      exact hsv
    have hs' : slotsRepository.findById
        (runOps (slotsRepository.updateWhereId (slotsRepository.updateRow data) db id) ops)
        r.slotId = some s := by
      rw [hrs]; exact hs
    have hstt : s.tenantId = r.tenantId := by
      rw [hst, hrt]
      exact ht
    have hsvt' : service.tenantId = r.tenantId := by rw [hsvt, hrt]
    refine ⟨s, hs, hsc.trans hcap, ?_, ?_⟩
    · intro hfull
      by_cases hb : s.status = SlotStatus.blocked
      · have hc := @create_slot_blocked fault _ _ _ _ hsv' hsvt' hsva hs' hstt hb
        rw [hc]
        exact ⟨rfl, rfl, fun h => absurd hb h⟩
      · have hc := @create_slot_full fault _ _ _ _ hsv' hsvt' hsva hs' hstt hb
          (by rw [hsc, hcap]; exact hfull)
        rw [hc]
        exact ⟨rfl, rfl, fun _ => rfl⟩
    · intro hroom hb
      have hc := create_success hsv' hsvt' hsva hs' hstt hb (by rw [hsc, hcap]; exact hroom)
      rw [hc]
      rfl
  refine ⟨?_, hcap, rfl, ?_, ?_, ?_, hgen⟩
  · rw [hdb]
    unfold slotsService.updateSlot
    rw [hslot]
    simp only [ht, ne_eq, not_true_eq_false, if_false, slotsRepository.update, hne,
      Bool.false_eq_true, hfind]
  · rw [hdb]; exact hfind
  · rw [hdb]; rfl
  · intro fault
    obtain ⟨s, hs, -, hfull, -⟩ := hgen [] fault
    have hs0 : slotsRepository.findById (slotsService.updateSlot db id tenantId data).2 id =
        some s := hs
    rw [hdb, hfind] at hs0
    cases hs0
    have hle : m ≤ (slotsRepository.updateRow data slot).bookedCount :=
      le_of_lt hlt
    obtain ⟨h1, -, h3⟩ := hfull hle
    exact ⟨h1, h3⟩

/-- Witness of C22: the capacity of a slot with three bookings is set to 2; a
create then fails with the conflict, and succeeds after two cancellations. -/
theorem updateSlot_permissive_witness :
    slotsRepository.findById dbThree 1 = some slotThree ∧
      (bookingsService.create Fault.none
        (slotsService.updateSlot dbThree 1 1 { maxCapacity := some 2, status := none }).2
        requestSlot1).1 =
        Except.error (ConflictError "This time slot is no longer available.") ∧
      (bookingsService.create Fault.none
        (runOps (slotsService.updateSlot dbThree 1 1 { maxCapacity := some 2, status := none }).2
          [InventoryOp.cancel 1 "changed plans", InventoryOp.cancel 2 "changed plans"])
        requestSlot1).1.isOk = true ∧
      slotsService.updateSlot dbThree 1 1 { maxCapacity := some 2, status := none } =
        (Except.ok (some (slotsRepository.updateRow { maxCapacity := some 2, status := none }
            slotThree)),
          (slotsService.updateSlot dbThree 1 1 { maxCapacity := some 2, status := none }).2) :=
  ⟨rfl, rfl, rfl,
    (updateSlot_permissive dbThree 1 1 slotThree { maxCapacity := some 2, status := none } 2
      requestSlot1 (by decide) rfl rfl rfl (by decide)
      ⟨rfl, rfl, serviceOne, rfl, rfl, rfl⟩).1⟩

/-! ## The order of a listing -/

theorem slotOrder_total (a b : TimeSlot) :
    slotsRepository.slotOrder a b ∨ slotsRepository.slotOrder b a := by
  unfold slotsRepository.slotOrder
  omega

theorem slotOrder_trans (a b c : TimeSlot) (h1 : slotsRepository.slotOrder a b)
    (h2 : slotsRepository.slotOrder b c) : slotsRepository.slotOrder a c := by
  unfold slotsRepository.slotOrder at *
  omega

/-- The rows `findByTenantAndDateRange` returns are a rearrangement of the
rows the `WHERE` clause selects, in the order of the `ORDER BY`. -/
theorem findByTenantAndDateRange_spec (utcOffset : Int → Int) (db : Db) (tenantId : Nat)
    (startDate endDate : DateParam) (status : Option SlotStatus) :
    (slotsRepository.findByTenantAndDateRange utcOffset db tenantId startDate endDate
        status).Perm
      (db.slots.filter (fun s =>
        s.tenantId = tenantId && startDate.sqlDate utcOffset ≤ s.slotDate &&
          s.slotDate ≤ endDate.sqlDate utcOffset &&
          (match status with
           | none => true
           | some st => s.status = st))) ∧
    (slotsRepository.findByTenantAndDateRange utcOffset db tenantId startDate endDate
        status).Pairwise slotsRepository.slotOrder := by
  haveI : IsTotal TimeSlot slotsRepository.slotOrder := ⟨slotOrder_total⟩
  haveI : IsTrans TimeSlot slotsRepository.slotOrder := ⟨slotOrder_trans⟩
  exact ⟨List.perm_insertionSort _ _, List.sorted_insertionSort _ _⟩

/-- C23 (public availability listing).  `getAvailableSlots` returns the entries
of exactly the slots of the tenant that are available and dated from the day
PostgreSQL reads from `startDate` to the day it reads from `endDate`, each slot
once, ordered by date and then start time; an entry's `available` is
`maxCapacity - bookedCount`, and an entry has no other trace of the two
columns.  The day read from a text `YYYY-MM-DD` is that day.  The route passes
the `Date` that `Joi.date()` makes of the text, 00:00 UTC of the day; the day
read from it is the local day of the process at that instant: the same day at
UTC and east of it, the day before west of it.  At UTC minus 4 hours the
request for days 20000 to 20001 lists the slots of days 19999 to 20000: the
available slot of day 20001 is missing. -/
theorem getAvailableSlots_listing (utcOffset : Int → Int) (db : Db) (tenantId : Nat)
    (startDate endDate : DateParam) :
    (∃ rows : List TimeSlot,
      slotsService.getAvailableSlots utcOffset db tenantId startDate endDate =
        rows.map slotsService.formatSlot ∧
      rows.Perm (db.slots.filter (fun s =>
        s.tenantId = tenantId && s.status = SlotStatus.available &&
          startDate.sqlDate utcOffset ≤ s.slotDate &&
          s.slotDate ≤ endDate.sqlDate utcOffset)) ∧
      (∀ s, s ∈ rows ↔ s ∈ db.slots ∧ s.tenantId = tenantId ∧
        s.status = SlotStatus.available ∧ startDate.sqlDate utcOffset ≤ s.slotDate ∧
        s.slotDate ≤ endDate.sqlDate utcOffset) ∧
      (slotsService.getAvailableSlots utcOffset db tenantId startDate endDate).Pairwise
        (fun a b => a.date < b.date ∨ (a.date = b.date ∧ a.startTime ≤ b.startTime)) ∧
      (∀ s ∈ rows, (slotsService.formatSlot s).available = s.maxCapacity - s.bookedCount ∧
        (slotsService.formatSlot s).id = s.id ∧ (slotsService.formatSlot s).date = s.slotDate ∧
        (slotsService.formatSlot s).startTime = s.startTime ∧
        (slotsService.formatSlot s).endTime = s.endTime ∧
        (slotsService.formatSlot s).status = SlotStatus.available)) ∧
    (∀ a b : TimeSlot, a.id = b.id → a.slotDate = b.slotDate → a.startTime = b.startTime →
      a.endTime = b.endTime → a.status = b.status →
      a.maxCapacity - a.bookedCount = b.maxCapacity - b.bookedCount →
      slotsService.formatSlot a = slotsService.formatSlot b) ∧
    (∀ day : Int, (DateParam.text day).sqlDate utcOffset = day) ∧
    (∀ day : Int, 0 ≤ utcOffset (day * 86400000) → utcOffset (day * 86400000) < 1440 →
      (joiDate day).sqlDate utcOffset = day) ∧
    (∀ day : Int, -1440 ≤ utcOffset (day * 86400000) → utcOffset (day * 86400000) < 0 →
      (joiDate day).sqlDate utcOffset = day - 1) ∧
    slotsService.getAvailableSlots (fun _ => -240) dbListing 1 (joiDate 20000)
        (joiDate 20001) =
      [{ id := 5, date := 20000, startTime := 420, endTime := 480, available := 3,
         status := SlotStatus.available },
       { id := 2, date := 20000, startTime := 540, endTime := 600, available := 2,
         status := SlotStatus.available }] ∧
    slotsService.getAvailableSlots (fun _ => 0) dbListing 1 (joiDate 20000) (joiDate 20001) =
      [{ id := 5, date := 20000, startTime := 420, endTime := 480, available := 3,
         status := SlotStatus.available },
       { id := 2, date := 20000, startTime := 540, endTime := 600, available := 2,
         status := SlotStatus.available },
       { id := 1, date := 20001, startTime := 480, endTime := 540, available := 2,
         status := SlotStatus.available }] ∧
    slotsService.getAvailableSlots (fun _ => -240) dbListing 1 (DateParam.text 20000)
        (DateParam.text 20001) =
      slotsService.getAvailableSlots (fun _ => 0) dbListing 1 (joiDate 20000)
        (joiDate 20001) := by
  obtain ⟨hperm, hsorted⟩ := findByTenantAndDateRange_spec utcOffset db tenantId startDate
    endDate (some SlotStatus.available)
  have hfilter : db.slots.filter (fun s =>
        s.tenantId = tenantId && startDate.sqlDate utcOffset ≤ s.slotDate &&
          s.slotDate ≤ endDate.sqlDate utcOffset &&
          (match some SlotStatus.available with
           | none => true
           | some st => s.status = st)) =
      db.slots.filter (fun s =>
        s.tenantId = tenantId && s.status = SlotStatus.available &&
          startDate.sqlDate utcOffset ≤ s.slotDate &&
          s.slotDate ≤ endDate.sqlDate utcOffset) := by
    apply List.filter_congr
    intro s _
    simp only [Bool.and_assoc]
    cases decide (s.tenantId = tenantId) <;>
      cases decide (startDate.sqlDate utcOffset ≤ s.slotDate) <;>
      cases decide (s.slotDate ≤ endDate.sqlDate utcOffset) <;>
      cases decide (s.status = SlotStatus.available) <;>
      rfl
  rw [hfilter] at hperm
  have hmem : ∀ s, s ∈ slotsRepository.findByTenantAndDateRange utcOffset db tenantId
      startDate endDate (some SlotStatus.available) ↔ s ∈ db.slots ∧ s.tenantId = tenantId ∧
        s.status = SlotStatus.available ∧ startDate.sqlDate utcOffset ≤ s.slotDate ∧
        s.slotDate ≤ endDate.sqlDate utcOffset := by
    intro s
    rw [hperm.mem_iff, List.mem_filter]
    simp only [Bool.and_eq_true, decide_eq_true_eq, and_assoc]
  refine ⟨⟨_, rfl, hperm, hmem, ?_, ?_⟩, ?_, fun _ => rfl, ?_, ?_, by decide, by decide,
    by decide⟩
  · unfold slotsService.getAvailableSlots
    rw [List.pairwise_map]
    exact hsorted
  · intro s hs
    exact ⟨rfl, rfl, rfl, rfl, rfl, ((hmem s).1 hs).2.2.1⟩
  · intro a b h1 h2 h3 h4 h5 h6
    simp only [slotsService.formatSlot, h1, h2, h3, h4, h5, h6]
  · intro day h0 h1
    simp only [joiDate, DateParam.sqlDate]
    omega
  · intro day h0 h1
    simp only [joiDate, DateParam.sqlDate]
    omega

/-! ## Controllers and the audit log -/

theorem createAuditLog_ok (throws : Bool) (log : List AuditEntry) (entry : AuditEntry) :
    (createAuditLog throws log entry).1 = Except.ok () := by
  cases throws <;> rfl

theorem finish_ok (auditThrows : Bool) (log : List AuditEntry) (status : Nat)
    (entry : Booking → AuditEntry) (booking : Booking) (db' : Db) :
    (bookingsController.finish auditThrows log status entry
        (Except.ok (some booking), db')).1 = Reply.json status booking ∧
    (bookingsController.finish auditThrows log status entry
        (Except.ok (some booking), db')).2.1 = db' := by
  cases auditThrows <;> exact ⟨rfl, rfl⟩

theorem updateStatus_ok_some (db : Db) (id tenantId : Nat) (newStatus : BookingStatus)
    (h : (bookingsService.updateStatus db id tenantId newStatus).1.isOk = true) :
    ∃ b, (bookingsService.updateStatus db id tenantId newStatus).1 = Except.ok (some b) := by
  unfold bookingsService.updateStatus at h ⊢
  cases hf : bookingsRepository.findById db id with
  | none => rw [hf] at h; cases h
  | some b =>
    rw [hf] at h
    simp only at h ⊢
    split_ifs at h ⊢ with h1 h2 h3
    · cases h
    · cases h
    · obtain ⟨b', hb', -⟩ := repository_updateStatus_row db id newStatus
        (some PaymentStatus.paid) hf
      exact ⟨b', by rw [hb']⟩
    · obtain ⟨b', hb', -⟩ := repository_updateStatus_row db id newStatus none hf
      exact ⟨b', by rw [hb']⟩

theorem cancelByCustomer_ok_some (env : CancelEnv) (db : Db) (id customerId : Nat)
    (reason : Option String)
    (h : (bookingsService.cancelByCustomer env db id customerId reason).1.isOk = true) :
    ∃ b, (bookingsService.cancelByCustomer env db id customerId reason).1 =
      Except.ok (some b) := by
  unfold bookingsService.cancelByCustomer at h ⊢
  cases hf : bookingsRepository.findById db id with
  | none => rw [hf] at h; cases h
  | some b =>
    rw [hf] at h
    simp only at h ⊢
    split_ifs at h ⊢ with h1 h2 h3
    · cases h
    · cases h
    · cases h
    · exact ⟨_, by rw [(cancel_found _ hf).1]⟩

theorem cancelByManager_ok_some (db : Db) (id tenantId : Nat) (reason : Option String)
    (h : (bookingsService.cancelByManager db id tenantId reason).1.isOk = true) :
    ∃ b, (bookingsService.cancelByManager db id tenantId reason).1 = Except.ok (some b) := by
  unfold bookingsService.cancelByManager at h ⊢
  cases hf : bookingsRepository.findById db id with
  | none => rw [hf] at h; cases h
  | some b =>
    rw [hf] at h
    simp only at h ⊢
    split_ifs at h ⊢ with h1 h2
    · cases h
    · cases h
    · exact ⟨_, by rw [(cancel_found _ hf).1]⟩

/-! ## Claims on the audit log, cleanup and the error handler -/

/-- C24 (audit logging cannot fail the operation).  `createAuditLog` returns
normally whether or not its insert throws; and whenever the service call of
the controllers `create`, `cancelMyBooking`, `updateStatus` and `cancelBooking`
succeeds, the controller answers with the success status and the booking the
service returned, and the tables are those the service left, whether or not
the audit insert throws. -/
theorem audit_cannot_fail (auditThrows : Bool) (log : List AuditEntry) :
    (∀ entry, (createAuditLog auditThrows log entry).1 = Except.ok ()) ∧
    (∀ fault db r ip booking, (bookingsService.create fault db r).1 = Except.ok booking →
      (bookingsController.create fault auditThrows db log r ip).1 = Reply.json 201 booking ∧
      (bookingsController.create fault auditThrows db log r ip).2.1 =
        (bookingsService.create fault db r).2) ∧
    (∀ env db id userId reason ip,
      (bookingsService.cancelByCustomer env db id userId reason).1.isOk = true →
      ∃ booking,
        (bookingsService.cancelByCustomer env db id userId reason).1 =
          Except.ok (some booking) ∧
        (bookingsController.cancelMyBooking auditThrows env db log id userId reason ip).1 =
          Reply.json 200 booking ∧
        (bookingsController.cancelMyBooking auditThrows env db log id userId reason ip).2.1 =
          (bookingsService.cancelByCustomer env db id userId reason).2) ∧
    (∀ db id tenantId userId status ip,
      (bookingsService.updateStatus db id tenantId status).1.isOk = true →
      ∃ booking,
        (bookingsService.updateStatus db id tenantId status).1 = Except.ok (some booking) ∧
        (bookingsController.updateStatus auditThrows db log id tenantId userId status ip).1 =
          Reply.json 200 booking ∧
        (bookingsController.updateStatus auditThrows db log id tenantId userId status ip).2.1 =
          (bookingsService.updateStatus db id tenantId status).2) ∧
    (∀ db id tenantId userId reason ip,
      (bookingsService.cancelByManager db id tenantId reason).1.isOk = true →
      ∃ booking,
        (bookingsService.cancelByManager db id tenantId reason).1 = Except.ok (some booking) ∧
        (bookingsController.cancelBooking auditThrows db log id tenantId userId reason ip).1 =
          Reply.json 200 booking ∧
        (bookingsController.cancelBooking auditThrows db log id tenantId userId reason ip).2.1 =
          (bookingsService.cancelByManager db id tenantId reason).2) := by
  refine ⟨createAuditLog_ok auditThrows log, ?_, ?_, ?_, ?_⟩
  · intro fault db r ip booking h
    unfold bookingsController.create
    rcases hres : bookingsService.create fault db r with ⟨res, db'⟩
    rw [hres] at h
    simp only at h
    subst h
    exact finish_ok auditThrows log 201 _ booking db'
  · intro env db id userId reason ip h
    obtain ⟨b, hb⟩ := cancelByCustomer_ok_some env db id userId reason h
    refine ⟨b, hb, ?_⟩
    unfold bookingsController.cancelMyBooking
    rcases hres : bookingsService.cancelByCustomer env db id userId reason with ⟨res, db'⟩
    rw [hres] at hb
    simp only at hb
    subst hb
    exact finish_ok auditThrows log 200 _ b db'
  · intro db id tenantId userId status ip h
    obtain ⟨b, hb⟩ := updateStatus_ok_some db id tenantId status h
    refine ⟨b, hb, ?_⟩
    unfold bookingsController.updateStatus
    rcases hres : bookingsService.updateStatus db id tenantId status with ⟨res, db'⟩
    rw [hres] at hb
    simp only at hb
    subst hb
    exact finish_ok auditThrows log 200 _ b db'
  · intro db id tenantId userId reason ip h
    obtain ⟨b, hb⟩ := cancelByManager_ok_some db id tenantId reason h
    refine ⟨b, hb, ?_⟩
    unfold bookingsController.cancelBooking
    rcases hres : bookingsService.cancelByManager db id tenantId reason with ⟨res, db'⟩
    rw [hres] at hb
    simp only at hb
    subst hb
    exact finish_ok auditThrows log 200 _ b db'

/-- Witness of C24: a booking is created while the audit insert throws; the
answer is the 201 with the booking and the audit table is unchanged. -/
theorem audit_cannot_fail_witness :
    bookingsController.create Fault.none true dbFresh [] requestSlot1 none =
        (Reply.json 201 bookingSlot1,
          (bookingsService.create Fault.none dbFresh requestSlot1).2, []) ∧
      (bookingsController.create Fault.none true dbFresh [] requestSlot1 none).1 =
        Reply.json 201 bookingSlot1 :=
  ⟨rfl, ((audit_cannot_fail true []).2.1 Fault.none dbFresh requestSlot1 none bookingSlot1
    rfl).1⟩

/-- C27 (bulk cleanup).  `deleteByDateRange` keeps the rows of the slot table
in their order and as they were, removing exactly those of the tenant dated
from `startDate` to `endDate` with `bookedCount = 0`: a slot with
`bookedCount > 0`, a slot outside the range and a slot of another tenant stay;
the bookings and services are untouched. -/
theorem deleteByDateRange_frame (db : Db) (tenantId : Nat) (startDate endDate : Int) :
    (∀ s, s ∈ (slotsRepository.deleteByDateRange db tenantId startDate endDate).slots ↔
      s ∈ db.slots ∧ ¬ (s.tenantId = tenantId ∧ startDate ≤ s.slotDate ∧
        s.slotDate ≤ endDate ∧ s.bookedCount = 0)) ∧
    (slotsRepository.deleteByDateRange db tenantId startDate endDate).slots.Sublist
      db.slots ∧
    (∀ s ∈ db.slots, 0 < s.bookedCount →
      s ∈ (slotsRepository.deleteByDateRange db tenantId startDate endDate).slots) ∧
    (∀ s ∈ db.slots, (s.slotDate < startDate ∨ endDate < s.slotDate) →
      s ∈ (slotsRepository.deleteByDateRange db tenantId startDate endDate).slots) ∧
    (∀ s ∈ db.slots, s.tenantId ≠ tenantId →
      s ∈ (slotsRepository.deleteByDateRange db tenantId startDate endDate).slots) ∧
    (∀ s ∈ db.slots, s.tenantId = tenantId → startDate ≤ s.slotDate → s.slotDate ≤ endDate →
      s.bookedCount = 0 →
      s ∉ (slotsRepository.deleteByDateRange db tenantId startDate endDate).slots) ∧
    (slotIdsUnique db → ∀ s ∈ db.slots,
      ¬ (s.tenantId = tenantId ∧ startDate ≤ s.slotDate ∧ s.slotDate ≤ endDate ∧
        s.bookedCount = 0) →
      slotsRepository.findById
        (slotsRepository.deleteByDateRange db tenantId startDate endDate) s.id = some s) ∧
    (slotsRepository.deleteByDateRange db tenantId startDate endDate).bookings = db.bookings ∧
    (slotsRepository.deleteByDateRange db tenantId startDate endDate).services =
      db.services := by
  have hmem : ∀ s, s ∈ (slotsRepository.deleteByDateRange db tenantId startDate endDate).slots ↔
      s ∈ db.slots ∧ ¬ (s.tenantId = tenantId ∧ startDate ≤ s.slotDate ∧
        s.slotDate ≤ endDate ∧ s.bookedCount = 0) := by
    intro s
    simp only [slotsRepository.deleteByDateRange, List.mem_filter, Bool.not_eq_true',
      Bool.and_eq_false_iff, decide_eq_false_iff_not, Bool.and_eq_true, decide_eq_true_eq,
      not_and_or, and_assoc, or_assoc]
  have hsub : (slotsRepository.deleteByDateRange db tenantId startDate endDate).slots.Sublist
      db.slots := List.filter_sublist _
  refine ⟨hmem, hsub, ?_, ?_, ?_, ?_, ?_, rfl, rfl⟩
  · intro s hs hpos
    exact (hmem s).2 ⟨hs, fun h => by omega⟩
  · intro s hs hout
    exact (hmem s).2 ⟨hs, fun h => by omega⟩
  · intro s hs hne
    exact (hmem s).2 ⟨hs, fun h => hne h.1⟩
  · intro s hs h1 h2 h3 h4 hin
    exact ((hmem s).1 hin).2 ⟨h1, h2, h3, h4⟩
  · intro hu s hs hkeep
    have hu' : ((slotsRepository.deleteByDateRange db tenantId startDate endDate).slots.map
        (fun s => s.id)).Nodup := (hsub.map _).nodup hu
    exact find?_slot_of_unique hu' ((hmem s).2 ⟨hs, hkeep⟩)

/-- Witness of the cleanup on `dbListing`: tenant 1 from day 20000 to day
20001. -/
theorem deleteByDateRange_frame_witness :
    (slotsRepository.deleteByDateRange dbListing 1 20000 20001).slots.map (fun s => s.id) =
        [1, 3, 4, 5, 6] ∧
      (slotsRepository.deleteByDateRange dbListing 1 20000 20001).slots.Sublist
        dbListing.slots :=
  ⟨by decide, (deleteByDateRange_frame dbListing 1 20000 20001).2.1⟩

/-- C28 (no leak of internal detail in production).  Under
`config.env = production`, for an error that is neither operational nor a Joi
error the handler writes one of four fixed messages, no stack and no details;
the response does not depend on the message or the stack of the error. -/
theorem errorHandler_production (err : ThrownError) (hop : err.isOperational = false)
    (hjoi : err.isJoi = false) :
    (errorHandler "production" err).error ∈
      ["A record with this value already exists.", "Referenced record does not exist.",
       "Required field is missing.", "An unexpected error occurred"] ∧
    (errorHandler "production" err).stack = none ∧
    (errorHandler "production" err).details = none ∧
    (∀ message stack : String,
      errorHandler "production" { err with message := message, stack := stack } =
        errorHandler "production" err) ∧
    (∀ other : ThrownError, other.isOperational = false → other.isJoi = false →
      other.code = err.code → other.statusCode = err.statusCode →
      errorHandler "production" other = errorHandler "production" err) := by
  have hprod : ("production" = "development") = False := by decide
  refine ⟨?_, ?_, ?_, ?_, ?_⟩
  · simp only [errorHandler, hop, hjoi, Bool.false_eq_true, if_false, if_true]
    split_ifs <;> simp
  · simp only [errorHandler, hop, hjoi, Bool.false_eq_true, if_false, if_true, hprod]
    split_ifs <;> rfl
  · simp only [errorHandler, hop, hjoi, Bool.false_eq_true, if_false]
    split_ifs <;> rfl
  · intro message stack
    simp only [errorHandler, hop, hjoi, Bool.false_eq_true, if_false, if_true, hprod]
  · intro other h1 h2 h3 h4
    simp only [errorHandler, hop, hjoi, h1, h2, h3, h4, Bool.false_eq_true, if_false, if_true,
      hprod]

/-- Witness of C28: a lost connection in production, against the same error in
development, where message and stack are sent. -/
theorem errorHandler_production_witness :
    errorHandler "production" connectionError =
        { status := 500, error := "An unexpected error occurred", details := none,
          stack := none } ∧
      (errorHandler "development" connectionError).error = connectionError.message ∧
      (errorHandler "development" connectionError).stack = some connectionError.stack ∧
      (errorHandler "production" connectionError).stack = none :=
  ⟨by decide, by decide, by decide,
    (errorHandler_production connectionError rfl rfl).2.1⟩

/-! ## Frame and termination of slot generation -/

/-- A row the insert returns shares its tenant, date and start time with no
row of the table the insert started from. -/
theorem insertAll_fresh : ∀ (cs : List SlotCandidate) (table : List TimeSlot),
    ∀ row ∈ (slotsRepository.insertAll table cs).1, ∀ s ∈ table,
      ¬ (s.tenantId = row.tenantId ∧ s.slotDate = row.slotDate ∧
        s.startTime = row.startTime) := by
  intro cs
  induction cs with
  | nil => intro table row hrow; cases hrow
  | cons c cs ih =>
    intro table row hrow s hs
    by_cases hc : slotsRepository.conflicts table c = true
    · simp only [slotsRepository.insertAll, hc, if_true] at hrow
      exact ih table row hrow s hs
    · simp only [slotsRepository.insertAll, hc, Bool.false_eq_true, if_false,
        List.mem_cons] at hrow
      rcases hrow with hrow | hrow
      · rw [hrow]
        intro hkey
        apply hc
        simp only [slotsRepository.conflicts, List.any_eq_true, Bool.and_eq_true,
          decide_eq_true_eq]
        exact ⟨s, hs, ⟨hkey.1, hkey.2.1⟩, hkey.2.2⟩
      · exact ih _ row hrow s (List.mem_append_left _ hs)

theorem bulkCreate_fresh (db : Db) (cs : List SlotCandidate) :
    ∀ row ∈ (slotsRepository.bulkCreate db cs).1, ∀ s ∈ db.slots,
      ¬ (s.tenantId = row.tenantId ∧ s.slotDate = row.slotDate ∧
        s.startTime = row.startTime) := by
  unfold slotsRepository.bulkCreate
  by_cases h : cs.length = 0
  · simp only [h, if_true]
    intro row hrow
    cases hrow
  · simp only [h, if_false]
    exact insertAll_fresh cs db.slots

theorem windowLoop_diverges (tenantId : Nat) (slotDate slotDuration closeMinutes capacity : Int)
    (hd : slotDuration ≤ 0) :
    ∀ (fuel : Nat) (m : Int), m + slotDuration ≤ closeMinutes →
      slotsService.windowLoop tenantId slotDate slotDuration closeMinutes capacity fuel m =
        none := by
  intro fuel
  induction fuel with
  | zero =>
    intro m hm
    simp only [slotsService.windowLoop, if_pos hm]
  | succ fuel ih =>
    intro m hm
    simp only [slotsService.windowLoop, if_pos hm]
    rw [ih (m + slotDuration) (by omega)]
    rfl

theorem windowLoop_mono (tenantId : Nat) (slotDate slotDuration closeMinutes capacity : Int) :
    ∀ (fuel : Nat) (m : Int) (cs : List SlotCandidate),
      slotsService.windowLoop tenantId slotDate slotDuration closeMinutes capacity fuel m =
        some cs →
      slotsService.windowLoop tenantId slotDate slotDuration closeMinutes capacity (fuel + 1) m =
        some cs := by
  intro fuel
  induction fuel with
  | zero =>
    intro m cs h
    by_cases hc : m + slotDuration ≤ closeMinutes
    · simp only [slotsService.windowLoop, if_pos hc] at h
      cases h
    · simp only [slotsService.windowLoop, if_neg hc] at h ⊢
      exact h
  | succ fuel ih =>
    intro m cs h
    by_cases hc : m + slotDuration ≤ closeMinutes
    · rw [slotsService.windowLoop, if_pos hc] at h
      rw [slotsService.windowLoop, if_pos hc]
      cases hrest : slotsService.windowLoop tenantId slotDate slotDuration closeMinutes capacity
          fuel (m + slotDuration) with
      | none => rw [hrest] at h; cases h
      | some rest =>
        rw [hrest] at h
        rw [ih _ _ hrest]
        exact h
    · rw [slotsService.windowLoop, if_neg hc] at h
      rw [slotsService.windowLoop, if_neg hc]
      exact h

theorem windowLoop_mono_le (tenantId : Nat) (slotDate slotDuration closeMinutes capacity : Int)
    (fuel : Nat) (m : Int) (cs : List SlotCandidate)
    (h : slotsService.windowLoop tenantId slotDate slotDuration closeMinutes capacity fuel m =
      some cs) :
    ∀ k : Nat,
      slotsService.windowLoop tenantId slotDate slotDuration closeMinutes capacity (fuel + k) m =
        some cs := by
  intro k
  induction k with
  | zero => exact h
  | succ k ih => exact windowLoop_mono _ _ _ _ _ _ _ _ ih

/-- The inner loop, when it ends, has pushed the candidates of the
specification, whatever the number of iterations allowed. -/
theorem windowLoop_some_spec (tenantId : Nat) (slotDate slotDuration closeMinutes capacity : Int)
    (hd : 1 ≤ slotDuration) (fuel : Nat) (m : Int) (cs : List SlotCandidate)
    (h : slotsService.windowLoop tenantId slotDate slotDuration closeMinutes capacity fuel m =
      some cs) :
    cs = windowSlotsSpec tenantId slotDate slotDuration closeMinutes capacity m := by
  have h1 := windowLoop_mono_le _ _ _ _ _ _ _ _ h (closeMinutes - m).toNat
  have h2 := windowLoop_eq_spec tenantId slotDate slotDuration closeMinutes capacity hd
    (fuel + (closeMinutes - m).toNat) m (by push_cast; omega)
  rw [h1] at h2
  exact Option.some.inj h2

theorem dateLoop_none (body : Int → Option (List SlotCandidate)) :
    ∀ (n : Nat) (start day : Int), start ≤ day → day < start + n → body day = none →
      slotsService.dateLoop body n start = none := by
  intro n
  induction n with
  | zero => intro start day h1 h2; omega
  | succ n ih =>
    intro start day h1 h2 hb
    rw [slotsService.dateLoop]
    by_cases hd : day = start
    · rw [← hd, hb]
    · cases hs : body start with
      | none => rfl
      | some cs =>
        simp only
        rw [ih (start + 1) day (by omega) (by push_cast at h2; omega) hb]
        rfl

theorem le_windowFuel {rows : List OperatingHours} {oh : OperatingHours} (h : oh ∈ rows) :
    oh.closeTime - oh.openTime ≤ (windowFuel rows : Int) := by
  unfold windowFuel
  induction rows with
  | nil => cases h
  | cons a rows ih =>
    simp only [List.map_cons, List.foldr_cons]
    rcases List.mem_cons.1 h with h | h
    · rw [h]
      have := le_max_left (a.closeTime - a.openTime).toNat
        ((rows.map (fun oh => (oh.closeTime - oh.openTime).toNat)).foldr max 0)
      omega
    · have h1 := ih h
      have := le_max_right (a.closeTime - a.openTime).toNat
        ((rows.map (fun oh => (oh.closeTime - oh.openTime).toNat)).foldr max 0)
      omega

theorem windowFuel_filter (hours : List OperatingHours) (tenantId : Nat) {oh : OperatingHours}
    (h : oh ∈ slotsRepository.getOperatingHours hours tenantId) :
    oh.closeTime - oh.openTime ≤ (windowFuel hours : Int) :=
  le_windowFuel (List.mem_of_mem_filter h)

/-- In every time zone the date loop on dates ends within one iteration per
calendar day of the range, when its body does. -/
theorem dateLoopIn_returns (zone : Int → Int) (body : Int → Option (List SlotCandidate))
    (hbody : ∀ day, ∃ cs, body day = some cs) (endDate : LocalDate) :
    ∀ (fuel : Nat) (d : LocalDate), endDate.day - d.day + 1 ≤ (fuel : Int) →
      ∃ cs, slotsService.dateLoopIn zone body endDate fuel d = some cs := by
  have hafter : ∀ d : LocalDate, endDate.day < d.day → d.le endDate = false := by
    intro d hd
    simp only [LocalDate.le, Bool.or_eq_false_iff, decide_eq_false_iff_not,
      Bool.and_eq_false_iff]
    omega
  intro fuel
  induction fuel with
  | zero =>
    intro d hd
    have := hafter d (by push_cast at hd; omega)
    exact ⟨[], by simp only [slotsService.dateLoopIn, this, Bool.false_eq_true, if_false]⟩
  | succ fuel ih =>
    intro d hd
    by_cases hle : d.le endDate = true
    · obtain ⟨cs, hcs⟩ := hbody d.day
      have hnext : (nextDate zone d).day = d.day + 1 := by
        unfold nextDate resolveLocal
        split_ifs <;> rfl
      obtain ⟨rest, hrest⟩ := ih (nextDate zone d) (by rw [hnext]; push_cast at hd; omega)
      exact ⟨cs ++ rest, by
        simp only [slotsService.dateLoopIn, hle, if_true, hcs, hrest, Option.map_some']⟩
    · exact ⟨[], by simp only [slotsService.dateLoopIn, hle, Bool.false_eq_true, if_false]⟩

theorem dayCandidates_returns (fuel : Nat) (rows : List OperatingHours) (tenantId : Nat)
    (slotDuration capacity : Int) (hd : 1 ≤ slotDuration)
    (hfuel : ∀ oh ∈ rows, oh.closeTime - oh.openTime ≤ (fuel : Int)) (day : Int) :
    ∃ cs, slotsService.dayCandidates fuel (slotsService.hoursMap rows) tenantId slotDuration
      capacity day = some cs := by
  unfold slotsService.dayCandidates
  cases hmap : slotsService.hoursMap rows (dayOfWeek day) with
  | none => exact ⟨[], rfl⟩
  | some oh =>
    simp only
    by_cases hc : oh.isClosed = true
    · exact ⟨[], by simp only [hc, if_true]⟩
    · simp only [hc, Bool.false_eq_true, if_false]
      exact ⟨_, windowLoop_eq_spec tenantId day slotDuration oh.closeTime capacity hd fuel
        oh.openTime (hfuel oh (hoursMap_some hmap).1)⟩

/-! ## Claims on the frame and the termination of generation -/

/-- C26 (generation leaves existing slots alone).  If `generateSlots` returns,
the slot table afterwards is the table before followed by the new rows: every
slot present before is at its place with all its columns, also when a
candidate of another capacity or duration has its tenant, date and start time;
no new row shares these three with a slot present before; the bookings and
services are unchanged; and with operating hours set the call returns a
result, not an error, whatever collides. -/
theorem generateSlots_frame (fuel : Nat) (hours : List OperatingHours) (db : Db)
    (tenantId : Nat) (startDate endDate slotDuration capacity : Int)
    (res : Except Err GenerateResult) (db' : Db)
    (h : slotsService.generateSlots fuel hours db tenantId startDate endDate slotDuration
      capacity = some (res, db')) :
    (∃ added : List TimeSlot, db'.slots = db.slots ++ added ∧
      (∀ row ∈ added, ∀ s ∈ db.slots,
        ¬ (s.tenantId = row.tenantId ∧ s.slotDate = row.slotDate ∧
          s.startTime = row.startTime)) ∧
      (∀ r, res = Except.ok r → r.created = added.length)) ∧
    (∀ (i : Nat) (s : TimeSlot), db.slots[i]? = some s → db'.slots[i]? = some s) ∧
    (∀ (id : Nat) (s : TimeSlot), slotsRepository.findById db id = some s →
      slotsRepository.findById db' id = some s) ∧
    db'.bookings = db.bookings ∧ db'.services = db.services ∧
    ((∃ oh ∈ hours, oh.tenantId = tenantId) → ∃ r, res = Except.ok r) := by
  have hmain : (∃ added : List TimeSlot, db'.slots = db.slots ++ added ∧
      (∀ row ∈ added, ∀ s ∈ db.slots,
        ¬ (s.tenantId = row.tenantId ∧ s.slotDate = row.slotDate ∧
          s.startTime = row.startTime)) ∧
      (∀ r, res = Except.ok r → r.created = added.length)) ∧
      db'.bookings = db.bookings ∧ db'.services = db.services ∧
      ((∃ oh ∈ hours, oh.tenantId = tenantId) → ∃ r, res = Except.ok r) := by
    by_cases hrows : slotsRepository.getOperatingHours hours tenantId = []
    · rw [generateSlots_no_hours hrows] at h
      simp only [Option.some.injEq, Prod.mk.injEq] at h
      obtain ⟨h1, h2⟩ := h
      subst h2
      refine ⟨⟨[], (by simp), (fun row hrow => by cases hrow), ?_⟩, rfl, rfl, ?_⟩
      · intro r hr
        rw [← h1] at hr
        cases hr
      · rintro ⟨oh, hmem, ht⟩
        exact absurd ht ((getOperatingHours_nil_iff hours tenantId).1 hrows oh hmem)
    · rw [generateSlots_with_hours hrows] at h
      cases hc : slotsService.candidates fuel (slotsRepository.getOperatingHours hours tenantId)
          tenantId startDate endDate slotDuration capacity with
      | none => rw [hc] at h; cases h
      | some slots =>
        rw [hc] at h
        simp only [Option.map_some', Option.some.injEq, Prod.mk.injEq] at h
        obtain ⟨h1, h2⟩ := h
        obtain ⟨hrowsEq, hb, hs, -⟩ := bulkCreate_rows db slots
        subst h2
        refine ⟨⟨(slotsRepository.bulkCreate db slots).1, hrowsEq,
          bulkCreate_fresh db slots, ?_⟩, hb, hs, fun _ => ⟨_, h1.symm⟩⟩
        intro r hr
        rw [← h1] at hr
        cases hr
        rfl
  obtain ⟨⟨added, hadd, hfresh, hcount⟩, hb, hs, hok⟩ := hmain
  refine ⟨⟨added, hadd, hfresh, hcount⟩, ?_, ?_, hb, hs, hok⟩
  · intro i s hi
    rw [hadd]
    have hlt : i < db.slots.length := by
      by_contra hge
      rw [List.getElem?_eq_none (by omega)] at hi
      cases hi
    rw [List.getElem?_append_left hlt]
    exact hi
  · intro id s hfind
    unfold slotsRepository.findById at hfind ⊢
    rw [hadd, List.find?_append, hfind]
    rfl

/-- Witness of C26: half-hour slots of capacity 5 are generated over the Monday
of `dbMonday`, whose 08:00 slot of capacity 2 holds a booking: three of the
four candidates are created and the slot is as it was. -/
theorem generateSlots_frame_witness :
    slotsService.generateSlots 1000 hoursWeek dbMonday 1 20003 20003 30 5 =
        some (Except.ok { created := 3, total := 4 },
          (slotsService.generateSlots 1000 hoursWeek dbMonday 1 20003 20003 30 5).get rfl
            |>.2) ∧
      ((slotsService.generateSlots 1000 hoursWeek dbMonday 1 20003 20003 30 5).get rfl
        |>.2).slots[0]? = some slotMonday ∧
      ∀ (id : Nat) (s : TimeSlot), slotsRepository.findById dbMonday id = some s →
        slotsRepository.findById
          ((slotsService.generateSlots 1000 hoursWeek dbMonday 1 20003 20003 30 5).get rfl
            |>.2) id = some s :=
  ⟨rfl, rfl,
    (generateSlots_frame 1000 hoursWeek dbMonday 1 20003 20003 30 5
      (Except.ok { created := 3, total := 4 })
      ((slotsService.generateSlots 1000 hoursWeek dbMonday 1 20003 20003 30 5).get rfl |>.2)
      rfl).2.2.1⟩

/-- C29 (termination of slot generation).  With a duration of at least 1,
`generateSlots` returns once each inner loop is allowed as many iterations as
the widest opening window has minutes, and the date loop on dates ends in
every time zone within one iteration per day of the range; a date whose row
is open from `o` to `c` gets at most `max(0, floor((c - o) / d))` candidates,
which is `floor((c - o) / d)` when `o <= c`, and a date without a row none.
With a duration of 0 or less the function checks nothing: if the range holds
an open day whose row has `o + d <= c`, the inner loop never ends, however many
iterations are allowed. -/
theorem generateSlots_terminates (hours : List OperatingHours) (db : Db) (tenantId : Nat)
    (startDate endDate slotDuration capacity : Int) :
    (1 ≤ slotDuration →
      (∀ fuel, windowFuel hours ≤ fuel →
        ∃ res db', slotsService.generateSlots fuel hours db tenantId startDate endDate
          slotDuration capacity = some (res, db')) ∧
      (∀ (zone : Int → Int) (dateFuel fuel : Nat),
        endDate - startDate + 1 ≤ (dateFuel : Int) → windowFuel hours ≤ fuel →
        ∃ slots, slotsService.candidatesIn zone dateFuel fuel
          (slotsRepository.getOperatingHours hours tenantId) tenantId startDate endDate
          slotDuration capacity = some slots) ∧
      (∀ (fuel : Nat) (day : Int) (cs : List SlotCandidate),
        slotsService.dayCandidates fuel
          (slotsService.hoursMap (slotsRepository.getOperatingHours hours tenantId)) tenantId
          slotDuration capacity day = some cs →
        (∀ oh, slotsService.hoursMap (slotsRepository.getOperatingHours hours tenantId)
            (dayOfWeek day) = some oh →
          (cs.length : Int) ≤ max 0 ((oh.closeTime - oh.openTime) / slotDuration) ∧
          (oh.openTime ≤ oh.closeTime →
            (cs.length : Int) ≤ (oh.closeTime - oh.openTime) / slotDuration)) ∧
        (slotsService.hoursMap (slotsRepository.getOperatingHours hours tenantId)
            (dayOfWeek day) = none → cs = []))) ∧
    (slotDuration ≤ 0 →
      ∀ (day : Int) (oh : OperatingHours), startDate ≤ day → day ≤ endDate →
        slotsService.hoursMap (slotsRepository.getOperatingHours hours tenantId)
          (dayOfWeek day) = some oh →
        oh.isClosed = false → oh.openTime + slotDuration ≤ oh.closeTime →
        ∀ fuel, slotsService.generateSlots fuel hours db tenantId startDate endDate
          slotDuration capacity = none) := by
  constructor
  · intro hd
    refine ⟨?_, ?_, ?_⟩
    · intro fuel hfuel
      by_cases hrows : slotsRepository.getOperatingHours hours tenantId = []
      · exact ⟨_, _, generateSlots_no_hours hrows⟩
      · obtain ⟨slots, hslots⟩ := candidates_returns fuel
          (slotsRepository.getOperatingHours hours tenantId) tenantId startDate endDate
          slotDuration capacity hd
          (fun oh hoh => by
            have := windowFuel_filter hours tenantId hoh
            omega)
        rw [generateSlots_with_hours hrows, hslots]
        exact ⟨_, _, rfl⟩
    · intro zone dateFuel fuel hdate hfuel
      unfold slotsService.candidatesIn
      apply dateLoopIn_returns
      · exact dayCandidates_returns fuel _ tenantId slotDuration capacity hd
          (fun oh hoh => by
            have := windowFuel_filter hours tenantId hoh
            omega)
      · have h1 : (localMidnight zone endDate).day = endDate := by
          unfold localMidnight resolveLocal
          split_ifs <;> rfl
        have h2 : (localMidnight zone startDate).day = startDate := by
          unfold localMidnight resolveLocal
          split_ifs <;> rfl
        rw [h1, h2]
        exact hdate
    · intro fuel day cs hcs
      constructor
      · intro oh hmap
        unfold slotsService.dayCandidates at hcs
        rw [hmap] at hcs
        simp only at hcs
        by_cases hc : oh.isClosed = true
        · simp only [hc, if_true, Option.some.injEq] at hcs
          rw [← hcs]
          simp only [List.length_nil, Nat.cast_zero]
          constructor
          · exact le_max_left _ _
          · intro ho
            exact Int.ediv_nonneg (by omega) (by omega)
        · simp only [hc, Bool.false_eq_true, if_false] at hcs
          have hspec := windowLoop_some_spec tenantId day slotDuration oh.closeTime capacity hd
            fuel oh.openTime cs hcs
          rw [hspec]
          simp only [windowSlotsSpec, List.length_map, List.length_range]
          constructor
          · omega
          · intro ho
            have := Int.ediv_nonneg (a := oh.closeTime - oh.openTime) (b := slotDuration)
              (by omega) (by omega)
            omega
      · intro hmap
        unfold slotsService.dayCandidates at hcs
        rw [hmap] at hcs
        simp only [Option.some.injEq] at hcs
        exact hcs.symm
  · intro hd day oh h1 h2 hmap hopen hwin fuel
    have hne : slotsRepository.getOperatingHours hours tenantId ≠ [] := by
      intro hnil
      have := (hoursMap_some hmap).1
      rw [hnil] at this
      cases this
    rw [generateSlots_with_hours hne]
    have hbody : slotsService.dayCandidates fuel
        (slotsService.hoursMap (slotsRepository.getOperatingHours hours tenantId)) tenantId
        slotDuration capacity day = none := by
      unfold slotsService.dayCandidates
      rw [hmap]
      simp only [hopen, Bool.false_eq_true, if_false]
      exact windowLoop_diverges tenantId day slotDuration oh.closeTime capacity hd fuel
        oh.openTime hwin
    unfold slotsService.candidates
    rw [dateLoop_none _ _ startDate day h1 (by omega) hbody]
    rfl

/-- Witness of C29: a week of hour slots for tenant 1 is generated with 600
iterations allowed per day, and a duration of 0 on an open Monday never ends. -/
theorem generateSlots_terminates_witness :
    windowFuel hoursWeek = 600 ∧
      (∃ res db', slotsService.generateSlots 600 hoursWeek dbFresh 1 20000 20006 60 2 =
        some (res, db')) ∧
      ∀ fuel, slotsService.generateSlots fuel hoursWeek dbFresh 1 20003 20003 0 2 = none :=
  ⟨by decide,
    (generateSlots_terminates hoursWeek dbFresh 1 20000 20006 60 2).1 (by decide) |>.1 600
      (by decide),
    (generateSlots_terminates hoursWeek dbFresh 1 20003 20003 0 2).2 (by decide) 20003
      hoursMonday (by decide) (by decide) rfl rfl (by decide)⟩

/-! ## The date loop, day by day -/

/-- The date loop over day numbers runs its body once for each of the `n` days
from `start`, in ascending order, and concatenates what the body pushes. -/
theorem dateLoop_days (body : Int → Option (List SlotCandidate)) :
    ∀ (n : Nat) (start : Int) (slots : List SlotCandidate),
      slotsService.dateLoop body n start = some slots →
      ∃ perDay : List (List SlotCandidate), perDay.length = n ∧ slots = perDay.flatten ∧
        ∀ (i : Nat) (cs : List SlotCandidate), perDay[i]? = some cs →
          body (start + i) = some cs := by
  intro n
  induction n with
  | zero =>
    intro start slots h
    simp only [slotsService.dateLoop, Option.some.injEq] at h
    exact ⟨[], rfl, by rw [← h]; rfl, fun i cs hi => by cases hi⟩
  | succ n ih =>
    intro start slots h
    rw [slotsService.dateLoop] at h
    cases hb : body start with
    | none => rw [hb] at h; cases h
    | some cs0 =>
      rw [hb] at h
      simp only at h
      cases hrest : slotsService.dateLoop body n (start + 1) with
      | none => rw [hrest] at h; cases h
      | some rest =>
        rw [hrest] at h
        simp only [Option.map_some', Option.some.injEq] at h
        obtain ⟨perDay, hlen, hjoin, hget⟩ := ih (start + 1) rest hrest
        refine ⟨cs0 :: perDay, by simp [hlen], by rw [← h, hjoin]; rfl, ?_⟩
        intro i cs hi
        cases i with
        | zero =>
          simp only [List.getElem?_cons_zero, Option.some.injEq] at hi
          rw [← hi]
          simpa using hb
        | succ i =>
          simp only [List.getElem?_cons_succ] at hi
          have := hget i cs hi
          rw [← this]
          congr 1
          push_cast
          ring

theorem localMidnight_day (zone : Int → Int) (day : Int) :
    (localMidnight zone day).day = day := by
  unfold localMidnight resolveLocal
  split_ifs <;> rfl

theorem dateLoopIn_after (zone : Int → Int) (body : Int → Option (List SlotCandidate))
    (endDate : LocalDate) (fuel : Nat) (d : LocalDate) (h : endDate.day < d.day) :
    slotsService.dateLoopIn zone body endDate fuel d = some [] := by
  have hle : d.le endDate = false := by
    simp only [LocalDate.le, Bool.or_eq_false_iff, decide_eq_false_iff_not,
      Bool.and_eq_false_iff]
    omega
  cases fuel <;> simp only [slotsService.dateLoopIn, hle, Bool.false_eq_true, if_false]

/-- In a time zone that has a local midnight on every day of the range before
the last, the date loop on dates is the loop over the day numbers. -/
theorem dateLoopIn_no_gap (zone : Int → Int) (body : Int → Option (List SlotCandidate))
    (startDate endDate : Int)
    (hzone : ∀ day, startDate ≤ day → day < endDate → zone day = 0) :
    ∀ (k : Nat) (day : Int) (fuel : Nat), startDate ≤ day → (endDate - day + 1).toNat = k →
      k ≤ fuel →
      slotsService.dateLoopIn zone body (localMidnight zone endDate) fuel
          (localMidnight zone day) =
        slotsService.dateLoop body k day := by
  intro k
  induction k with
  | zero =>
    intro day fuel _ hk _
    rw [dateLoopIn_after zone body _ fuel _
      (by rw [localMidnight_day, localMidnight_day]; omega)]
    rfl
  | succ k ih =>
    intro day fuel hday hk hfuel
    obtain ⟨f, rfl⟩ : ∃ f, fuel = f + 1 := ⟨fuel - 1, by omega⟩
    have hle : (localMidnight zone day).le (localMidnight zone endDate) = true := by
      by_cases hlt : day < endDate
      · simp only [LocalDate.le, localMidnight_day, Bool.or_eq_true, decide_eq_true_eq]
        exact Or.inl hlt
      · have heq : day = endDate := by omega
        rw [heq]
        simp only [LocalDate.le, lt_self_iff_false, decide_False, le_refl, decide_True,
          Bool.and_self, Bool.or_true]
    rw [slotsService.dateLoopIn, if_pos hle, slotsService.dateLoop, localMidnight_day]
    cases hb : body day with
    | none => rfl
    | some cs =>
      simp only
      by_cases hlt : day < endDate
      · have hmin : (localMidnight zone day).minute = 0 := by
          unfold localMidnight resolveLocal
          rw [hzone day hday hlt]
          simp
        have hnext : nextDate zone (localMidnight zone day) = localMidnight zone (day + 1) := by
          unfold nextDate
          rw [localMidnight_day, hmin]
          rfl
        rw [hnext, ih (day + 1) f (by omega) (by omega) (by omega)]
      · have hk0 : k = 0 := by omega
        have hafter := dateLoopIn_after zone body (localMidnight zone endDate) f
          (nextDate zone (localMidnight zone day))
          (by
            have : (nextDate zone (localMidnight zone day)).day = day + 1 := by
              unfold nextDate resolveLocal
              rw [localMidnight_day]
              split_ifs <;> rfl
            rw [this, localMidnight_day]
            omega)
        rw [hafter, hk0]
        rfl

/-! ## Claim on the date loop -/

/-- C25 (inclusive calendar-date iteration).  The date loop of `generateSlots`
does not reach the last date of the range in every time zone.  In a zone whose
daylight-saving time starts at 00:00 of Sunday, day 19974, `generateSlots` from
Saturday, day 19973, to Monday, day 19975, builds no candidate for the Monday,
although the Monday is open from 08:00 to 10:00: after the Sunday the date `d`
reads 01:00, which is past `end`, the Monday at 00:00.  In a zone without the
jump the two Monday slots are built. -/
theorem date_iteration_counterexample :
    zoneMidnightJump 19974 = 60 ∧ dayOfWeek 19975 = 1 ∧
      slotsService.hoursMap (slotsRepository.getOperatingHours hoursWeek 1) (dayOfWeek 19975) =
        some hoursMonday ∧
      localMidnight zoneMidnightJump 19974 = { day := 19974, minute := 60 } ∧
      nextDate zoneMidnightJump (localMidnight zoneMidnightJump 19974) =
        { day := 19975, minute := 60 } ∧
      localMidnight zoneMidnightJump 19975 = { day := 19975, minute := 0 } ∧
      (∀ n : Nat, slotsService.candidatesIn zoneMidnightJump (n + 2) 1000
        (slotsRepository.getOperatingHours hoursWeek 1) 1 19973 19975 60 2 = some []) ∧
      slotsService.candidatesIn zoneUtc 3 1000
          (slotsRepository.getOperatingHours hoursWeek 1) 1 19973 19975 60 2 =
        some [{ tenantId := 1, slotDate := 19975, startTime := 480, endTime := 540,
                maxCapacity := 2 },
              { tenantId := 1, slotDate := 19975, startTime := 540, endTime := 600,
                maxCapacity := 2 }] := by
  refine ⟨by decide, by decide, rfl, by decide, by decide, by decide, ?_, rfl⟩
  intro n
  cases n <;> rfl

/-- In a time zone that has a local midnight on every day of the range before
the last, the date loop of `generateSlots` is the loop over the calendar days: its body runs once for
each day from `startDate` to `endDate`, in ascending order, and the array is
the concatenation of what the body pushes; the candidates of a day carry that
day as their date and come from the row filed under that day's weekday, where
0 is Sunday; for `startDate > endDate` no candidate is built. -/
theorem date_iteration (zone : Int → Int) (dateFuel fuel : Nat) (rows : List OperatingHours)
    (tenantId : Nat) (startDate endDate slotDuration capacity : Int)
    (hzone : ∀ day, startDate ≤ day → day < endDate → zone day = 0)
    (hfuel : endDate - startDate + 1 ≤ (dateFuel : Int)) :
    slotsService.candidatesIn zone dateFuel fuel rows tenantId startDate endDate slotDuration
        capacity =
      slotsService.candidates fuel rows tenantId startDate endDate slotDuration capacity ∧
    (∀ slots, slotsService.candidatesIn zone dateFuel fuel rows tenantId startDate endDate
        slotDuration capacity = some slots →
      ∃ perDay : List (List SlotCandidate),
        perDay.length = (endDate - startDate + 1).toNat ∧ slots = perDay.flatten ∧
        ∀ (i : Nat) (cs : List SlotCandidate), perDay[i]? = some cs →
          slotsService.dayCandidates fuel (slotsService.hoursMap rows) tenantId slotDuration
            capacity (startDate + i) = some cs ∧
          ∀ x ∈ cs, x.slotDate = startDate + i ∧
            ∃ oh, slotsService.hoursMap rows (dayOfWeek (startDate + i)) = some oh ∧
              oh.isClosed = false ∧ oh.dayOfWeek = dayOfWeek (startDate + i)) ∧
    (endDate < startDate →
      slotsService.candidatesIn zone dateFuel fuel rows tenantId startDate endDate slotDuration
        capacity = some []) ∧
    dayOfWeek 3 = 0 ∧
    (∀ day : Int, dayOfWeek day < 7 ∧ dayOfWeek (day + 1) = (dayOfWeek day + 1) % 7) := by
  have heq : slotsService.candidatesIn zone dateFuel fuel rows tenantId startDate endDate
      slotDuration capacity =
      slotsService.candidates fuel rows tenantId startDate endDate slotDuration capacity := by
    unfold slotsService.candidatesIn slotsService.candidates
    exact dateLoopIn_no_gap zone _ startDate endDate hzone _ startDate dateFuel (le_refl _) rfl
      (by omega)
  refine ⟨heq, ?_, ?_, by decide, ?_⟩
  · intro slots hslots
    rw [heq] at hslots
    unfold slotsService.candidates at hslots
    obtain ⟨perDay, hlen, hjoin, hget⟩ := dateLoop_days _ _ _ _ hslots
    refine ⟨perDay, hlen, hjoin, ?_⟩
    intro i cs hi
    have hbody := hget i cs hi
    refine ⟨hbody, ?_⟩
    intro x hx
    refine ⟨(dayCandidates_mem hbody x hx).1, ?_⟩
    unfold slotsService.dayCandidates at hbody
    cases hmap : slotsService.hoursMap rows (dayOfWeek (startDate + i)) with
    | none =>
      rw [hmap] at hbody
      simp only [Option.some.injEq] at hbody
      rw [← hbody] at hx
      cases hx
    | some oh =>
      rw [hmap] at hbody
      simp only at hbody
      by_cases hc : oh.isClosed = true
      · simp only [hc, if_true, Option.some.injEq] at hbody
        rw [← hbody] at hx
        cases hx
      · exact ⟨oh, rfl, by simpa using hc, (hoursMap_some hmap).2⟩
  · intro hlt
    rw [heq]
    unfold slotsService.candidates
    have : (endDate - startDate + 1).toNat = 0 := by omega
    rw [this]
    rfl
  · intro day
    unfold dayOfWeek
    constructor <;> omega

/-- The date loop over a week from Thursday, day 20000, in a zone with a local
midnight on every day. -/
theorem date_iteration_witness :
    slotsService.candidatesIn zoneUtc 7 1000 (slotsRepository.getOperatingHours hoursWeek 1) 1
        20000 20006 60 2 =
      some [{ tenantId := 1, slotDate := 20003, startTime := 480, endTime := 540,
              maxCapacity := 2 },
            { tenantId := 1, slotDate := 20003, startTime := 540, endTime := 600,
              maxCapacity := 2 }] ∧
    slotsService.candidatesIn zoneUtc 7 1000 (slotsRepository.getOperatingHours hoursWeek 1) 1
        20000 20006 60 2 =
      slotsService.candidates 1000 (slotsRepository.getOperatingHours hoursWeek 1) 1
        20000 20006 60 2 :=
  ⟨rfl, (date_iteration zoneUtc 7 1000 (slotsRepository.getOperatingHours hoursWeek 1) 1
    20000 20006 60 2 (fun _ _ _ => rfl) (by decide)).1⟩

/-! ## Decimal digits -/

theorem digitChar_value : ∀ d : Nat, d < 10 → (Nat.digitChar d).toNat - 48 = d := by
  decide

theorem decimalValue_append (xs : List Char) (c : Char) :
    decimalValue (xs ++ [c]) = decimalValue xs * 10 + (c.toNat - 48) := by
  simp only [decimalValue, List.foldl_append, List.foldl_cons, List.foldl_nil]

theorem toDigitsCore_append : ∀ (fuel n : Nat) (ds : List Char),
    Nat.toDigitsCore 10 fuel n ds = Nat.toDigitsCore 10 fuel n [] ++ ds := by
  intro fuel
  induction fuel with
  | zero => intro n ds; simp [Nat.toDigitsCore]
  | succ fuel ih =>
    intro n ds
    simp only [Nat.toDigitsCore]
    split_ifs with h
    · simp
    · rw [ih (n / 10) (Nat.digitChar (n % 10) :: ds), ih (n / 10) [Nat.digitChar (n % 10)]]
      simp

theorem decimalValue_toDigitsCore : ∀ (fuel n : Nat), n < fuel →
    decimalValue (Nat.toDigitsCore 10 fuel n []) = n := by
  intro fuel
  induction fuel with
  | zero => intro n h; omega
  | succ fuel ih =>
    intro n hn
    simp only [Nat.toDigitsCore]
    split_ifs with h
    · have hlt : n < 10 := by omega
      have hmod : n % 10 = n := Nat.mod_eq_of_lt hlt
      rw [hmod]
      simp only [decimalValue, List.foldl_cons, List.foldl_nil, Nat.zero_mul, Nat.zero_add]
      exact digitChar_value n hlt
    · rw [toDigitsCore_append, decimalValue_append, ih (n / 10) (by omega),
        digitChar_value (n % 10) (Nat.mod_lt _ (by decide))]
      omega

theorem toDigits_injective {a b : Nat} (h : Nat.toDigits 10 a = Nat.toDigits 10 b) : a = b := by
  have ha := decimalValue_toDigitsCore (a + 1) a (by omega)
  have hb := decimalValue_toDigitsCore (b + 1) b (by omega)
  unfold Nat.toDigits at h
  rw [h] at ha
  omega

theorem withCounter_injective (base : List Char) {a b : Nat}
    (h : tenantsRepository.withCounter base a = tenantsRepository.withCounter base b) :
    a = b := by
  unfold tenantsRepository.withCounter at h
  have h1 := List.append_cancel_left h
  exact toDigits_injective (List.cons_injective h1)

/-! ## The slug loop -/

/-- Among the candidates with counters 1 to `slugs.length + 1` one is free. -/
theorem exists_free_counter (slugs : List (List Char)) (base : List Char) :
    ∃ k, 1 ≤ k ∧ tenantsRepository.withCounter base k ∉ slugs := by
  by_contra hno
  have hall : ∀ k, 1 ≤ k → tenantsRepository.withCounter base k ∈ slugs := by
    intro k hk
    by_contra hk'
    exact hno ⟨k, hk, hk'⟩
  have hnodup : ((List.range (slugs.length + 1)).map
      (fun i => tenantsRepository.withCounter base (i + 1))).Nodup := by
    apply List.Nodup.map _ (List.nodup_range _)
    intro a b hab
    have := withCounter_injective base hab
    omega
  have hsub : (List.range (slugs.length + 1)).map
      (fun i => tenantsRepository.withCounter base (i + 1)) ⊆ slugs := by
    intro x hx
    obtain ⟨i, -, rfl⟩ := List.mem_map.1 hx
    exact hall (i + 1) (by omega)
  have hlen := (List.subperm_of_subset hnodup hsub).length_le
  simp only [List.length_map, List.length_range] at hlen
  omega

theorem slugLoop_run (slugs : List (List Char)) (base : List Char) :
    ∀ (n j fuel : Nat),
      (∀ i, j ≤ i → i < j + n → tenantsRepository.withCounter base i ∈ slugs) →
      tenantsRepository.withCounter base (j + n) ∉ slugs → n + 1 ≤ fuel →
      tenantsRepository.slugLoop slugs base fuel (tenantsRepository.withCounter base j) (j + 1) =
        some (tenantsRepository.withCounter base (j + n)) := by
  intro n
  induction n with
  | zero =>
    intro j fuel _ hfree hfuel
    obtain ⟨f, rfl⟩ : ∃ f, fuel = f + 1 := ⟨fuel - 1, by omega⟩
    have hc : slugs.contains (tenantsRepository.withCounter base j) = false := by
      simpa using hfree
    simp only [tenantsRepository.slugLoop, hc, Bool.false_eq_true, if_false, Nat.add_zero]
  | succ n ih =>
    intro j fuel htaken hfree hfuel
    obtain ⟨f, rfl⟩ : ∃ f, fuel = f + 1 := ⟨fuel - 1, by omega⟩
    have hc : slugs.contains (tenantsRepository.withCounter base j) = true := by
      simpa using htaken j (le_refl _) (by omega)
    simp only [tenantsRepository.slugLoop, hc, if_true]
    have := ih (j + 1) f (fun i h1 h2 => htaken i (by omega) (by omega))
      (by rw [show j + 1 + n = j + (n + 1) by omega]; exact hfree) (by omega)
    rw [this]
    congr 2
    omega

/-! ## Hyphens of the base slug -/

theorem isSlugChar_hyphen : tenantsRepository.isSlugChar '-' = false := by decide

theorem replaceRuns_chain : ∀ (l : List Char) (inRun : Bool),
    List.Chain' (fun a b => ¬ (a = '-' ∧ b = '-')) (tenantsRepository.replaceRuns inRun l) ∧
    (inRun = true → (tenantsRepository.replaceRuns inRun l).head? ≠ some '-') ∧
    ∀ c ∈ tenantsRepository.replaceRuns inRun l,
      tenantsRepository.isSlugChar c = true ∨ c = '-' := by
  intro l
  induction l with
  | nil =>
    intro inRun
    simp [tenantsRepository.replaceRuns]
  | cons c cs ih =>
    intro inRun
    by_cases hc : tenantsRepository.isSlugChar c = true
    · have hne : c ≠ '-' := by
        intro h
        rw [h, isSlugChar_hyphen] at hc
        cases hc
      obtain ⟨h1, -, h3⟩ := ih false
      simp only [tenantsRepository.replaceRuns, hc, if_true]
      refine ⟨?_, ?_, ?_⟩
      · rw [List.chain'_cons']
        exact ⟨fun y _ h => hne h.1, h1⟩
      · intro _ h
        simp only [List.head?_cons, Option.some.injEq] at h
        exact hne h
      · intro x hx
        rcases List.mem_cons.1 hx with hx | hx
        · rw [hx]; exact Or.inl hc
        · exact h3 x hx
    · obtain ⟨h1, h2, h3⟩ := ih true
      cases inRun with
      | true =>
        simp only [tenantsRepository.replaceRuns, hc, Bool.false_eq_true, if_false, if_true]
        exact ⟨h1, fun _ => h2 rfl, h3⟩
      | false =>
        simp only [tenantsRepository.replaceRuns, hc, Bool.false_eq_true, if_false]
        refine ⟨?_, ?_, ?_⟩
        · rw [List.chain'_cons']
          refine ⟨fun y hy h => ?_, h1⟩
          apply h2 rfl
          rw [Option.mem_def] at hy
          rw [hy, h.2]
        · intro h
          cases h
        · intro x hx
          rcases List.mem_cons.1 hx with hx | hx
          · exact Or.inr hx
          · exact h3 x hx

theorem dropLeadingHyphen_spec (s : List Char)
    (h : List.Chain' (fun a b => ¬ (a = '-' ∧ b = '-')) s) :
    List.Chain' (fun a b => ¬ (a = '-' ∧ b = '-')) (tenantsRepository.dropLeadingHyphen s) ∧
    (tenantsRepository.dropLeadingHyphen s).head? ≠ some '-' ∧
    (∀ c ∈ tenantsRepository.dropLeadingHyphen s, c ∈ s) ∧
    (s.getLast? ≠ some '-' → (tenantsRepository.dropLeadingHyphen s).getLast? ≠ some '-') := by
  cases s with
  | nil => simp [tenantsRepository.dropLeadingHyphen]
  | cons c cs =>
    by_cases hc : c = '-'
    · simp only [tenantsRepository.dropLeadingHyphen, hc, if_true]
      rw [hc, List.chain'_cons'] at h
      refine ⟨h.2, ?_, fun x hx => List.mem_cons_of_mem _ hx, ?_⟩
      · intro hhead
        exact h.1 '-' (by rw [Option.mem_def]; exact hhead) ⟨rfl, rfl⟩
      · intro hlast
        cases cs with
        | nil => simp
        | cons d ds =>
          rw [List.getLast?_cons_cons] at hlast
          exact hlast
    · simp only [tenantsRepository.dropLeadingHyphen, hc, if_false]
      refine ⟨h, ?_, fun x hx => hx, fun hlast => hlast⟩
      simp only [List.head?_cons, ne_eq, Option.some.injEq]
      exact hc

theorem chain_reverse (s : List Char)
    (h : List.Chain' (fun a b => ¬ (a = '-' ∧ b = '-')) s) :
    List.Chain' (fun a b => ¬ (a = '-' ∧ b = '-')) s.reverse := by
  rw [List.chain'_reverse]
  apply List.Chain'.imp _ h
  intro a b hab hba
  exact hab ⟨hba.2, hba.1⟩

/-- The base slug has no hyphen at the start or the end and no two hyphens in
a row, and its characters are of the class `[a-z0-9]` or hyphens. -/
theorem baseSlug_hyphens (toLowerCase : List Char → List Char) (name : List Char) :
    (tenantsRepository.baseSlug toLowerCase name).head? ≠ some '-' ∧
    (tenantsRepository.baseSlug toLowerCase name).getLast? ≠ some '-' ∧
    List.Chain' (fun a b => ¬ (a = '-' ∧ b = '-'))
      (tenantsRepository.baseSlug toLowerCase name) ∧
    ∀ c ∈ tenantsRepository.baseSlug toLowerCase name,
      tenantsRepository.isSlugChar c = true ∨ c = '-' := by
  obtain ⟨h1, -, h3⟩ := replaceRuns_chain (toLowerCase name) false
  obtain ⟨t1, t2, t3, -⟩ := dropLeadingHyphen_spec _ h1
  have t2' : (tenantsRepository.dropLeadingHyphen
      (tenantsRepository.replaceRuns false (toLowerCase name))).reverse.getLast? ≠
      some '-' := by
    rw [List.getLast?_reverse]
    exact t2
  obtain ⟨u1, u2, u3, u4⟩ := dropLeadingHyphen_spec _ (chain_reverse _ t1)
  unfold tenantsRepository.baseSlug tenantsRepository.trimHyphens
  refine ⟨?_, ?_, chain_reverse _ u1, ?_⟩
  · rw [List.head?_reverse]
    exact u4 t2'
  · rw [List.getLast?_reverse]
    exact u2
  · intro c hc
    rw [List.mem_reverse] at hc
    have := u3 c hc
    rw [List.mem_reverse] at this
    exact h3 c (t3 c this)

/-! ## Claim on the slug -/

/-- C30 (unique slug).  For every name and every list of existing slugs
`generateUniqueSlug` returns once it is allowed `slugs.length + 2` queries, and
more queries give the same slug; the slug is not among the existing ones; it
is the base slug when that is free, and otherwise the base slug with a hyphen
and the least counter from 1 on whose slug is free; the base slug has no hyphen
at the start or the end and no two hyphens in a row. -/
theorem generateUniqueSlug_spec (toLowerCase : List Char → List Char)
    (slugs : List (List Char)) (name : List Char) :
    ∃ result,
      (∀ fuel, slugs.length + 2 ≤ fuel →
        tenantsRepository.generateUniqueSlug toLowerCase slugs fuel name = some result) ∧
      result ∉ slugs ∧
      (tenantsRepository.baseSlug toLowerCase name ∉ slugs →
        result = tenantsRepository.baseSlug toLowerCase name) ∧
      (tenantsRepository.baseSlug toLowerCase name ∈ slugs →
        ∃ k, 1 ≤ k ∧ k ≤ slugs.length ∧
          result = tenantsRepository.withCounter
            (tenantsRepository.baseSlug toLowerCase name) k ∧
          ∀ j, 1 ≤ j → j < k →
            tenantsRepository.withCounter (tenantsRepository.baseSlug toLowerCase name) j ∈
              slugs) ∧
      (tenantsRepository.baseSlug toLowerCase name).head? ≠ some '-' ∧
      (tenantsRepository.baseSlug toLowerCase name).getLast? ≠ some '-' ∧
      List.Chain' (fun a b => ¬ (a = '-' ∧ b = '-'))
        (tenantsRepository.baseSlug toLowerCase name) := by
  obtain ⟨hh, hl, hchain, -⟩ := baseSlug_hyphens toLowerCase name
  by_cases hbase : tenantsRepository.baseSlug toLowerCase name ∈ slugs
  · have hex := exists_free_counter slugs (tenantsRepository.baseSlug toLowerCase name)
    classical
    have hspec := Nat.find_spec hex
    have hmin := fun j => Nat.find_min (m := j) hex
    have hk1 : 1 ≤ Nat.find hex := hspec.1
    have htaken : ∀ j, 1 ≤ j → j < Nat.find hex →
        tenantsRepository.withCounter (tenantsRepository.baseSlug toLowerCase name) j ∈
          slugs := by
      intro j hj hlt
      by_contra hnot
      exact hmin j hlt ⟨hj, hnot⟩
    have hkle : Nat.find hex ≤ slugs.length := by
      by_contra hgt
      have hnodup : (tenantsRepository.baseSlug toLowerCase name ::
          (List.range slugs.length).map
            (fun i => tenantsRepository.withCounter
              (tenantsRepository.baseSlug toLowerCase name) (i + 1))).Nodup := by
        rw [List.nodup_cons]
        constructor
        · intro hmem
          obtain ⟨i, -, hi⟩ := List.mem_map.1 hmem
          have := congrArg List.length hi
          simp only [tenantsRepository.withCounter, List.length_append, List.length_cons] at this
          omega
        · apply List.Nodup.map _ (List.nodup_range _)
          intro a b hab
          have := withCounter_injective _ hab
          omega
      have hsub : (tenantsRepository.baseSlug toLowerCase name ::
          (List.range slugs.length).map
            (fun i => tenantsRepository.withCounter
              (tenantsRepository.baseSlug toLowerCase name) (i + 1))) ⊆ slugs := by
        intro x hx
        rcases List.mem_cons.1 hx with hx | hx
        · rw [hx]; exact hbase
        · obtain ⟨i, hi, rfl⟩ := List.mem_map.1 hx
          rw [List.mem_range] at hi
          exact htaken (i + 1) (by omega) (by omega)
      have hlen := (List.subperm_of_subset hnodup hsub).length_le
      simp only [List.length_cons, List.length_map, List.length_range] at hlen
      omega
    refine ⟨tenantsRepository.withCounter (tenantsRepository.baseSlug toLowerCase name)
      (Nat.find hex), ?_, hspec.2, fun h => absurd hbase h,
      fun _ => ⟨Nat.find hex, hk1, hkle, rfl, htaken⟩, hh, hl, hchain⟩
    intro fuel hfuel
    obtain ⟨f, rfl⟩ : ∃ f, fuel = f + 1 := ⟨fuel - 1, by omega⟩
    have hc : slugs.contains (tenantsRepository.baseSlug toLowerCase name) = true := by
      simpa using hbase
    unfold tenantsRepository.generateUniqueSlug
    simp only [tenantsRepository.slugLoop, hc, if_true]
    have hrun := slugLoop_run slugs (tenantsRepository.baseSlug toLowerCase name)
      (Nat.find hex - 1) 1 f
      (fun i h1 h2 => htaken i h1 (by omega))
      (by rw [show 1 + (Nat.find hex - 1) = Nat.find hex by omega]; exact hspec.2)
      (by omega)
    rw [show 1 + (Nat.find hex - 1) = Nat.find hex by omega] at hrun
    exact hrun
  · refine ⟨tenantsRepository.baseSlug toLowerCase name, ?_, hbase, fun _ => rfl,
      fun h => absurd h hbase, hh, hl, hchain⟩
    intro fuel hfuel
    obtain ⟨f, rfl⟩ : ∃ f, fuel = f + 1 := ⟨fuel - 1, by omega⟩
    have hc : slugs.contains (tenantsRepository.baseSlug toLowerCase name) = false := by
      simpa using hbase
    unfold tenantsRepository.generateUniqueSlug
    simp only [tenantsRepository.slugLoop, hc, Bool.false_eq_true, if_false]

/-- Witness of C30: a name with capitals, an ampersand, two blanks and an
exclamation mark, with the base slug and the first numbered slug taken. -/
theorem generateUniqueSlug_spec_witness :
    tenantsRepository.baseSlug asciiLower "Joe & Sons  Car Wash!".toList =
        "joe-sons-car-wash".toList ∧
      tenantsRepository.generateUniqueSlug asciiLower
          ["joe-sons-car-wash".toList, "joe-sons-car-wash-1".toList] 4
          "Joe & Sons  Car Wash!".toList =
        some "joe-sons-car-wash-2".toList ∧
      tenantsRepository.generateUniqueSlug asciiLower [] 1 "Joe & Sons  Car Wash!".toList =
        some "joe-sons-car-wash".toList ∧
      ∃ result,
        (∀ fuel, ["joe-sons-car-wash".toList, "joe-sons-car-wash-1".toList].length + 2 ≤ fuel →
          tenantsRepository.generateUniqueSlug asciiLower
            ["joe-sons-car-wash".toList, "joe-sons-car-wash-1".toList] fuel
            "Joe & Sons  Car Wash!".toList = some result) ∧
        result ∉ ["joe-sons-car-wash".toList, "joe-sons-car-wash-1".toList] := by
  refine ⟨by decide, by decide, by decide, ?_⟩
  obtain ⟨result, h1, h2, -⟩ := generateUniqueSlug_spec asciiLower
    ["joe-sons-car-wash".toList, "joe-sons-car-wash-1".toList]
    "Joe & Sons  Car Wash!".toList
  exact ⟨result, h1, h2⟩

end Washco
